import Mathlib

/-!
Verification of the two CLI text-generation tools in this repository:
the CLAUDE.md configuration-document generator (`claudemd_generator.py`)
and the prompt-template tool (`prompt_generator.py`).  Python strings are
modelled as Lean `String` / `List Char`; Python dictionaries with a known
field set are modelled as structures with `Option` fields (a `none` field
models an absent key), and dictionaries with open key sets as association
lists in insertion order.
-/

namespace ClaudeGen

/-- Python `"sep".join(xs)` on a list of strings. -/
def pyJoin (sep : String) : List String → String
  | [] => ""
  | x :: rest => rest.foldl (fun acc y => acc ++ sep ++ y) x

/-- Truthiness of Python `p.strip()`: `p` contains a non-whitespace character. -/
def hasNonWS (s : String) : Bool := s.data.any (fun ch => !ch.isWhitespace)

/-- The two supported output locales (global `_LANG` flag, fixed per run). -/
inductive Lang where
  | zh
  | en
deriving DecidableEq, Repr

/-- `L(zh, en)`: pick the text for the current language. -/
def L (lang : Lang) (zh en : String) : String :=
  match lang with
  | Lang.zh => zh
  | Lang.en => en

/-- Section-title lookup `T(key)` (the `_TITLES` mapping, default: the key itself). -/
def T (lang : Lang) (key : String) : String :=
  if key = "overview" then L lang "项目概述" "Project Overview"
  else if key = "role" then L lang "角色定义" "Role Definition"
  else if key = "tech" then L lang "技术栈与环境" "Tech Stack & Environment"
  else if key = "structure" then L lang "项目结构" "Project Structure"
  else if key = "commands" then L lang "常用命令" "Common Commands"
  else if key = "style" then L lang "代码规范" "Code Style"
  else if key = "core" then L lang "核心规范" "Core Rules"
  else if key = "workflow" then L lang "工作流程" "Workflow"
  else if key = "thinking" then L lang "思考策略" "Thinking Strategy"
  else if key = "testing" then L lang "测试规范" "Testing"
  else if key = "error" then L lang "错误处理" "Error Handling"
  else if key = "security" then L lang "安全规范" "Security"
  else if key = "git" then L lang "Git 规范" "Git Conventions"
  else if key = "hard" then L lang "禁止事项" "Hard Rules — NEVER Do"
  else if key = "gotchas" then L lang "特殊注意" "Gotchas & Warnings"
  else if key = "verify" then L lang "验证检查清单" "Verification Checklist"
  else if key = "references" then L lang "参考资源" "References"
  else key

/--
The Configuration Mapping built by the wizard / presets.  Each field models
one key of the Python `cfg` dict; `none` models an absent key, mirroring
`cfg.get(key, default)` via `Option.getD`.  The field `osEnv` models the
dict key `"os"`.
-/
structure Cfg where
  project_name : Option String := none
  project_desc : Option String := none
  project_type : Option String := none
  project_status : Option String := none
  role : Option String := none
  persona_extras : Option (List String) := none
  tech_items : Option (List String) := none
  language : Option String := none
  framework : Option String := none
  database : Option String := none
  infrastructure : Option String := none
  osEnv : Option String := none
  tech_extras : Option (List String) := none
  project_structure : Option String := none
  commands : Option (List (String × String)) := none
  code_style_rules : Option (List String) := none
  core_rules : Option (List String) := none
  workflow : Option (List String) := none
  thinking_strategy : Option (List String) := none
  testing_rules : Option (List String) := none
  error_handling : Option (List String) := none
  security_rules : Option (List String) := none
  git_rules : Option (List String) := none
  hard_rules : Option (List String) := none
  gotchas : Option (List String) := none
  verification : Option (List String) := none
  references : Option (List String) := none
deriving DecidableEq, Repr

/-- `_bullet(items)`: a `- `-prefixed line per item, empty string for an empty list. -/
def bullet (items : List String) : String :=
  if items = [] then "" else pyJoin "\n" (items.map (fun x => "- " ++ x))

/-- Helper for `_numbered`: lines `i. x` starting at index `i`. -/
def numberedFrom : Nat → List String → List String
  | _, [] => []
  | i, x :: rest => (toString i ++ ". " ++ x) :: numberedFrom (i + 1) rest

/-- `_numbered(items)`: 1-based numbered lines, empty string for an empty list. -/
def numbered (items : List String) : String :=
  if items = [] then "" else pyJoin "\n" (numberedFrom 1 items)

/-- `render_overview`. -/
def renderOverview (lang : Lang) (cfg : Cfg) : String :=
  let name := cfg.project_name.getD "my-project"
  let desc := cfg.project_desc.getD ""
  let ptype := cfg.project_type.getD ""
  let status := cfg.project_status.getD ""
  pyJoin "\n"
    (["# " ++ name, "", "## " ++ T lang "overview", ""]
      ++ (if desc ≠ "" then [desc, ""] else [])
      ++ (if ptype ≠ "" then ["- **" ++ L lang "类型" "Type" ++ "**: " ++ ptype] else [])
      ++ (if status ≠ "" then ["- **" ++ L lang "状态" "Status" ++ "**: " ++ status] else [])
      ++ [""])

/-- `render_role`. -/
def renderRole (lang : Lang) (cfg : Cfg) : String :=
  let role := cfg.role.getD ""
  let extras := cfg.persona_extras.getD []
  if role = "" then ""
  else
    pyJoin "\n"
      (["## " ++ T lang "role", "", "You are a " ++ role ++ ".", ""]
        ++ (if extras ≠ [] then [bullet extras, ""] else []))

/--
The legacy-format tech list built inside `render_tech` when `tech_items`
is empty: label/value entries for the five old keys followed by
`tech_extras`.
-/
def legacyTechItems (lang : Lang) (cfg : Cfg) : List String :=
  (if cfg.language.getD "" ≠ "" then
      ["**" ++ L lang "语言" "Language" ++ "**: " ++ cfg.language.getD ""] else [])
    ++ (if cfg.framework.getD "" ≠ "" then
      ["**" ++ L lang "框架" "Framework" ++ "**: " ++ cfg.framework.getD ""] else [])
    ++ (if cfg.database.getD "" ≠ "" then
      ["**" ++ L lang "数据库" "Database" ++ "**: " ++ cfg.database.getD ""] else [])
    ++ (if cfg.infrastructure.getD "" ≠ "" then
      ["**" ++ L lang "基础设施" "Infrastructure" ++ "**: " ++ cfg.infrastructure.getD ""] else [])
    ++ (if cfg.osEnv.getD "" ≠ "" then
      ["**" ++ L lang "操作系统" "OS / Runtime" ++ "**: " ++ cfg.osEnv.getD ""] else [])
    ++ cfg.tech_extras.getD []

/-- The text `render_tech` outputs. -/
def renderTechOut (lang : Lang) (cfg : Cfg) : String :=
  let items0 := cfg.tech_items.getD []
  let items := if items0 = [] then legacyTechItems lang cfg else items0
  if items = [] then ""
  else pyJoin "\n" ["## " ++ T lang "tech", "", bullet items, ""]

/--
The state change `render_tech` performs on the mapping: `items` aliases the
stored `tech_items` list, so when that key is present with an empty list
the in-place `append`/`extend` calls mutate the mapping.  When the key is
absent, `cfg.get` returns a fresh list and the mapping is untouched.
-/
def renderTechEffect (lang : Lang) (cfg : Cfg) : Cfg :=
  match cfg.tech_items with
  | some [] => { cfg with tech_items := some (legacyTechItems lang cfg) }
  | _ => cfg

/-- `render_structure`. -/
def renderStructure (lang : Lang) (cfg : Cfg) : String :=
  let s := cfg.project_structure.getD ""
  if s = "" then ""
  else pyJoin "\n" ["## " ++ T lang "structure", "", "```", s, "```", ""]

/-- `render_commands`. -/
def renderCommands (lang : Lang) (cfg : Cfg) : String :=
  let cmds := cfg.commands.getD []
  if cmds = [] then ""
  else
    pyJoin "\n"
      (["## " ++ T lang "commands", ""]
        ++ cmds.map (fun p => "- **" ++ p.1 ++ "**: `" ++ p.2 ++ "`")
        ++ [""])

/-- `render_style`. -/
def renderStyle (lang : Lang) (cfg : Cfg) : String :=
  let items := cfg.code_style_rules.getD []
  if items = [] then "" else "## " ++ T lang "style" ++ "\n\n" ++ bullet items ++ "\n"

/-- `render_core`. -/
def renderCore (lang : Lang) (cfg : Cfg) : String :=
  let items := cfg.core_rules.getD []
  if items = [] then "" else "## " ++ T lang "core" ++ "\n\n" ++ bullet items ++ "\n"

/-- `render_workflow`. -/
def renderWorkflow (lang : Lang) (cfg : Cfg) : String :=
  let items := cfg.workflow.getD []
  if items = [] then "" else "## " ++ T lang "workflow" ++ "\n\n" ++ numbered items ++ "\n"

/-- `render_thinking`. -/
def renderThinking (lang : Lang) (cfg : Cfg) : String :=
  let items := cfg.thinking_strategy.getD []
  if items = [] then ""
  else pyJoin "\n" ["## " ++ T lang "thinking", "", bullet items, ""]

/-- `render_testing`. -/
def renderTesting (lang : Lang) (cfg : Cfg) : String :=
  let items := cfg.testing_rules.getD []
  if items = [] then "" else "## " ++ T lang "testing" ++ "\n\n" ++ bullet items ++ "\n"

/-- `render_error`. -/
def renderError (lang : Lang) (cfg : Cfg) : String :=
  let items := cfg.error_handling.getD []
  if items = [] then "" else "## " ++ T lang "error" ++ "\n\n" ++ bullet items ++ "\n"

/-- `render_security`. -/
def renderSecurity (lang : Lang) (cfg : Cfg) : String :=
  let items := cfg.security_rules.getD []
  if items = [] then "" else "## " ++ T lang "security" ++ "\n\n" ++ bullet items ++ "\n"

/-- `render_git`. -/
def renderGit (lang : Lang) (cfg : Cfg) : String :=
  let items := cfg.git_rules.getD []
  if items = [] then "" else "## " ++ T lang "git" ++ "\n\n" ++ bullet items ++ "\n"

/-- `render_hard`. -/
def renderHard (lang : Lang) (cfg : Cfg) : String :=
  let items := cfg.hard_rules.getD []
  if items = [] then ""
  else
    pyJoin "\n"
      (["## " ++ T lang "hard", "",
        L lang "重要：以下规则绝对不可违反。"
          "IMPORTANT: The following rules must NEVER be violated.", ""]
        ++ items.map (fun x => "- ❌ " ++ x)
        ++ [""])

/-- `render_gotchas`. -/
def renderGotchas (lang : Lang) (cfg : Cfg) : String :=
  let items := cfg.gotchas.getD []
  if items = [] then ""
  else
    pyJoin "\n"
      (["## " ++ T lang "gotchas", ""] ++ items.map (fun x => "- ⚠️ " ++ x) ++ [""])

/-- `render_verify`. -/
def renderVerify (lang : Lang) (cfg : Cfg) : String :=
  let items := cfg.verification.getD []
  if items = [] then ""
  else
    pyJoin "\n"
      (["## " ++ T lang "verify", "",
        L lang "完成任何修改后，必须按以下清单逐项验证："
          "After completing any change, verify each item below:", ""]
        ++ items.map (fun x => "- [ ] " ++ x)
        ++ [""])

/-- `render_references`. -/
def renderReferences (lang : Lang) (cfg : Cfg) : String :=
  let items := cfg.references.getD []
  if items = [] then "" else "## " ++ T lang "references" ++ "\n\n" ++ bullet items ++ "\n"

/--
`assemble(cfg)`, with the in-place mutation of the shared dict made
explicit: the renderers run in the declared `_RENDERERS` order against one
mapping, `render_tech` may mutate it (aliasing), and later renderers see
the mutated mapping.  Returns the document and the final mapping state.
-/
def assembleS (lang : Lang) (cfg : Cfg) : String × Cfg :=
  let p1 := renderOverview lang cfg
  let p2 := renderRole lang cfg
  let p3 := renderTechOut lang cfg
  let cfg1 := renderTechEffect lang cfg
  let parts := [p1, p2, p3,
    renderStructure lang cfg1, renderCommands lang cfg1, renderStyle lang cfg1,
    renderCore lang cfg1, renderWorkflow lang cfg1, renderThinking lang cfg1,
    renderTesting lang cfg1, renderError lang cfg1, renderSecurity lang cfg1,
    renderGit lang cfg1, renderHard lang cfg1, renderGotchas lang cfg1,
    renderVerify lang cfg1, renderReferences lang cfg1]
  (pyJoin "\n" (parts.filter hasNonWS), cfg1)

/-- The document `assemble` returns. -/
def assembleOut (lang : Lang) (cfg : Cfg) : String := (assembleS lang cfg).1

/-- The 17 renderer outputs on a fixed mapping, in the declared order. -/
def sectionParts (lang : Lang) (cfg : Cfg) : List String :=
  [renderOverview lang cfg, renderRole lang cfg, renderTechOut lang cfg,
   renderStructure lang cfg, renderCommands lang cfg, renderStyle lang cfg,
   renderCore lang cfg, renderWorkflow lang cfg, renderThinking lang cfg,
   renderTesting lang cfg, renderError lang cfg, renderSecurity lang cfg,
   renderGit lang cfg, renderHard lang cfg, renderGotchas lang cfg,
   renderVerify lang cfg, renderReferences lang cfg]

/-- Strip one trailing newline from a string (used to speak about section cores). -/
def chop (s : String) : String :=
  if s.data.getLast? = some '\n' then ⟨s.data.dropLast⟩ else s

/-- `isPre p s`: the character list `p` is a prefix of `s`. -/
def isPre : List Char → List Char → Bool
  | [], _ => true
  | _ :: _, [] => false
  | p :: ps, c :: cs => p == c && isPre ps cs

/-- `t` is a suffix of `s`. -/
def strEndsWith (s t : String) : Bool := isPre t.data.reverse s.data.reverse

/-- Substring occurrence on character lists (Python's `in` operator). -/
def occursIn (s pat : List Char) : Bool :=
  match s with
  | [] => pat.isEmpty
  | _ :: cs => isPre pat s || occursIn cs pat

/-- Python `pat in s` on strings. -/
def strContains (s pat : String) : Bool := occursIn s.data pat.data

/-- Python `s.lower()` (ASCII case folding, which is all these tools rely on). -/
def lowerStr (s : String) : String := ⟨s.data.map Char.toLower⟩

/--
Python `str(items)` for a list of strings: the repr `['a', 'b']`.
(The repr's character escaping is not modelled; the tools only test
substring membership of brace-free ASCII keywords against it.)
-/
def pyStrList (items : List String) : String :=
  "[" ++ pyJoin ", " (items.map (fun s => "'" ++ s ++ "'")) ++ "]"

/-- The three default thinking-strategy entries the wizard installs. -/
def thinkingDefaults (lang : Lang) : List String :=
  [L lang "接到复杂任务时，先规划方案再实现" "For complex tasks, plan before implementing",
   L lang "不确定项目约定时，先搜索现有代码参考"
     "When unsure about conventions, search existing code first",
   L lang "修改公共接口前，先查找所有调用方评估影响"
     "Before changing interfaces, grep callers to assess impact"]

/-- The conditional default verification checklist the wizard installs. -/
def verifyDefaults (lang : Lang) : List String :=
  [L lang "lint 检查通过" "Lint checks pass",
   L lang "测试全部通过" "All tests pass",
   L lang "编译成功" "Build succeeds",
   L lang "没有硬编码密钥" "No hardcoded secrets"]

/-- The wizard's keyword test: `"go" in str(cfg.get("tech_items", [])).lower()`. -/
def goCondition (cfg : Cfg) : Bool :=
  strContains (lowerStr (pyStrList (cfg.tech_items.getD []))) "go"

/--
The unconditional post-step defaulting at the end of `wizard()`: install the
3-item thinking-strategy default when none was collected, and the
`go`-conditional verification default when none was collected.
-/
def finalizeWizard (lang : Lang) (cfg : Cfg) : Cfg :=
  let cfg1 :=
    match cfg.thinking_strategy with
    | none => { cfg with thinking_strategy := some (thinkingDefaults lang) }
    | some _ => cfg
  match cfg1.verification with
  | none =>
      { cfg1 with verification := some (if goCondition cfg1 then verifyDefaults lang else []) }
  | some _ => cfg1

/-- A mapping exercising the `render_tech` aliasing: `tech_items` present and empty. -/
def cfgAliasBug : Cfg := { tech_items := some [], language := some "Go 1.23+" }

/-- All optional fields of the mapping empty or absent. -/
def allOptEmpty (cfg : Cfg) : Prop :=
  (cfg.project_name = none ∨ cfg.project_name = some "") ∧
  cfg.project_desc.getD "" = "" ∧ cfg.project_type.getD "" = "" ∧
  cfg.project_status.getD "" = "" ∧ cfg.role.getD "" = "" ∧
  cfg.tech_items.getD [] = [] ∧ cfg.language.getD "" = "" ∧
  cfg.framework.getD "" = "" ∧ cfg.database.getD "" = "" ∧
  cfg.infrastructure.getD "" = "" ∧ cfg.osEnv.getD "" = "" ∧
  cfg.tech_extras.getD [] = [] ∧ cfg.project_structure.getD "" = "" ∧
  cfg.commands.getD [] = [] ∧ cfg.code_style_rules.getD [] = [] ∧
  cfg.core_rules.getD [] = [] ∧ cfg.workflow.getD [] = [] ∧
  cfg.thinking_strategy.getD [] = [] ∧ cfg.testing_rules.getD [] = [] ∧
  cfg.error_handling.getD [] = [] ∧ cfg.security_rules.getD [] = [] ∧
  cfg.git_rules.getD [] = [] ∧ cfg.hard_rules.getD [] = [] ∧
  cfg.gotchas.getD [] = [] ∧ cfg.verification.getD [] = [] ∧
  cfg.references.getD [] = []

/--
The character-list form of the repr `str(list)` body: items quoted with `'`
and joined by `", "`.
-/
def qjoin : List (List Char) → List Char
  | [] => []
  | [s] => '\'' :: (s ++ ['\''])
  | s :: rest => ('\'' :: (s ++ ['\''])) ++ (',' :: ' ' :: qjoin rest)

/-- A wizard result with a Go tech stack and no collected thinking/verification lists. -/
def cfgC5Witness : Cfg := { tech_items := some ["**Language**: Go 1.23+"] }

/--
A section part is either suppressed (empty) or a non-whitespace block with
exactly the trailing newline restored by `chop ++ "\n"`.
-/
def goodPart (p : String) : Prop :=
  p = "" ∨ (hasNonWS p = true ∧ p = chop p ++ "\n")

/-- The emitted section cores (each part minus its final newline), in order. -/
def sectionCores (lang : Lang) (cfg : Cfg) : List String :=
  ((sectionParts lang cfg).map chop).filter (fun c => c != "")

/-- The section-title keys other than the mandatory overview. -/
def otherTitleKeys : List String :=
  ["role", "tech", "structure", "commands", "style", "core", "workflow", "thinking",
   "testing", "error", "security", "git", "hard", "gotchas", "verify", "references"]

end ClaudeGen

-- ========================================================================
-- Tool 2: prompt_generator.py — definitions
-- ========================================================================

namespace PromptGen

open ClaudeGen

/--
A template record: the five fields every entry of `BUILTIN_TEMPLATES` (and
every persisted custom template) carries. The field `vars` models the
source's "variables" key (`variables` is reserved in Lean).
-/
structure Template where
  name : String
  category : String
  description : String
  vars : List String
  template : String
deriving DecidableEq, Repr

/--
The built-in template catalog `BUILTIN_TEMPLATES`, in dict insertion order.
-/
def BUILTIN : List (String × Template) := [
  ("code_review",
   { name := "代码审查",
     category := "开发",
     description := "全方位代码审查（安全、性能、可维护性、并发）",
     vars := ["language", "code"],
     template := "请审查以下 {language} 代码，从这些维度进行评估：\n\n1. **安全性**：SQL注入、XSS、敏感信息泄露、权限校验缺失\n2. **性能**：N+1 查询、内存泄漏、不必要的拷贝、算法复杂度\n3. **可维护性**：命名规范、函数拆分、错误处理、代码重复\n4. **并发安全**：数据竞争、死锁风险、goroutine 泄漏\n\n对每个问题：\n- 指出具体位置（行号或函数名）\n- 说明风险等级（高/中/低）\n- 给出修复后的代码\n\n<code>\n{code}\n</code>" }),
  ("api_design",
   { name := "RESTful API 设计",
     category := "开发",
     description := "设计规范的 RESTful API 接口",
     vars := ["resource", "tech_stack", "requirements"],
     template := "请为 {resource} 资源设计一套完整的 RESTful API。\n\n技术栈：{tech_stack}\n\n业务需求：\n{requirements}\n\n请输出：\n1. API 端点列表（方法 + 路径 + 说明）\n2. 请求/响应的 JSON Schema\n3. 错误码定义\n4. 认证/授权方案\n5. 分页、过滤、排序的参数设计\n6. 示例的 cURL 请求" }),
  ("write_function",
   { name := "编写函数/方法",
     category := "开发",
     description := "按需求编写高质量函数",
     vars := ["language", "function_desc", "constraints"],
     template := "请用 {language} 编写一个函数，功能如下：\n\n{function_desc}\n\n约束条件：\n{constraints}\n\n要求：\n- 包含完整的错误处理\n- 添加必要的注释\n- 编写对应的单元测试（至少覆盖正常路径 + 2 个边界情况）\n- 分析时间和空间复杂度" }),
  ("debug_help",
   { name := "调试求助",
     category := "开发",
     description := "分析错误日志或异常行为",
     vars := ["language", "error_info", "code_context"],
     template := "我在 {language} 项目中遇到以下问题，请帮我分析。\n\n错误信息/异常表现：\n{error_info}\n\n相关代码：\n<code>\n{code_context}\n</code>\n\n请：\n1. 分析错误的根本原因\n2. 给出修复方案（附代码）\n3. 解释为什么会出现这个问题\n4. 建议如何避免类似问题再次发生" }),
  ("unit_test",
   { name := "编写单元测试",
     category := "开发",
     description := "为已有代码生成完整的单元测试",
     vars := ["language", "test_framework", "code"],
     template := "请为以下 {language} 代码编写单元测试。\n\n测试框架：{test_framework}\n\n<code>\n{code}\n</code>\n\n要求：\n- 覆盖所有公开方法\n- 包含正常路径、边界情况、错误路径的测试用例\n- 使用 Table-Driven 测试风格（如果语言支持）\n- Mock 外部依赖\n- 每个测试用例有清晰的命名，说明测试意图" }),
  ("refactor",
   { name := "代码重构",
     category := "开发",
     description := "分析并重构代码以提升质量",
     vars := ["language", "refactor_goal", "code"],
     template := "请重构以下 {language} 代码。\n\n重构目标：{refactor_goal}\n\n<code>\n{code}\n</code>\n\n请：\n1. 指出当前代码的问题\n2. 给出重构后的完整代码\n3. 解释每个重构决策的理由\n4. 确保重构后功能不变（列出需要验证的测试点）" }),
  ("sql_optimize",
   { name := "SQL 优化",
     category := "数据库",
     description := "分析并优化 SQL 查询性能",
     vars := ["database", "sql", "table_schema"],
     template := "请优化以下 SQL 查询。\n\n数据库：{database}\n\n表结构：\n{table_schema}\n\n待优化 SQL：\n```sql\n{sql}\n```\n\n请：\n1. 分析当前 SQL 的执行计划（预估）\n2. 指出性能瓶颈\n3. 给出优化后的 SQL\n4. 建议需要添加的索引\n5. 如果数据量很大，给出分页/分批方案" }),
  ("db_schema_design",
   { name := "数据库表设计",
     category := "数据库",
     description := "根据业务需求设计数据库 Schema",
     vars := ["database", "business_desc", "scale"],
     template := "请根据以下业务需求设计数据库表结构。\n\n数据库类型：{database}\n业务描述：{business_desc}\n预估数据规模：{scale}\n\n请输出：\n1. 完整的 CREATE TABLE DDL\n2. 索引设计及理由\n3. 表关系 ER 图（用 mermaid 语法）\n4. 针对高频查询的优化建议\n5. 数据归档/分表策略（如果需要）" }),
  ("incident_analysis",
   { name := "故障排查",
     category := "运维",
     description := "系统故障的根因分析和应急处理",
     vars := ["symptom", "environment", "known_info"],
     template := "<role>你是一个资深 SRE 工程师</role>\n\n<incident>\n现象：{symptom}\n环境：{environment}\n已知信息：{known_info}\n</incident>\n\n请按以下步骤处理：\n1. 列出可能的根因（按概率从高到低排序）\n2. 对每个根因给出验证命令或排查步骤\n3. 给出临时缓解措施（止血）\n4. 给出根本修复方案\n5. 建议后续的预防措施和监控告警配置" }),
  ("dockerfile",
   { name := "Dockerfile 编写",
     category := "运维",
     description := "编写生产级 Dockerfile",
     vars := ["language", "app_desc", "requirements"],
     template := "请为以下应用编写生产级 Dockerfile。\n\n语言/框架：{language}\n应用描述：{app_desc}\n特殊要求：{requirements}\n\n要求：\n- 使用多阶段构建，最小化镜像体积\n- 使用非 root 用户运行\n- 合理利用缓存层\n- 包含健康检查\n- 添加必要的 LABEL\n- 附带 .dockerignore 文件内容\n- 给出构建和运行命令" }),
  ("k8s_manifest",
   { name := "K8s 资源清单",
     category := "运维",
     description := "生成 Kubernetes 部署资源清单",
     vars := ["app_name", "image", "requirements"],
     template := "请为应用 {app_name} 生成 Kubernetes 部署清单。\n\n镜像：{image}\n要求：{requirements}\n\n请生成以下资源的 YAML：\n1. Deployment（含资源限制、健康检查、滚动更新策略）\n2. Service\n3. HPA（自动伸缩）\n4. ConfigMap / Secret（如需要）\n5. Ingress（如需要）\n\n每个资源附带关键配置项的注释说明。" }),
  ("cicd_pipeline",
   { name := "CI/CD 流水线",
     category := "运维",
     description := "设计 CI/CD 流水线配置",
     vars := ["ci_platform", "tech_stack", "requirements"],
     template := "请为以下项目设计 CI/CD 流水线。\n\nCI 平台：{ci_platform}\n技术栈：{tech_stack}\n要求：{requirements}\n\n请输出：\n1. 完整的流水线配置文件\n2. 各阶段说明（lint → test → build → deploy）\n3. 缓存优化策略\n4. 安全扫描集成\n5. 环境分支策略（dev/staging/prod）" }),
  ("nginx_config",
   { name := "Nginx 配置",
     category := "运维",
     description := "生成 Nginx 配置文件",
     vars := ["scenario", "requirements"],
     template := "请生成 Nginx 配置文件。\n\n使用场景：{scenario}\n具体要求：{requirements}\n\n请输出：\n- 完整的可直接使用的 nginx.conf\n- 关键配置项的注释说明\n- 性能调优建议\n- 安全加固建议（如 Header 设置、限流等）" }),
  ("monitoring_alert",
   { name := "监控告警配置",
     category := "运维",
     description := "设计监控指标和告警规则",
     vars := ["system", "monitoring_tool", "sla"],
     template := "请为 {system} 设计监控和告警方案。\n\n监控工具：{monitoring_tool}\nSLA 要求：{sla}\n\n请输出：\n1. 关键监控指标列表（黄金信号：延迟、流量、错误率、饱和度）\n2. 告警规则配置（含阈值、持续时间、告警等级）\n3. Dashboard 设计建议\n4. 告警通知策略（升级路径）\n5. 常见的误报场景和处理建议" }),
  ("system_design",
   { name := "系统架构设计",
     category := "架构",
     description := "系统级架构设计方案",
     vars := ["system_name", "business_scenario", "nfr"],
     template := "请设计 {system_name} 的系统架构方案。\n\n业务场景：{business_scenario}\n\n非功能性需求：\n{nfr}\n\n请输出：\n1. 架构概览图（mermaid 语法）\n2. 核心组件设计及职责\n3. 数据流说明\n4. 关键技术选型（对比至少 2 个选项，说明取舍）\n5. 容量规划\n6. 高可用和容灾方案\n7. 潜在风险及应对措施" }),
  ("tech_selection",
   { name := "技术选型对比",
     category := "架构",
     description := "对比分析多种技术方案",
     vars := ["scenario", "candidates", "constraints"],
     template := "场景：{scenario}\n候选方案：{candidates}\n约束条件：{constraints}\n\n请从以下维度对比分析：\n1. 功能满足度\n2. 性能表现\n3. 学习曲线和社区生态\n4. 运维复杂度\n5. 成本（许可证/资源消耗）\n6. 团队现有经验匹配度\n\n输出格式：对比表格 + 最终推荐 + 推荐理由" }),
  ("tech_doc",
   { name := "技术文档",
     category := "文档",
     description := "生成技术设计文档或 README",
     vars := ["doc_type", "project", "content_scope"],
     template := "请为 {project} 编写 {doc_type}。\n\n需要覆盖的内容：{content_scope}\n\n要求：\n- 语言简洁专业\n- 包含代码示例\n- 使用 Markdown 格式\n- 适合团队内部共享阅读" }),
  ("commit_message",
   { name := "Git Commit Message",
     category := "文档",
     description := "根据代码变更生成规范的 Commit Message",
     vars := ["changes"],
     template := "请根据以下代码变更生成符合 Conventional Commits 规范的 commit message。\n\n变更内容：\n{changes}\n\n格式要求：\n- type(scope): subject\n- 空行\n- body（解释 what 和 why，不是 how）\n- 空行\n- footer（Breaking Changes, Issue 引用等）\n\ntype 选择：feat/fix/refactor/perf/test/docs/chore/ci\nsubject: 不超过 50 个字符，使用祈使语气" }),
  ("explain_code",
   { name := "代码解释",
     category := "开发",
     description := "解释复杂代码的工作原理",
     vars := ["language", "code"],
     template := "请详细解释以下 {language} 代码的工作原理。\n\n<code>\n{code}\n</code>\n\n请：\n1. 概述这段代码的整体功能\n2. 逐段解释关键逻辑\n3. 说明使用了哪些设计模式或编程技巧\n4. 指出潜在的问题或可以改进的地方\n5. 用通俗易懂的语言，假设读者有基本编程基础但不熟悉这个领域" }),
  ("general_query",
   { name := "通用技术查询",
     category := "通用",
     description := "通用的技术问题查询模板",
     vars := ["topic", "specific_question", "context"],
     template := "<role>你是一个资深全栈工程师，擅长 {topic}</role>\n\n<context>\n{context}\n</context>\n\n<question>\n{specific_question}\n</question>\n\n请：\n- 直接回答问题\n- 给出具体的代码示例或命令\n- 如有多种方案，说明各自的优缺点\n- 注明适用的版本或环境" }),
  ("performance_optimize",
   { name := "性能优化",
     category := "开发",
     description := "分析和优化系统/代码性能",
     vars := ["system_desc", "current_metrics", "target_metrics"],
     template := "请帮我优化以下系统的性能。\n\n系统描述：{system_desc}\n当前性能指标：{current_metrics}\n目标性能指标：{target_metrics}\n\n请：\n1. 分析当前瓶颈点\n2. 按投入产出比排序给出优化方案\n3. 每个方案包含：具体操作步骤、预期提升、风险评估\n4. 给出性能测试/压测方案来验证优化效果" })]

/--
First-match association lookup: Python dict membership / subscription on the
insertion-ordered association-list model of a dict.
-/
def alookup {α : Type} : List (String × α) → String → Option α
  | [], _ => none
  | (k, v) :: rest, key => if k = key then some v else alookup rest key

/--
`d[k] = v` on the insertion-ordered dict model: replace the value in place
when the key exists, otherwise append the new pair.
-/
def dictSet {α : Type} (d : List (String × α)) (k : String) (v : α) :
    List (String × α) :=
  if (d.map Prod.fst).contains k then
    d.map (fun p => if p.1 = k then (k, v) else p)
  else d ++ [(k, v)]

/-- Python `base.update(upd)` on the dict model. -/
def pyDictUpdate {α : Type} (base upd : List (String × α)) : List (String × α) :=
  upd.foldl (fun acc p => dictSet acc p.1 p.2) base

/-- Python `del d[k]` on the dict model: drop the (first) entry with that key. -/
def delKey {α : Type} : List (String × α) → String → List (String × α)
  | [], _ => []
  | (k, v) :: rest, key => if k = key then rest else (k, v) :: delKey rest key

/-- `get_all_templates()`: built-ins merged with (and overridden by) the persisted store. -/
def get_all_templates (custom : List (String × Template)) : List (String × Template) :=
  pyDictUpdate BUILTIN custom

/-- Python `s.strip()` (ASCII whitespace). -/
def pyStrip (s : String) : String :=
  ⟨((s.data.dropWhile Char.isWhitespace).reverse.dropWhile Char.isWhitespace).reverse⟩

/--
The searchable text `search_templates` builds for one entry:
the id, name, description, category, and full template text joined by
single spaces, lower-cased.
-/
def searchable (key : String) (tpl : Template) : String :=
  lowerStr (key ++ " " ++ tpl.name ++ " " ++ tpl.description ++ " " ++
    tpl.category ++ " " ++ tpl.template)

/-- `search_templates`: case-insensitive substring filter over the merged catalog. -/
def search_templates (custom : List (String × Template)) (keyword : String) :
    List (String × Template) :=
  (get_all_templates custom).filter
    (fun p => strContains (searchable p.1 p.2) (lowerStr keyword))

/--
`delete_custom_template`, modelled on the persisted store it loads: the
function returns the store it saves back (unchanged when nothing is deleted)
and whether a deletion happened. `tidRaw` and `confirmRaw` are the two raw
interactive inputs; the source strips the first and strips-and-lowers the
second before comparing.
-/
def delete_custom_template (store : List (String × Template))
    (tidRaw confirmRaw : String) : List (String × Template) × Bool :=
  if store.isEmpty then (store, false)
  else if (store.map Prod.fst).contains (pyStrip tidRaw) then
    if lowerStr (pyStrip confirmRaw) = "y" then (delKey store (pyStrip tidRaw), true)
    else (store, false)
  else (store, false)

/-- `_build_xml_style`: each non-empty field contributes its tagged block. -/
def build_xml_style (role context task fmt constraints : String) : String :=
  pyJoin "\n"
    ((if role ≠ "" then ["<role>" ++ role ++ "</role>"] else []) ++
     (if context ≠ "" then ["\n<context>\n" ++ context ++ "\n</context>"] else []) ++
     (if task ≠ "" then ["\n<task>\n" ++ task ++ "\n</task>"] else []) ++
     (if fmt ≠ "" then ["\n<output_format>" ++ fmt ++ "</output_format>"] else []) ++
     (if constraints ≠ "" then ["\n<constraints>" ++ constraints ++ "</constraints>"] else []))

/-- `_build_markdown_style`. -/
def build_markdown_style (role context task fmt constraints : String) : String :=
  pyJoin "\n"
    ((if role ≠ "" then ["## 角色\n" ++ role] else []) ++
     (if context ≠ "" then ["\n## 上下文\n" ++ context] else []) ++
     (if task ≠ "" then ["\n## 任务\n" ++ task] else []) ++
     (if fmt ≠ "" then ["\n## 输出格式\n" ++ fmt] else []) ++
     (if constraints ≠ "" then ["\n## 约束条件\n" ++ constraints] else []))

/-- `_build_plain_style`. -/
def build_plain_style (role context task fmt constraints : String) : String :=
  pyJoin "\n"
    ((if role ≠ "" then [role] else []) ++
     (if context ≠ "" then ["\n背景信息：\n" ++ context] else []) ++
     (if task ≠ "" then ["\n请完成以下任务：\n" ++ task] else []) ++
     (if fmt ≠ "" then ["\n输出要求：" ++ fmt] else []) ++
     (if constraints ≠ "" then ["\n注意：" ++ constraints] else []))

/-- Number of (possibly overlapping) occurrences of `pat` in `s`. -/
def countOcc (pat : List Char) : List Char → Nat
  | [] => 0
  | c :: rest => (if isPre pat (c :: rest) then 1 else 0) + countOcc pat rest

/-- The tag markers the XML-style builder can emit. -/
def tagMarkers : List String :=
  ["<role>", "</role>", "<context>", "</context>", "<task>", "</task>",
   "<output_format>", "</output_format>", "<constraints>", "</constraints>"]

/-- `s` contains none of the XML-style tag markers. -/
def tagFree (s : String) : Bool := tagMarkers.all (fun m => !(strContains s m))

/--
Bounded-fuel scan of Python's `str.replace` for a nonempty pattern:
non-overlapping left-to-right replacement, resuming after the inserted
replacement text.
-/
def replaceF : Nat → List Char → List Char → List Char → List Char
  | 0, _, _, s => s
  | fuel+1, pat, repl, s =>
    match s with
    | [] => []
    | c :: rest =>
      if isPre pat (c :: rest) ∧ pat ≠ [] then
        repl ++ replaceF fuel pat repl ((c :: rest).drop pat.length)
      else c :: replaceF fuel pat repl rest

/--
Python `s.replace(pat, repl)` on character lists, for a nonempty pattern
(every pattern the tool passes is a brace-wrapped variable name, hence
nonempty; the fuel `s.length` is always sufficient because each scan step
consumes at least one character).
-/
def replaceC (pat repl s : List Char) : List Char := replaceF s.length pat repl s

/-- Python `s.replace(pat, repl)` on strings. -/
def pyReplace (s pat repl : String) : String := ⟨replaceC pat.data repl.data s.data⟩

/--
The rendering loop of `use_template`: one sequential `str.replace` per
collected variable, in collection order.
-/
def renderTemplate (tpl : String) (vals : List (String × String)) : String :=
  vals.foldl (fun acc p => pyReplace acc ("\x7b" ++ p.1 ++ "\x7d") p.2) tpl

/--
A template text split into segments: literal text and `\x7bv\x7d` placeholder
holes.
-/
inductive Seg where
  | lit (s : String)
  | hole (v : String)
deriving DecidableEq, Repr

/-- The literal marker a hole stands for in the template text. -/
def marker (v : String) : String := "\x7b" ++ v ++ "\x7d"

/-- The raw text of one segment. -/
def segText : Seg → String
  | .lit s => s
  | .hole v => marker v

/-- Concatenation of a list of strings. -/
def concatStrs : List String → String
  | [] => ""
  | s :: rest => s ++ concatStrs rest

/-- The template text denoted by a segment list. -/
def flatten (segs : List Seg) : String := concatStrs (segs.map segText)

/-- One segment after simultaneous substitution. -/
def substSeg (vals : List (String × String)) : Seg → String
  | .lit s => s
  | .hole v =>
    match alookup vals v with
    | some val => val
    | none => marker v

/--
Simultaneous substitution: every keyed hole replaced by its (first) value,
unkeyed holes left as literal markers, literal text untouched.
-/
def flattenSub (vals : List (String × String)) (segs : List Seg) : String :=
  concatStrs (segs.map (substSeg vals))

/-- `s` contains no left brace, so no placeholder marker can start inside it. -/
def noLB (s : List Char) : Bool := s.all (fun c => c != '\x7b')

/-- `s` contains neither brace. -/
def braceFree (s : List Char) : Bool := s.all (fun c => c != '\x7b' && c != '\x7d')

/-- A well-formed variable name: nonempty and brace-free. -/
def identOK (v : String) : Bool := (v != "") && braceFree v.data

/-- Segment hygiene: literal text holds no left brace, hole names are well formed. -/
def segOK : Seg → Bool
  | .lit s => noLB s.data
  | .hole v => identOK v

/-- All segments are hygienic. -/
def segsOK (segs : List Seg) : Bool := segs.all segOK

/-- Value hygiene: names well formed, values free of left braces. -/
def valsOK (vals : List (String × String)) : Bool :=
  vals.all (fun p => identOK p.1 && noLB p.2.data)

/-- A concrete segment list for exercising the rendering theorem. -/
def demoSegs : List Seg :=
  [Seg.lit "Review ", Seg.hole "language", Seg.lit " code: ", Seg.hole "code"]

/-- Concrete values for the demo segments. -/
def demoVals : List (String × String) := [("language", "Go"), ("code", "x := 1")]

/-- A persisted entry whose id shadows the built-in `code_review`. -/
def shadowTpl : Template :=
  { name := "my review", category := "自定义", description := "shadowed id",
    vars := [], template := "review it" }

/-- A persisted store holding only the shadowing entry. -/
def shadowStore : List (String × Template) := [("code_review", shadowTpl)]


/--
JSON values as the persisted store uses them: strings, arrays and objects
(insertion-ordered members).  Numbers, booleans and null never occur in the
store `json.dumps` writes, so the model omits them.
-/
inductive J where
  | str (s : String)
  | arr (vs : List J)
  | obj (ms : List (String × J))

/-- JSON tokens. -/
inductive Tok where
  | lbrace
  | rbrace
  | lbrack
  | rbrack
  | colon
  | comma
  | str (s : String)
deriving DecidableEq, Repr

/--
The escape codes `json.loads` resolves that our encoder can emit (the
`\uXXXX` form is never emitted for the character domain the round-trip
theorem covers, so it is not modelled).
-/
def escChar (c : Char) : Option Char :=
  if c = '"' then some '"'
  else if c = '\\' then some '\\'
  else if c = '/' then some '/'
  else if c = 'n' then some '\n'
  else if c = 't' then some '\t'
  else if c = 'r' then some '\r'
  else if c = 'b' then some (Char.ofNat 8)
  else if c = 'f' then some (Char.ofNat 12)
  else none

/--
Read a JSON string body after the opening quote; the Bool is the
pending-escape state.  Strict mode as in `json.loads`: raw control
characters inside a string are rejected.
-/
def readStrF : Bool → List Char → Option (List Char × List Char)
  | false, [] => none
  | false, c :: rest =>
    if c = '"' then some ([], rest)
    else if c = '\\' then readStrF true rest
    else if c.toNat < 32 then none
    else
      match readStrF false rest with
      | some (s, r) => some (c :: s, r)
      | none => none
  | true, [] => none
  | true, e :: rest =>
    match escChar e with
    | some d =>
      match readStrF false rest with
      | some (s, r) => some (d :: s, r)
      | none => none
    | none => none

/--
Fuel-bounded JSON tokenizer for the documents the store uses: whitespace is
skipped, structural characters become tokens, quotes start strings.
-/
def tokenizeF : Nat → List Char → Option (List Tok)
  | 0, _ => none
  | _+1, [] => some []
  | f+1, c :: rest =>
    if c = ' ' ∨ c = '\n' ∨ c = '\t' ∨ c = '\r' then tokenizeF f rest
    else if c = '\x7b' then (tokenizeF f rest).map (Tok.lbrace :: ·)
    else if c = '\x7d' then (tokenizeF f rest).map (Tok.rbrace :: ·)
    else if c = '[' then (tokenizeF f rest).map (Tok.lbrack :: ·)
    else if c = ']' then (tokenizeF f rest).map (Tok.rbrack :: ·)
    else if c = ':' then (tokenizeF f rest).map (Tok.colon :: ·)
    else if c = ',' then (tokenizeF f rest).map (Tok.comma :: ·)
    else if c = '"' then
      match readStrF false rest with
      | some (s, r) => (tokenizeF f r).map (Tok.str ⟨s⟩ :: ·)
      | none => none
    else none

/-- Tokenize a character list (the fuel `length + 1` is always sufficient). -/
def tokenize (s : List Char) : Option (List Tok) := tokenizeF (s.length + 1) s

mutual

/-- Fuel-bounded recursive-descent parser for a JSON value. -/
def parseValF : Nat → List Tok → Option (J × List Tok)
  | 0, _ => none
  | f+1, ts =>
    match ts with
    | Tok.str s :: rest => some (J.str s, rest)
    | Tok.lbrack :: Tok.rbrack :: rest => some (J.arr [], rest)
    | Tok.lbrack :: rest =>
      match parseValF f rest with
      | some (v, ts1) =>
        match parseArrTail f ts1 with
        | some (vs, ts2) => some (J.arr (v :: vs), ts2)
        | none => none
      | none => none
    | Tok.lbrace :: Tok.rbrace :: rest => some (J.obj [], rest)
    | Tok.lbrace :: Tok.str k :: Tok.colon :: rest =>
      match parseValF f rest with
      | some (v, ts1) =>
        match parseObjTail f ts1 with
        | some (ms, ts2) => some (J.obj ((k, v) :: ms), ts2)
        | none => none
      | none => none
    | _ => none

/-- Parse the rest of an array after its first element. -/
def parseArrTail : Nat → List Tok → Option (List J × List Tok)
  | 0, _ => none
  | f+1, ts =>
    match ts with
    | Tok.rbrack :: rest => some ([], rest)
    | Tok.comma :: rest =>
      match parseValF f rest with
      | some (v, ts1) =>
        match parseArrTail f ts1 with
        | some (vs, ts2) => some (v :: vs, ts2)
        | none => none
      | none => none
    | _ => none

/-- Parse the rest of an object after its first member. -/
def parseObjTail : Nat → List Tok → Option (List (String × J) × List Tok)
  | 0, _ => none
  | f+1, ts =>
    match ts with
    | Tok.rbrace :: rest => some ([], rest)
    | Tok.comma :: Tok.str k :: Tok.colon :: rest =>
      match parseValF f rest with
      | some (v, ts1) =>
        match parseObjTail f ts1 with
        | some (ms, ts2) => some ((k, v) :: ms, ts2)
        | none => none
      | none => none
    | _ => none

end

/-- A character `json.dumps` writes with one of the short escapes or verbatim. -/
def charOK (c : Char) : Bool :=
  (32 ≤ c.toNat) || c == '\n' || c == '\t' || c == '\r'

/-- All characters of the string are in the modelled domain. -/
def strOK (s : String) : Bool := s.data.all charOK

/-- All string fields of a template are in the modelled domain. -/
def tplOK (t : Template) : Bool :=
  strOK t.name && strOK t.category && strOK t.description &&
    t.vars.all strOK && strOK t.template

/-- All keys and fields of a store are in the modelled domain. -/
def storeOK (st : List (String × Template)) : Bool :=
  st.all (fun p => strOK p.1 && tplOK p.2)

/-- The escaping of `json.dumps(..., ensure_ascii=False)` on one string body. -/
def escList : List Char → List Char
  | [] => []
  | c :: rest =>
    (if c = '"' then ['\\', '"']
     else if c = '\\' then ['\\', '\\']
     else if c = '\n' then ['\\', 'n']
     else if c = '\t' then ['\\', 't']
     else if c = '\r' then ['\\', 'r']
     else [c]) ++ escList rest

/-- `json.dumps` of one string (quoted, escaped). -/
def encString (s : String) : String := "\"" ++ (⟨escList s.data⟩ : String) ++ "\""

/-- The tail of a dumped variables array after its first item (indent 6). -/
def encVarsTail : List String → String
  | [] => ""
  | v :: rest => ",\n      " ++ encString v ++ encVarsTail rest

/-- `json.dumps(vs, indent=2)` layout of the variables array at depth 2. -/
def encVars (vs : List String) : String :=
  match vs with
  | [] => "[]"
  | v :: rest => "[\n      " ++ encString v ++ encVarsTail rest ++ "\n    ]"

/-- `json.dumps(..., indent=2)` layout of one template object at depth 1. -/
def encTemplate (t : Template) : String :=
  "\x7b\n    " ++ encString "name" ++ ": " ++ encString t.name ++
  ",\n    " ++ encString "category" ++ ": " ++ encString t.category ++
  ",\n    " ++ encString "description" ++ ": " ++ encString t.description ++
  ",\n    " ++ encString "variables" ++ ": " ++ encVars t.vars ++
  ",\n    " ++ encString "template" ++ ": " ++ encString t.template ++
  "\n  \x7d"

/-- The tail of the dumped store object after its first entry. -/
def encStoreTail : List (String × Template) → String
  | [] => ""
  | (k, t) :: rest => ",\n  " ++ encString k ++ ": " ++ encTemplate t ++ encStoreTail rest

/--
`save_custom_templates`: the exact text `json.dumps(templates,
ensure_ascii=False, indent=2)` writes to the store file.
-/
def encStore (st : List (String × Template)) : String :=
  match st with
  | [] => "\x7b\x7d"
  | (k, t) :: rest =>
    "\x7b\n  " ++ encString k ++ ": " ++ encTemplate t ++ encStoreTail rest ++ "\n\x7d"

/-- Decode a parsed JSON array of strings. -/
def decodeStrList : List J → Option (List String)
  | [] => some []
  | J.str s :: rest => (decodeStrList rest).map (s :: ·)
  | _ => none

/-- Decode one template record from its parsed JSON object. -/
def decodeTemplate : J → Option Template
  | J.obj [("name", J.str n), ("category", J.str c), ("description", J.str d),
           ("variables", J.arr vjs), ("template", J.str t)] =>
    match decodeStrList vjs with
    | some vs =>
      some { name := n, category := c, description := d, vars := vs, template := t }
    | none => none
  | _ => none

/-- Decode the entries of the parsed store object. -/
def decodeEntries : List (String × J) → Option (List (String × Template))
  | [] => some []
  | (k, jt) :: rest =>
    match decodeTemplate jt, decodeEntries rest with
    | some t, some r => some ((k, t) :: r)
    | _, _ => none

/-- Decode the parsed store document. -/
def decodeStore : J → Option (List (String × Template))
  | J.obj ms => decodeEntries ms
  | _ => none

/--
`load_custom_templates` on the store file's text: tokenize, parse one JSON
value consuming all input, and decode the store shape.
-/
def loadStore (text : String) : Option (List (String × Template)) :=
  match tokenize text.data with
  | some toks =>
    match parseValF (toks.length + 1) toks with
    | some (j, []) => decodeStore j
    | _ => none
  | none => none

/-- The JSON value of one template record. -/
def jTemplate (t : Template) : J :=
  J.obj [("name", J.str t.name), ("category", J.str t.category),
         ("description", J.str t.description),
         ("variables", J.arr (t.vars.map J.str)),
         ("template", J.str t.template)]

/-- The JSON value of the whole store. -/
def jStore (st : List (String × Template)) : J :=
  J.obj (st.map (fun p => (p.1, jTemplate p.2)))

/-- Token list of the variables-array tail (parser view: ends at `]`). -/
def varsToksTail : List String → List Tok
  | [] => [Tok.rbrack]
  | v :: rest => Tok.comma :: Tok.str v :: varsToksTail rest

/-- Token list of a variables array. -/
def varsToks : List String → List Tok
  | [] => [Tok.lbrack, Tok.rbrack]
  | v :: rest => Tok.lbrack :: Tok.str v :: varsToksTail rest

/-- Token list of one template object. -/
def tplToks (t : Template) : List Tok :=
  [Tok.lbrace, Tok.str "name", Tok.colon, Tok.str t.name,
   Tok.comma, Tok.str "category", Tok.colon, Tok.str t.category,
   Tok.comma, Tok.str "description", Tok.colon, Tok.str t.description,
   Tok.comma, Tok.str "variables", Tok.colon] ++ varsToks t.vars ++
  [Tok.comma, Tok.str "template", Tok.colon, Tok.str t.template, Tok.rbrace]

/-- Token list of the store-object tail after its first entry (ends at the closing brace). -/
def storeToksTail : List (String × Template) → List Tok
  | [] => [Tok.rbrace]
  | (k, t) :: rest => Tok.comma :: Tok.str k :: Tok.colon :: (tplToks t ++ storeToksTail rest)

/-- Token list of the whole store document. -/
def storeToks : List (String × Template) → List Tok
  | [] => [Tok.lbrace, Tok.rbrace]
  | (k, t) :: rest => Tok.lbrace :: Tok.str k :: Tok.colon :: (tplToks t ++ storeToksTail rest)

/-- Fuel sufficient to parse a store's token list. -/
def storeNeed : List (String × Template) → Nat
  | [] => 1
  | (_, t) :: rest => t.vars.length + 14 + storeNeed rest

/-- Characters that tokenize to at most one structural token on their own. -/
def isSimple (c : Char) : Bool :=
  c == ' ' || c == '\n' || c == '\t' || c == '\r' ||
  c == '\x7b' || c == '\x7d' || c == '[' || c == ']' || c == ':' || c == ','

/-- The structural token (if any) of a simple character. -/
def glueTok (c : Char) : Option Tok :=
  if c = '\x7b' then some Tok.lbrace
  else if c = '\x7d' then some Tok.rbrace
  else if c = '[' then some Tok.lbrack
  else if c = ']' then some Tok.rbrack
  else if c = ':' then some Tok.colon
  else if c = ',' then some Tok.comma
  else none

/-- Tokens the textual variables-array tail emits (no closing bracket). -/
def varsTailToksE : List String → List Tok
  | [] => []
  | v :: rest => Tok.comma :: Tok.str v :: varsTailToksE rest

/-- Tokens the textual store-object tail emits (no closing brace). -/
def storeTailToksE : List (String × Template) → List Tok
  | [] => []
  | (k, t) :: rest => Tok.comma :: Tok.str k :: Tok.colon :: (tplToks t ++ storeTailToksE rest)

/-- A concrete template record for exercising the round-trip theorem. -/
def demoTpl : Template :=
  { name := "调试助手", category := "自定义", description := "a \"quoted\" demo",
    vars := ["language", "code"],
    template := "Help me debug:\n\x7bcode\x7d" }

end PromptGen

namespace ClaudeGen

-- ========================================================================
-- Theorems
-- ========================================================================

theorem data_append (a b : String) : (a ++ b).data = a.data ++ b.data := by
  cases a; cases b; rfl

theorem strAppend_assoc (a b c : String) : a ++ b ++ c = a ++ (b ++ c) := by
  apply String.ext
  simp [data_append]

theorem strAppend_empty (a : String) : a ++ "" = a := by
  apply String.ext
  simp [data_append]

theorem strEmpty_append (a : String) : "" ++ a = a := by
  apply String.ext
  simp [data_append]

theorem pyJoin_foldl (sep a b : String) (l : List String) :
    l.foldl (fun acc y => acc ++ sep ++ y) (a ++ b) =
      a ++ l.foldl (fun acc y => acc ++ sep ++ y) b := by
  induction l generalizing b with
  | nil => rfl
  | cons y rest ih =>
    simp only [List.foldl_cons]
    rw [strAppend_assoc a b sep, strAppend_assoc a (b ++ sep) y, ih]

theorem pyJoin_cons (sep x y : String) (rest : List String) :
    pyJoin sep (x :: y :: rest) = x ++ sep ++ pyJoin sep (y :: rest) := by
  show (y :: rest).foldl (fun acc z => acc ++ sep ++ z) x = _
  simp only [List.foldl_cons]
  rw [show x ++ sep ++ y = (x ++ sep) ++ y from rfl, pyJoin_foldl sep (x ++ sep) y rest]
  rfl

theorem pyJoin_concat_empty (xs : List String) (h : xs ≠ []) :
    pyJoin "\n" (xs ++ [""]) = pyJoin "\n" xs ++ "\n" := by
  induction xs with
  | nil => exact absurd rfl h
  | cons x rest ih =>
    cases rest with
    | nil =>
      show pyJoin "\n" [x, ""] = x ++ "\n"
      rw [pyJoin_cons]
      show x ++ "\n" ++ "" = x ++ "\n"
      exact strAppend_empty _
    | cons y rest' =>
      rw [List.cons_append, List.cons_append, pyJoin_cons, ← List.cons_append y rest' [""],
        ih (by simp), pyJoin_cons]
      exact (strAppend_assoc (x ++ "\n") (pyJoin "\n" (y :: rest')) "\n").symm

theorem effect_shape (lang : Lang) (cfg : Cfg) :
    renderTechEffect lang cfg = cfg ∨
      (cfg.tech_items = some [] ∧
        renderTechEffect lang cfg = { cfg with tech_items := some (legacyTechItems lang cfg) }) := by
  unfold renderTechEffect
  cases h : cfg.tech_items with
  | none => left; rfl
  | some l =>
    cases l with
    | nil => right; exact ⟨rfl, rfl⟩
    | cons x xs => left; rfl

theorem after_effect_eq (f : Lang → Cfg → String)
    (hf : ∀ lang cfg ti, f lang { cfg with tech_items := ti } = f lang cfg)
    (lang : Lang) (cfg : Cfg) : f lang (renderTechEffect lang cfg) = f lang cfg := by
  rcases effect_shape lang cfg with h | ⟨_, h2⟩
  · rw [h]
  · rw [h2, hf]

theorem techOut_after_effect (lang : Lang) (cfg : Cfg) :
    renderTechOut lang (renderTechEffect lang cfg) = renderTechOut lang cfg := by
  rcases effect_shape lang cfg with h | ⟨h1, h2⟩
  · rw [h]
  · have hleg : ∀ ti, legacyTechItems lang { cfg with tech_items := ti } =
        legacyTechItems lang cfg := fun _ => rfl
    rw [h2]
    simp only [renderTechOut, hleg, h1, Option.getD_some, ite_self, if_true]

theorem assembleS_snd (lang : Lang) (cfg : Cfg) :
    (assembleS lang cfg).2 = renderTechEffect lang cfg := rfl

theorem assembleOut_eq (lang : Lang) (cfg : Cfg) :
    assembleOut lang cfg = pyJoin "\n" ((sectionParts lang cfg).filter hasNonWS) := by
  unfold sectionParts
  show (assembleS lang cfg).1 = _
  simp only [assembleS]
  rw [after_effect_eq renderStructure (fun _ _ _ => rfl) lang cfg,
    after_effect_eq renderCommands (fun _ _ _ => rfl) lang cfg,
    after_effect_eq renderStyle (fun _ _ _ => rfl) lang cfg,
    after_effect_eq renderCore (fun _ _ _ => rfl) lang cfg,
    after_effect_eq renderWorkflow (fun _ _ _ => rfl) lang cfg,
    after_effect_eq renderThinking (fun _ _ _ => rfl) lang cfg,
    after_effect_eq renderTesting (fun _ _ _ => rfl) lang cfg,
    after_effect_eq renderError (fun _ _ _ => rfl) lang cfg,
    after_effect_eq renderSecurity (fun _ _ _ => rfl) lang cfg,
    after_effect_eq renderGit (fun _ _ _ => rfl) lang cfg,
    after_effect_eq renderHard (fun _ _ _ => rfl) lang cfg,
    after_effect_eq renderGotchas (fun _ _ _ => rfl) lang cfg,
    after_effect_eq renderVerify (fun _ _ _ => rfl) lang cfg,
    after_effect_eq renderReferences (fun _ _ _ => rfl) lang cfg]

theorem sectionParts_after_effect (lang : Lang) (cfg : Cfg) :
    sectionParts lang (renderTechEffect lang cfg) = sectionParts lang cfg := by
  unfold sectionParts
  rw [after_effect_eq renderOverview (fun _ _ _ => rfl) lang cfg,
    after_effect_eq renderRole (fun _ _ _ => rfl) lang cfg,
    techOut_after_effect lang cfg,
    after_effect_eq renderStructure (fun _ _ _ => rfl) lang cfg,
    after_effect_eq renderCommands (fun _ _ _ => rfl) lang cfg,
    after_effect_eq renderStyle (fun _ _ _ => rfl) lang cfg,
    after_effect_eq renderCore (fun _ _ _ => rfl) lang cfg,
    after_effect_eq renderWorkflow (fun _ _ _ => rfl) lang cfg,
    after_effect_eq renderThinking (fun _ _ _ => rfl) lang cfg,
    after_effect_eq renderTesting (fun _ _ _ => rfl) lang cfg,
    after_effect_eq renderError (fun _ _ _ => rfl) lang cfg,
    after_effect_eq renderSecurity (fun _ _ _ => rfl) lang cfg,
    after_effect_eq renderGit (fun _ _ _ => rfl) lang cfg,
    after_effect_eq renderHard (fun _ _ _ => rfl) lang cfg,
    after_effect_eq renderGotchas (fun _ _ _ => rfl) lang cfg,
    after_effect_eq renderVerify (fun _ _ _ => rfl) lang cfg,
    after_effect_eq renderReferences (fun _ _ _ => rfl) lang cfg]

/--
C2: the claim that rendering never mutates the Configuration Mapping is
contradicted by the code.  In `render_tech`, `items = cfg.get("tech_items", [])`
aliases the stored list, so when `tech_items` is present with an empty list
and a legacy field (here `language`) is set, the renderer's `append` mutates
the mapping: `tech_items` becomes the rebuilt legacy list.
-/
theorem render_tech_mutates_mapping :
    renderTechEffect Lang.en cfgAliasBug ≠ cfgAliasBug ∧
      renderTechEffect Lang.en cfgAliasBug =
        { cfgAliasBug with tech_items := some ["**Language**: Go 1.23+"] } := by
  constructor
  · decide
  · decide

/--
C4: assembling is idempotent and deterministic — running `assemble` a second
time on the same (possibly mutated) mapping produces the identical document,
for every mapping and either locale flag.
-/
theorem assemble_idempotent (lang : Lang) (cfg : Cfg) :
    (assembleS lang ((assembleS lang cfg).2)).1 = (assembleS lang cfg).1 := by
  show assembleOut lang ((assembleS lang cfg).2) = assembleOut lang cfg
  rw [assembleS_snd, assembleOut_eq, sectionParts_after_effect, ← assembleOut_eq]

theorem dataNL : ("\n" : String).data = ['\n'] := rfl

theorem dataNN : ("\n\n" : String).data = ['\n', '\n'] := rfl

theorem dataEmptyStr : ("" : String).data = [] := rfl

theorem dataHash : ("# " : String).data = ['#', ' '] := rfl

theorem dataNNHH : ("\n\n## " : String).data = ['\n', '\n', '#', '#', ' '] := rfl

theorem hasNonWS_append (a b : String) :
    hasNonWS (a ++ b) = (hasNonWS a || hasNonWS b) := by
  simp [hasNonWS, data_append]

theorem hasNonWS_left (a b : String) (h : hasNonWS a = true) :
    hasNonWS (a ++ b) = true := by
  rw [hasNonWS_append, h, Bool.true_or]

theorem hasNonWS_nil : hasNonWS "" = false := rfl

theorem pyJoin_single (sep x : String) : pyJoin sep [x] = x := rfl

theorem renderRole_nil (lang : Lang) (cfg : Cfg) (h : cfg.role.getD "" = "") :
    renderRole lang cfg = "" := by simp [renderRole, h]

theorem legacyTechItems_nil (lang : Lang) (cfg : Cfg) (h1 : cfg.language.getD "" = "")
    (h2 : cfg.framework.getD "" = "") (h3 : cfg.database.getD "" = "")
    (h4 : cfg.infrastructure.getD "" = "") (h5 : cfg.osEnv.getD "" = "")
    (h6 : cfg.tech_extras.getD [] = []) : legacyTechItems lang cfg = [] := by
  simp [legacyTechItems, h1, h2, h3, h4, h5, h6]

theorem renderTechOut_nil (lang : Lang) (cfg : Cfg) (h1 : cfg.tech_items.getD [] = [])
    (h2 : legacyTechItems lang cfg = []) : renderTechOut lang cfg = "" := by
  simp [renderTechOut, h1, h2]

theorem renderStructure_nil (lang : Lang) (cfg : Cfg) (h : cfg.project_structure.getD "" = "") :
    renderStructure lang cfg = "" := by simp [renderStructure, h]

theorem renderCommands_nil (lang : Lang) (cfg : Cfg) (h : cfg.commands.getD [] = []) :
    renderCommands lang cfg = "" := by simp [renderCommands, h]

theorem renderStyle_nil (lang : Lang) (cfg : Cfg) (h : cfg.code_style_rules.getD [] = []) :
    renderStyle lang cfg = "" := by simp [renderStyle, h]

theorem renderCore_nil (lang : Lang) (cfg : Cfg) (h : cfg.core_rules.getD [] = []) :
    renderCore lang cfg = "" := by simp [renderCore, h]

theorem renderWorkflow_nil (lang : Lang) (cfg : Cfg) (h : cfg.workflow.getD [] = []) :
    renderWorkflow lang cfg = "" := by simp [renderWorkflow, h]

theorem renderThinking_nil (lang : Lang) (cfg : Cfg) (h : cfg.thinking_strategy.getD [] = []) :
    renderThinking lang cfg = "" := by simp [renderThinking, h]

theorem renderTesting_nil (lang : Lang) (cfg : Cfg) (h : cfg.testing_rules.getD [] = []) :
    renderTesting lang cfg = "" := by simp [renderTesting, h]

theorem renderError_nil (lang : Lang) (cfg : Cfg) (h : cfg.error_handling.getD [] = []) :
    renderError lang cfg = "" := by simp [renderError, h]

theorem renderSecurity_nil (lang : Lang) (cfg : Cfg) (h : cfg.security_rules.getD [] = []) :
    renderSecurity lang cfg = "" := by simp [renderSecurity, h]

theorem renderGit_nil (lang : Lang) (cfg : Cfg) (h : cfg.git_rules.getD [] = []) :
    renderGit lang cfg = "" := by simp [renderGit, h]

theorem renderHard_nil (lang : Lang) (cfg : Cfg) (h : cfg.hard_rules.getD [] = []) :
    renderHard lang cfg = "" := by simp [renderHard, h]

theorem renderGotchas_nil (lang : Lang) (cfg : Cfg) (h : cfg.gotchas.getD [] = []) :
    renderGotchas lang cfg = "" := by simp [renderGotchas, h]

theorem renderVerify_nil (lang : Lang) (cfg : Cfg) (h : cfg.verification.getD [] = []) :
    renderVerify lang cfg = "" := by simp [renderVerify, h]

theorem renderReferences_nil (lang : Lang) (cfg : Cfg) (h : cfg.references.getD [] = []) :
    renderReferences lang cfg = "" := by simp [renderReferences, h]

theorem renderOverview_empty (lang : Lang) (cfg : Cfg)
    (hdesc : cfg.project_desc.getD "" = "") (hpt : cfg.project_type.getD "" = "")
    (hst : cfg.project_status.getD "" = "") :
    renderOverview lang cfg =
      "# " ++ cfg.project_name.getD "my-project" ++ "\n\n## " ++ T lang "overview" ++ "\n\n" := by
  apply String.ext
  simp [renderOverview, hdesc, hpt, hst, pyJoin, List.foldl_cons, List.foldl_nil,
    data_append, dataNL, dataNN, dataEmptyStr, dataHash, dataNNHH]

/--
C9: for a Configuration Mapping in which every optional field is empty or
absent, `assemble` produces the title/overview section only, and no other
section's header occurs anywhere in the output.
-/
theorem assemble_only_overview (lang : Lang) (cfg : Cfg) (h : allOptEmpty cfg) :
    assembleOut lang cfg =
      "# " ++ cfg.project_name.getD "my-project" ++ "\n\n## " ++ T lang "overview" ++ "\n\n"
    ∧ otherTitleKeys.all
        (fun k => !strContains (assembleOut lang cfg) ("## " ++ T lang k)) = true := by
  obtain ⟨hname, hdesc, hpt, hst, hrole, hti, hlang, hfw, hdb, hinfra, hos, hex, hstru,
    hcmd, hsty, hcore, hwf, hthink, htest, herr, hsec, hgit, hhard, hgot, hver, href⟩ := h
  have hleg := legacyTechItems_nil lang cfg hlang hfw hdb hinfra hos hex
  have hov := renderOverview_empty lang cfg hdesc hpt hst
  have hparts : sectionParts lang cfg = [renderOverview lang cfg,
      "", "", "", "", "", "", "", "", "", "", "", "", "", "", "", ""] := by
    unfold sectionParts
    rw [renderRole_nil lang cfg hrole, renderTechOut_nil lang cfg hti hleg,
      renderStructure_nil lang cfg hstru, renderCommands_nil lang cfg hcmd,
      renderStyle_nil lang cfg hsty, renderCore_nil lang cfg hcore,
      renderWorkflow_nil lang cfg hwf, renderThinking_nil lang cfg hthink,
      renderTesting_nil lang cfg htest, renderError_nil lang cfg herr,
      renderSecurity_nil lang cfg hsec, renderGit_nil lang cfg hgit,
      renderHard_nil lang cfg hhard, renderGotchas_nil lang cfg hgot,
      renderVerify_nil lang cfg hver, renderReferences_nil lang cfg href]
  have hovNW : hasNonWS (renderOverview lang cfg) = true := by
    rw [hov]
    refine hasNonWS_left _ _ (hasNonWS_left _ _ (hasNonWS_left _ _ (hasNonWS_left _ _ ?_)))
    decide
  have hmain : assembleOut lang cfg =
      "# " ++ cfg.project_name.getD "my-project" ++ "\n\n## " ++ T lang "overview" ++ "\n\n" := by
    rw [assembleOut_eq, hparts, ← hov]
    simp [List.filter, hovNW, hasNonWS_nil, pyJoin_single]
  refine ⟨hmain, ?_⟩
  rw [hmain]
  rcases hname with hn | hn <;> rw [hn] <;> cases lang <;> decide

theorem occurs_pair_append (g o : Char) (a b : List Char) :
    occursIn (a ++ b) [g, o] = true ↔
      (occursIn a [g, o] = true ∨ occursIn b [g, o] = true ∨
        (a.getLast? = some g ∧ b.head? = some o)) := by
  induction a with
  | nil => simp [occursIn]
  | cons c cs ih =>
    cases cs with
    | nil =>
      cases b with
      | nil => simp [occursIn, isPre]
      | cons x bs =>
        by_cases hgc : g = c
        · subst hgc
          by_cases hox : o = x
          · subst hox
            simp [occursIn, isPre]
          · have hxo : ¬ x = o := fun h => hox h.symm
            simp [occursIn, isPre, beq_iff_eq, hox, hxo]
        · have hcg : ¬ c = g := fun h => hgc h.symm
          simp [occursIn, isPre, beq_iff_eq, hgc, hcg]
    | cons c' cs' =>
      simp only [List.cons_append] at ih ⊢
      simp only [occursIn, isPre, Bool.or_eq_true, Bool.and_eq_true, beq_iff_eq,
        List.getLast?_cons_cons, and_true] at ih ⊢
      tauto

theorem occurs_go_brackets (X : List Char) :
    occursIn ('[' :: (X ++ [']'])) ['g', 'o'] = true ↔ occursIn X ['g', 'o'] = true := by
  have e : '[' :: (X ++ [']']) = ['['] ++ (X ++ [']']) := rfl
  have h1 : occursIn ['['] ['g', 'o'] = false := by decide
  have h2 : occursIn [']'] ['g', 'o'] = false := by decide
  rw [e, occurs_pair_append, occurs_pair_append, h1, h2]
  simp

theorem occurs_go_quoted (s : List Char) :
    occursIn ('\'' :: (s ++ ['\''])) ['g', 'o'] = true ↔ occursIn s ['g', 'o'] = true := by
  have e : '\'' :: (s ++ ['\'']) = ['\''] ++ (s ++ ['\'']) := rfl
  have h1 : occursIn ['\''] ['g', 'o'] = false := by decide
  rw [e, occurs_pair_append, occurs_pair_append, h1]
  simp

theorem getLast?_quoted (s : List Char) :
    ('\'' :: (s ++ ['\''])).getLast? = some '\'' := by
  rw [← List.cons_append]
  exact List.getLast?_concat _

theorem occurs_go_qjoin (L : List (List Char)) :
    occursIn (qjoin L) ['g', 'o'] = true ↔ ∃ s ∈ L, occursIn s ['g', 'o'] = true := by
  induction L with
  | nil => simp [qjoin, occursIn]
  | cons s rest ih =>
    cases rest with
    | nil =>
      show occursIn ('\'' :: (s ++ ['\''])) ['g', 'o'] = true ↔ _
      rw [occurs_go_quoted]
      simp
    | cons t rest' =>
      show occursIn (('\'' :: (s ++ ['\''])) ++ (',' :: ' ' :: qjoin (t :: rest')))
          ['g', 'o'] = true ↔ _
      rw [occurs_pair_append, occurs_go_quoted, getLast?_quoted]
      have e2 : (',' :: ' ' :: qjoin (t :: rest')) = [',', ' '] ++ qjoin (t :: rest') := rfl
      have h1 : occursIn [',', ' '] ['g', 'o'] = false := by decide
      rw [e2, occurs_pair_append, h1, ih]
      simp

theorem dataQuote : ("'" : String).data = ['\''] := rfl

theorem dataCommaSpace : (", " : String).data = [',', ' '] := rfl

theorem dataLB : ("[" : String).data = ['['] := rfl

theorem dataRB : ("]" : String).data = [']'] := rfl

theorem quoted_data (s : String) :
    ("'" ++ s ++ "'").data = '\'' :: (s.data ++ ['\'']) := by
  simp [data_append, dataQuote]

theorem pyJoin_quoted_data (items : List String) :
    (pyJoin ", " (items.map (fun s => "'" ++ s ++ "'"))).data =
      qjoin (items.map String.data) := by
  induction items with
  | nil => rfl
  | cons s rest ih =>
    cases rest with
    | nil =>
      show ("'" ++ s ++ "'").data = qjoin [s.data]
      rw [quoted_data]
      rfl
    | cons t rest' =>
      rw [List.map_cons] at ih
      rw [List.map_cons, List.map_cons, pyJoin_cons, data_append, data_append, ih,
        quoted_data, dataCommaSpace]
      simp only [List.map_cons]
      rw [show qjoin (s.data :: t.data :: rest'.map String.data) =
        ('\'' :: (s.data ++ ['\''])) ++
          (',' :: ' ' :: qjoin (t.data :: rest'.map String.data)) from rfl]
      simp

theorem qjoin_map_toLower (L : List (List Char)) :
    (qjoin L).map Char.toLower = qjoin (L.map (List.map Char.toLower)) := by
  have hq : Char.toLower '\'' = '\'' := by decide
  have hc : Char.toLower ',' = ',' := by decide
  have hs : Char.toLower ' ' = ' ' := by decide
  induction L with
  | nil => rfl
  | cons s rest ih =>
    cases rest with
    | nil =>
      show ('\'' :: (s ++ ['\''])).map Char.toLower =
        '\'' :: (s.map Char.toLower ++ ['\''])
      simp [hq]
    | cons t rest' =>
      show (('\'' :: (s ++ ['\''])) ++ (',' :: ' ' :: qjoin (t :: rest'))).map Char.toLower =
        ('\'' :: (s.map Char.toLower ++ ['\''])) ++
          (',' :: ' ' :: qjoin ((t :: rest').map (List.map Char.toLower)))
      rw [List.map_append, ← ih]
      simp [hq, hc, hs]

theorem lowerStr_data (s : String) : (lowerStr s).data = s.data.map Char.toLower := rfl

theorem goCondition_iff (items : List String) :
    strContains (lowerStr (pyStrList items)) "go" = true ↔
      ∃ it ∈ items, strContains (lowerStr it) "go" = true := by
  have h1 : (pyStrList items).data =
      '[' :: ((pyJoin ", " (items.map (fun s => "'" ++ s ++ "'"))).data ++ [']']) := by
    show (("[" ++ pyJoin ", " (items.map (fun s => "'" ++ s ++ "'"))) ++ "]").data = _
    rw [data_append, data_append, dataLB, dataRB]
    simp
  have hlb : Char.toLower '[' = '[' := by decide
  have hrb : Char.toLower ']' = ']' := by decide
  have hdata : (lowerStr (pyStrList items)).data =
      '[' :: ((qjoin (items.map (fun s => (lowerStr s).data))) ++ [']']) := by
    rw [lowerStr_data, h1, pyJoin_quoted_data, List.map_cons, List.map_append,
      qjoin_map_toLower, List.map_map, hlb]
    rw [show [']'].map Char.toLower = [']'] from by simp [hrb]]
    rfl
  show occursIn (lowerStr (pyStrList items)).data ['g', 'o'] = true ↔ _
  rw [hdata, occurs_go_brackets, occurs_go_qjoin]
  constructor
  · rintro ⟨s, hs, hocc⟩
    rw [List.mem_map] at hs
    obtain ⟨it, hit, rfl⟩ := hs
    exact ⟨it, hit, hocc⟩
  · rintro ⟨it, hit, hocc⟩
    exact ⟨(lowerStr it).data, List.mem_map.mpr ⟨it, hit, rfl⟩, hocc⟩

/--
C5: wizard post-step defaulting.  After the role's steps, if no
thinking-strategy list was collected the wizard installs a fixed 3-item
default; if no verification list was collected it installs a default that
is non-empty exactly when the tech-stack text (the `str()` of the
`tech_items` list, lowercased) contains the keyword `go` — equivalently,
when some tech item mentions `go` case-insensitively.
-/
theorem wizard_post_defaults (lang : Lang) (cfg : Cfg)
    (h1 : cfg.thinking_strategy = none) (h2 : cfg.verification = none) :
    (finalizeWizard lang cfg).thinking_strategy = some (thinkingDefaults lang) ∧
    (thinkingDefaults lang).length = 3 ∧
    (finalizeWizard lang cfg).verification =
      some (if goCondition cfg then verifyDefaults lang else []) ∧
    ((if goCondition cfg then verifyDefaults lang else []) ≠ [] ↔
      ∃ it ∈ cfg.tech_items.getD [], strContains (lowerStr it) "go" = true) := by
  have hred : finalizeWizard lang cfg =
      { cfg with thinking_strategy := some (thinkingDefaults lang),
                 verification := some (if goCondition cfg then verifyDefaults lang else []) } := by
    unfold finalizeWizard
    rw [h1]
    have hv : ({ cfg with thinking_strategy := some (thinkingDefaults lang)} : Cfg).verification
        = none := h2
    rw [hv]
    rfl
  refine ⟨by rw [hred], by cases lang <;> rfl, by rw [hred], ?_⟩
  cases hg : goCondition cfg
  · rw [if_neg (by simp)]
    simp only [ne_eq, not_true_eq_false, false_iff]
    intro hex
    have := (goCondition_iff (cfg.tech_items.getD [])).mpr hex
    rw [show strContains (lowerStr (pyStrList (cfg.tech_items.getD []))) "go" =
      goCondition cfg from rfl, hg] at this
    exact absurd this (by simp)
  · rw [if_pos rfl]
    constructor
    · intro _
      exact (goCondition_iff (cfg.tech_items.getD [])).mp hg
    · intro _
      cases lang <;> simp [verifyDefaults]

/-- Witness for C5 at a concrete wizard result with a Go tech stack. -/
theorem wizard_post_defaults_witness :
    (finalizeWizard Lang.en cfgC5Witness).thinking_strategy = some (thinkingDefaults Lang.en) ∧
    (finalizeWizard Lang.en cfgC5Witness).verification = some (verifyDefaults Lang.en) := by
  have h := wizard_post_defaults Lang.en cfgC5Witness rfl rfl
  have hg : goCondition cfgC5Witness = true := by decide
  exact ⟨h.1, by rw [h.2.2.1]; simp [hg]⟩

/-- Witness for C9 at the empty configuration mapping. -/
theorem assemble_only_overview_witness :
    allOptEmpty ({} : Cfg) ∧ assembleOut Lang.zh ({} : Cfg) = "# my-project\n\n## 项目概述\n\n" := by
  have h := assemble_only_overview Lang.zh {} (by unfold allOptEmpty; decide)
  refine ⟨by unfold allOptEmpty; decide, ?_⟩
  rw [h.1]
  decide

theorem strMk_data (s : String) : String.mk s.data = s := by cases s; rfl

theorem str_eq_empty_iff (s : String) : s = "" ↔ s.data = [] := by
  rw [String.ext_iff, dataEmptyStr]

theorem chop_empty : chop "" = "" := rfl

theorem chop_snoc (a : String) : chop (a ++ "\n") = a := by
  have h1 : (a ++ "\n").data = a.data ++ ['\n'] := by rw [data_append]
  simp [chop, h1, List.getLast?_concat, List.dropLast_concat, strMk_data]

theorem hasNonWS_snoc_nl (a : String) : hasNonWS (a ++ "\n") = hasNonWS a := by
  rw [hasNonWS_append]
  have : hasNonWS "\n" = false := rfl
  rw [this, Bool.or_false]

theorem ne_empty_of_hasNonWS (p : String) (h : hasNonWS p = true) : p ≠ "" := by
  intro he
  rw [he] at h
  exact absurd h (by decide)

theorem strNe_left (y z : String) (hy : y.data ≠ []) : y ++ z ≠ "" := by
  intro he
  rw [str_eq_empty_iff, data_append] at he
  exact hy (List.append_eq_nil.mp he).1

theorem pyJoin_head_split (sep y : String) (r : List String) :
    ∃ z, pyJoin sep (y :: r) = y ++ z := by
  cases r with
  | nil => exact ⟨"", (strAppend_empty y).symm⟩
  | cons a as => exact ⟨sep ++ pyJoin sep (a :: as), by rw [pyJoin_cons, strAppend_assoc]⟩

theorem pyJoin_ne_empty (sep y : String) (r : List String) (hy : y.data ≠ []) :
    pyJoin sep (y :: r) ≠ "" := by
  obtain ⟨z, hz⟩ := pyJoin_head_split sep y r
  rw [hz]
  exact strNe_left y z hy

theorem bullet_ne_empty (items : List String) (h : items ≠ []) : bullet items ≠ "" := by
  cases items with
  | nil => exact absurd rfl h
  | cons x xs =>
    show pyJoin "\n" (("- " ++ x) :: xs.map (fun y => "- " ++ y)) ≠ ""
    apply pyJoin_ne_empty
    rw [data_append]
    simp

theorem numbered_ne_empty (items : List String) (h : items ≠ []) : numbered items ≠ "" := by
  cases items with
  | nil => exact absurd rfl h
  | cons x xs =>
    show pyJoin "\n" ((toString 1 ++ ". " ++ x) :: numberedFrom 2 xs) ≠ ""
    apply pyJoin_ne_empty
    rw [data_append, data_append]
    simp

theorem filter_corr (ps : List String) (h : ∀ p ∈ ps, goodPart p) :
    ps.filter hasNonWS = ((ps.map chop).filter (fun c => c != "")).map (· ++ "\n") := by
  induction ps with
  | nil => rfl
  | cons p rest ih =>
    have hp := h p (List.mem_cons_self p rest)
    have hrest := ih (fun q hq => h q (List.mem_cons_of_mem p hq))
    rcases hp with hp | ⟨hnw, hform⟩
    · subst hp
      simp [List.filter_cons, hasNonWS_nil, chop_empty, hrest]
    · have hchopne : chop p ≠ "" := by
        intro hc
        rw [hform, hc, strEmpty_append] at hnw
        exact absurd hnw (by decide)
      simp only [List.map_cons, List.filter_cons, hnw, if_pos]
      rw [if_pos (by simpa using hchopne)]
      rw [List.map_cons, hrest, ← hform]

theorem nl_nl : ("\n" : String) ++ "\n" = "\n\n" := by decide

theorem pyJoin_newline_map (cs : List String) (h : cs ≠ []) :
    pyJoin "\n" (cs.map (· ++ "\n")) = pyJoin "\n\n" cs ++ "\n" := by
  induction cs with
  | nil => exact absurd rfl h
  | cons c rest ih =>
    cases rest with
    | nil => rfl
    | cons c' rest' =>
      have ih' := ih (by simp)
      rw [List.map_cons] at ih'
      rw [List.map_cons, List.map_cons, pyJoin_cons, ih', pyJoin_cons]
      apply String.ext
      simp [data_append, dataNL, dataNN]

theorem lines_shape (t b0 : String) (brest : List String) :
    pyJoin "\n" ((("## " ++ t) :: "" :: b0 :: brest) ++ [""]) =
      "## " ++ t ++ "\n\n" ++ pyJoin "\n" (b0 :: brest) ++ "\n" := by
  rw [pyJoin_concat_empty _ (by simp), pyJoin_cons, pyJoin_cons]
  apply String.ext
  simp [data_append, dataNL, dataNN, dataEmptyStr]

theorem pyJoin_hasNonWS_head (sep : String) (L : List String) (y0 : String)
    (hhead : L.head? = some y0) (hy0 : hasNonWS y0 = true) :
    hasNonWS (pyJoin sep L) = true := by
  cases L with
  | nil => simp at hhead
  | cons a as =>
    obtain rfl : a = y0 := by simpa using hhead
    obtain ⟨z, hz⟩ := pyJoin_head_split sep a as
    rw [hz]
    exact hasNonWS_left _ _ hy0

theorem goodPart_snoc (p core : String) (hp : p = core ++ "\n")
    (hnw : hasNonWS core = true) : goodPart p := by
  subst hp
  right
  exact ⟨by rw [hasNonWS_snoc_nl]; exact hnw, by rw [chop_snoc]⟩

theorem goodPart_pyJoin (L xs : List String) (y0 : String)
    (hL : L = xs ++ [""]) (hne : xs ≠ []) (hhead : L.head? = some y0)
    (hy0 : hasNonWS y0 = true) : goodPart (pyJoin "\n" L) := by
  right
  refine ⟨pyJoin_hasNonWS_head _ _ _ hhead hy0, ?_⟩
  rw [hL, pyJoin_concat_empty _ hne, chop_snoc]

theorem good_overview (lang : Lang) (cfg : Cfg) : goodPart (renderOverview lang cfg) := by
  obtain ⟨name, desc, ptype, status, hr⟩ : ∃ name desc ptype status,
      renderOverview lang cfg = pyJoin "\n"
        ((["# " ++ name, "", "## " ++ T lang "overview", ""]
          ++ (if desc ≠ "" then [desc, ""] else [])
          ++ (if ptype ≠ "" then ["- **" ++ L lang "类型" "Type" ++ "**: " ++ ptype] else [])
          ++ (if status ≠ "" then ["- **" ++ L lang "状态" "Status" ++ "**: " ++ status] else [])
          ++ [""])) :=
    ⟨cfg.project_name.getD "my-project", cfg.project_desc.getD "", cfg.project_type.getD "",
      cfg.project_status.getD "", rfl⟩
  rw [hr]
  apply goodPart_pyJoin _
    (["# " ++ name, "", "## " ++ T lang "overview", ""]
      ++ (if desc ≠ "" then [desc, ""] else [])
      ++ (if ptype ≠ "" then ["- **" ++ L lang "类型" "Type" ++ "**: " ++ ptype] else [])
      ++ (if status ≠ "" then ["- **" ++ L lang "状态" "Status" ++ "**: " ++ status] else []))
    ("# " ++ name) rfl (by simp) (by simp)
    (hasNonWS_left _ _ (by decide))

theorem good_role (lang : Lang) (cfg : Cfg) : goodPart (renderRole lang cfg) := by
  obtain ⟨role, extras, hr⟩ : ∃ role extras, renderRole lang cfg =
      if role = "" then ""
      else pyJoin "\n" (["## " ++ T lang "role", "", "You are a " ++ role ++ ".", ""]
        ++ (if extras ≠ [] then [bullet extras, ""] else [])) :=
    ⟨cfg.role.getD "", cfg.persona_extras.getD [], rfl⟩
  rw [hr]
  by_cases h : role = ""
  · rw [if_pos h]; left; rfl
  · rw [if_neg h]
    by_cases he : extras ≠ []
    · rw [if_pos he]
      apply goodPart_pyJoin _
        (["## " ++ T lang "role", "", "You are a " ++ role ++ ".", ""] ++ [bullet extras])
        ("## " ++ T lang "role") (by simp) (by simp) (by simp)
        (hasNonWS_left _ _ (by decide))
    · rw [if_neg he]
      apply goodPart_pyJoin _ ["## " ++ T lang "role", "", "You are a " ++ role ++ "."]
        ("## " ++ T lang "role") (by simp) (by simp) (by simp)
        (hasNonWS_left _ _ (by decide))

theorem good_tech (lang : Lang) (cfg : Cfg) : goodPart (renderTechOut lang cfg) := by
  obtain ⟨items, hr⟩ : ∃ items, renderTechOut lang cfg =
      if items = [] then ""
      else pyJoin "\n" ["## " ++ T lang "tech", "", bullet items, ""] :=
    ⟨if cfg.tech_items.getD [] = [] then legacyTechItems lang cfg else cfg.tech_items.getD [],
      rfl⟩
  rw [hr]
  by_cases h : items = []
  · rw [if_pos h]; left; rfl
  · rw [if_neg h]
    apply goodPart_pyJoin _ ["## " ++ T lang "tech", "", bullet items]
      ("## " ++ T lang "tech") (by simp) (by simp) (by simp)
      (hasNonWS_left _ _ (by decide))

theorem good_structure (lang : Lang) (cfg : Cfg) : goodPart (renderStructure lang cfg) := by
  obtain ⟨s, hr⟩ : ∃ s, renderStructure lang cfg =
      if s = "" then ""
      else pyJoin "\n" ["## " ++ T lang "structure", "", "```", s, "```", ""] :=
    ⟨cfg.project_structure.getD "", rfl⟩
  rw [hr]
  by_cases h : s = ""
  · rw [if_pos h]; left; rfl
  · rw [if_neg h]
    apply goodPart_pyJoin _ ["## " ++ T lang "structure", "", "```", s, "```"]
      ("## " ++ T lang "structure") (by simp) (by simp) (by simp)
      (hasNonWS_left _ _ (by decide))

theorem good_commands (lang : Lang) (cfg : Cfg) : goodPart (renderCommands lang cfg) := by
  obtain ⟨cmds, hr⟩ : ∃ cmds : List (String × String), renderCommands lang cfg =
      if cmds = [] then ""
      else pyJoin "\n" (["## " ++ T lang "commands", ""]
        ++ cmds.map (fun p => "- **" ++ p.1 ++ "**: `" ++ p.2 ++ "`")
        ++ [""]) := ⟨cfg.commands.getD [], rfl⟩
  rw [hr]
  by_cases h : cmds = []
  · rw [if_pos h]; left; rfl
  · rw [if_neg h]
    apply goodPart_pyJoin _
      (["## " ++ T lang "commands", ""]
        ++ cmds.map (fun p => "- **" ++ p.1 ++ "**: `" ++ p.2 ++ "`"))
      ("## " ++ T lang "commands") (by simp) (by simp) (by simp)
      (hasNonWS_left _ _ (by decide))

theorem good_hdr_body (t body : String) (hnw : hasNonWS ("## " ++ t) = true) :
    goodPart ("## " ++ t ++ "\n\n" ++ body ++ "\n") := by
  apply goodPart_snoc _ ("## " ++ t ++ "\n\n" ++ body) rfl
  rw [hasNonWS_append, hasNonWS_append, hnw]
  rfl

theorem good_style (lang : Lang) (cfg : Cfg) : goodPart (renderStyle lang cfg) := by
  obtain ⟨items, hr⟩ : ∃ items, renderStyle lang cfg =
      if items = [] then ""
      else "## " ++ T lang "style" ++ "\n\n" ++ bullet items ++ "\n" :=
    ⟨cfg.code_style_rules.getD [], rfl⟩
  rw [hr]
  by_cases h : items = []
  · rw [if_pos h]; left; rfl
  · rw [if_neg h]; exact good_hdr_body _ _ (hasNonWS_left _ _ (by decide))

theorem good_core (lang : Lang) (cfg : Cfg) : goodPart (renderCore lang cfg) := by
  obtain ⟨items, hr⟩ : ∃ items, renderCore lang cfg =
      if items = [] then ""
      else "## " ++ T lang "core" ++ "\n\n" ++ bullet items ++ "\n" :=
    ⟨cfg.core_rules.getD [], rfl⟩
  rw [hr]
  by_cases h : items = []
  · rw [if_pos h]; left; rfl
  · rw [if_neg h]; exact good_hdr_body _ _ (hasNonWS_left _ _ (by decide))

theorem good_workflow (lang : Lang) (cfg : Cfg) : goodPart (renderWorkflow lang cfg) := by
  obtain ⟨items, hr⟩ : ∃ items, renderWorkflow lang cfg =
      if items = [] then ""
      else "## " ++ T lang "workflow" ++ "\n\n" ++ numbered items ++ "\n" :=
    ⟨cfg.workflow.getD [], rfl⟩
  rw [hr]
  by_cases h : items = []
  · rw [if_pos h]; left; rfl
  · rw [if_neg h]; exact good_hdr_body _ _ (hasNonWS_left _ _ (by decide))

theorem good_thinking (lang : Lang) (cfg : Cfg) : goodPart (renderThinking lang cfg) := by
  obtain ⟨items, hr⟩ : ∃ items, renderThinking lang cfg =
      if items = [] then ""
      else pyJoin "\n" ["## " ++ T lang "thinking", "", bullet items, ""] :=
    ⟨cfg.thinking_strategy.getD [], rfl⟩
  rw [hr]
  by_cases h : items = []
  · rw [if_pos h]; left; rfl
  · rw [if_neg h]
    apply goodPart_pyJoin _ ["## " ++ T lang "thinking", "", bullet items]
      ("## " ++ T lang "thinking") (by simp) (by simp) (by simp)
      (hasNonWS_left _ _ (by decide))

theorem good_testing (lang : Lang) (cfg : Cfg) : goodPart (renderTesting lang cfg) := by
  obtain ⟨items, hr⟩ : ∃ items, renderTesting lang cfg =
      if items = [] then ""
      else "## " ++ T lang "testing" ++ "\n\n" ++ bullet items ++ "\n" :=
    ⟨cfg.testing_rules.getD [], rfl⟩
  rw [hr]
  by_cases h : items = []
  · rw [if_pos h]; left; rfl
  · rw [if_neg h]; exact good_hdr_body _ _ (hasNonWS_left _ _ (by decide))

theorem good_error (lang : Lang) (cfg : Cfg) : goodPart (renderError lang cfg) := by
  obtain ⟨items, hr⟩ : ∃ items, renderError lang cfg =
      if items = [] then ""
      else "## " ++ T lang "error" ++ "\n\n" ++ bullet items ++ "\n" :=
    ⟨cfg.error_handling.getD [], rfl⟩
  rw [hr]
  by_cases h : items = []
  · rw [if_pos h]; left; rfl
  · rw [if_neg h]; exact good_hdr_body _ _ (hasNonWS_left _ _ (by decide))

theorem good_security (lang : Lang) (cfg : Cfg) : goodPart (renderSecurity lang cfg) := by
  obtain ⟨items, hr⟩ : ∃ items, renderSecurity lang cfg =
      if items = [] then ""
      else "## " ++ T lang "security" ++ "\n\n" ++ bullet items ++ "\n" :=
    ⟨cfg.security_rules.getD [], rfl⟩
  rw [hr]
  by_cases h : items = []
  · rw [if_pos h]; left; rfl
  · rw [if_neg h]; exact good_hdr_body _ _ (hasNonWS_left _ _ (by decide))

theorem good_git (lang : Lang) (cfg : Cfg) : goodPart (renderGit lang cfg) := by
  obtain ⟨items, hr⟩ : ∃ items, renderGit lang cfg =
      if items = [] then ""
      else "## " ++ T lang "git" ++ "\n\n" ++ bullet items ++ "\n" :=
    ⟨cfg.git_rules.getD [], rfl⟩
  rw [hr]
  by_cases h : items = []
  · rw [if_pos h]; left; rfl
  · rw [if_neg h]; exact good_hdr_body _ _ (hasNonWS_left _ _ (by decide))

theorem good_hard (lang : Lang) (cfg : Cfg) : goodPart (renderHard lang cfg) := by
  obtain ⟨items, hr⟩ : ∃ items, renderHard lang cfg =
      if items = [] then ""
      else pyJoin "\n" (["## " ++ T lang "hard", "",
        L lang "重要：以下规则绝对不可违反。"
          "IMPORTANT: The following rules must NEVER be violated.", ""]
        ++ items.map (fun x => "- ❌ " ++ x) ++ [""]) := ⟨cfg.hard_rules.getD [], rfl⟩
  rw [hr]
  by_cases h : items = []
  · rw [if_pos h]; left; rfl
  · rw [if_neg h]
    apply goodPart_pyJoin _
      (["## " ++ T lang "hard", "",
        L lang "重要：以下规则绝对不可违反。"
          "IMPORTANT: The following rules must NEVER be violated.", ""]
        ++ items.map (fun x => "- ❌ " ++ x))
      ("## " ++ T lang "hard") (by simp) (by simp) (by simp)
      (hasNonWS_left _ _ (by decide))

theorem good_gotchas (lang : Lang) (cfg : Cfg) : goodPart (renderGotchas lang cfg) := by
  obtain ⟨items, hr⟩ : ∃ items, renderGotchas lang cfg =
      if items = [] then ""
      else pyJoin "\n" (["## " ++ T lang "gotchas", ""]
        ++ items.map (fun x => "- ⚠️ " ++ x) ++ [""]) := ⟨cfg.gotchas.getD [], rfl⟩
  rw [hr]
  by_cases h : items = []
  · rw [if_pos h]; left; rfl
  · rw [if_neg h]
    apply goodPart_pyJoin _
      (["## " ++ T lang "gotchas", ""] ++ items.map (fun x => "- ⚠️ " ++ x))
      ("## " ++ T lang "gotchas") (by simp) (by simp) (by simp)
      (hasNonWS_left _ _ (by decide))

theorem good_verify (lang : Lang) (cfg : Cfg) : goodPart (renderVerify lang cfg) := by
  obtain ⟨items, hr⟩ : ∃ items, renderVerify lang cfg =
      if items = [] then ""
      else pyJoin "\n" (["## " ++ T lang "verify", "",
        L lang "完成任何修改后，必须按以下清单逐项验证："
          "After completing any change, verify each item below:", ""]
        ++ items.map (fun x => "- [ ] " ++ x) ++ [""]) := ⟨cfg.verification.getD [], rfl⟩
  rw [hr]
  by_cases h : items = []
  · rw [if_pos h]; left; rfl
  · rw [if_neg h]
    apply goodPart_pyJoin _
      (["## " ++ T lang "verify", "",
        L lang "完成任何修改后，必须按以下清单逐项验证："
          "After completing any change, verify each item below:", ""]
        ++ items.map (fun x => "- [ ] " ++ x))
      ("## " ++ T lang "verify") (by simp) (by simp) (by simp)
      (hasNonWS_left _ _ (by decide))

theorem good_references (lang : Lang) (cfg : Cfg) : goodPart (renderReferences lang cfg) := by
  obtain ⟨items, hr⟩ : ∃ items, renderReferences lang cfg =
      if items = [] then ""
      else "## " ++ T lang "references" ++ "\n\n" ++ bullet items ++ "\n" :=
    ⟨cfg.references.getD [], rfl⟩
  rw [hr]
  by_cases h : items = []
  · rw [if_pos h]; left; rfl
  · rw [if_neg h]; exact good_hdr_body _ _ (hasNonWS_left _ _ (by decide))

theorem shape_role (lang : Lang) (cfg : Cfg) (hne : renderRole lang cfg ≠ "") :
    ∃ t b, renderRole lang cfg = "## " ++ t ++ "\n\n" ++ b ++ "\n" ∧ b ≠ "" := by
  obtain ⟨role, extras, hr⟩ : ∃ role extras, renderRole lang cfg =
      if role = "" then ""
      else pyJoin "\n" (["## " ++ T lang "role", "", "You are a " ++ role ++ ".", ""]
        ++ (if extras ≠ [] then [bullet extras, ""] else [])) :=
    ⟨cfg.role.getD "", cfg.persona_extras.getD [], rfl⟩
  rw [hr] at hne ⊢
  by_cases h : role = ""
  · rw [if_pos h] at hne; exact absurd rfl hne
  · rw [if_neg h]
    by_cases he : extras ≠ []
    · rw [if_pos he]
      refine ⟨T lang "role",
        pyJoin "\n" (("You are a " ++ role ++ ".") :: ["", bullet extras]), ?_,
        pyJoin_ne_empty _ _ _ (by rw [data_append, data_append]; simp)⟩
      rw [show (["## " ++ T lang "role", "", "You are a " ++ role ++ ".", ""]
          ++ [bullet extras, ""]) =
        ((("## " ++ T lang "role") :: "" :: ("You are a " ++ role ++ ".") ::
          ["", bullet extras]) ++ [""]) from by simp, lines_shape]
    · rw [if_neg he]
      refine ⟨T lang "role", "You are a " ++ role ++ ".", ?_,
        strNe_left ("You are a " ++ role) "." (by rw [data_append]; simp)⟩
      rw [show (["## " ++ T lang "role", "", "You are a " ++ role ++ ".", ""] ++ []) =
        ((("## " ++ T lang "role") :: "" :: ("You are a " ++ role ++ ".") :: []) ++ [""])
        from by simp, lines_shape, pyJoin_single]

theorem shape_tech (lang : Lang) (cfg : Cfg) (hne : renderTechOut lang cfg ≠ "") :
    ∃ t b, renderTechOut lang cfg = "## " ++ t ++ "\n\n" ++ b ++ "\n" ∧ b ≠ "" := by
  obtain ⟨items, hr⟩ : ∃ items : List String, renderTechOut lang cfg =
      if items = [] then ""
      else pyJoin "\n" ["## " ++ T lang "tech", "", bullet items, ""] :=
    ⟨if cfg.tech_items.getD [] = [] then legacyTechItems lang cfg else cfg.tech_items.getD [],
      rfl⟩
  rw [hr] at hne ⊢
  by_cases h : items = []
  · rw [if_pos h] at hne; exact absurd rfl hne
  · rw [if_neg h]
    refine ⟨T lang "tech", bullet items, ?_, bullet_ne_empty _ h⟩
    rw [show ["## " ++ T lang "tech", "", bullet items, ""] =
      ((("## " ++ T lang "tech") :: "" :: bullet items :: []) ++ [""]) from rfl,
      lines_shape, pyJoin_single]

theorem shape_structure (lang : Lang) (cfg : Cfg) (hne : renderStructure lang cfg ≠ "") :
    ∃ t b, renderStructure lang cfg = "## " ++ t ++ "\n\n" ++ b ++ "\n" ∧ b ≠ "" := by
  obtain ⟨s, hr⟩ : ∃ s, renderStructure lang cfg =
      if s = "" then ""
      else pyJoin "\n" ["## " ++ T lang "structure", "", "```", s, "```", ""] :=
    ⟨cfg.project_structure.getD "", rfl⟩
  rw [hr] at hne ⊢
  by_cases h : s = ""
  · rw [if_pos h] at hne; exact absurd rfl hne
  · rw [if_neg h]
    refine ⟨T lang "structure", pyJoin "\n" ("```" :: [s, "```"]), ?_,
      pyJoin_ne_empty _ _ _ (by decide)⟩
    rw [show ["## " ++ T lang "structure", "", "```", s, "```", ""] =
      ((("## " ++ T lang "structure") :: "" :: "```" :: [s, "```"]) ++ [""]) from rfl,
      lines_shape]

theorem shape_commands (lang : Lang) (cfg : Cfg) (hne : renderCommands lang cfg ≠ "") :
    ∃ t b, renderCommands lang cfg = "## " ++ t ++ "\n\n" ++ b ++ "\n" ∧ b ≠ "" := by
  obtain ⟨cmds, hr⟩ : ∃ cmds : List (String × String), renderCommands lang cfg =
      if cmds = [] then ""
      else pyJoin "\n" (["## " ++ T lang "commands", ""]
        ++ cmds.map (fun p => "- **" ++ p.1 ++ "**: `" ++ p.2 ++ "`")
        ++ [""]) := ⟨cfg.commands.getD [], rfl⟩
  rw [hr] at hne ⊢
  rcases cmds with _ | ⟨c, cr⟩
  · exact absurd (if_pos rfl) hne
  · rw [if_neg (by simp)]
    refine ⟨T lang "commands",
      pyJoin "\n" (("- **" ++ c.1 ++ "**: `" ++ c.2 ++ "`") ::
        cr.map (fun p => "- **" ++ p.1 ++ "**: `" ++ p.2 ++ "`")), ?_,
      pyJoin_ne_empty _ _ _ (by rw [data_append, data_append, data_append]; simp)⟩
    rw [show (["## " ++ T lang "commands", ""]
        ++ (c :: cr).map (fun p => "- **" ++ p.1 ++ "**: `" ++ p.2 ++ "`") ++ [""]) =
      ((("## " ++ T lang "commands") :: "" :: ("- **" ++ c.1 ++ "**: `" ++ c.2 ++ "`") ::
        cr.map (fun p => "- **" ++ p.1 ++ "**: `" ++ p.2 ++ "`")) ++ [""]) from by simp,
      lines_shape]

theorem shape_style (lang : Lang) (cfg : Cfg) (hne : renderStyle lang cfg ≠ "") :
    ∃ t b, renderStyle lang cfg = "## " ++ t ++ "\n\n" ++ b ++ "\n" ∧ b ≠ "" := by
  obtain ⟨items, hr⟩ : ∃ items : List String, renderStyle lang cfg =
      if items = [] then ""
      else "## " ++ T lang "style" ++ "\n\n" ++ bullet items ++ "\n" :=
    ⟨cfg.code_style_rules.getD [], rfl⟩
  rw [hr] at hne ⊢
  by_cases h : items = []
  · rw [if_pos h] at hne; exact absurd rfl hne
  · rw [if_neg h]
    exact ⟨T lang "style", bullet items, rfl, bullet_ne_empty _ h⟩

theorem shape_core (lang : Lang) (cfg : Cfg) (hne : renderCore lang cfg ≠ "") :
    ∃ t b, renderCore lang cfg = "## " ++ t ++ "\n\n" ++ b ++ "\n" ∧ b ≠ "" := by
  obtain ⟨items, hr⟩ : ∃ items : List String, renderCore lang cfg =
      if items = [] then ""
      else "## " ++ T lang "core" ++ "\n\n" ++ bullet items ++ "\n" :=
    ⟨cfg.core_rules.getD [], rfl⟩
  rw [hr] at hne ⊢
  by_cases h : items = []
  · rw [if_pos h] at hne; exact absurd rfl hne
  · rw [if_neg h]
    exact ⟨T lang "core", bullet items, rfl, bullet_ne_empty _ h⟩

theorem shape_workflow (lang : Lang) (cfg : Cfg) (hne : renderWorkflow lang cfg ≠ "") :
    ∃ t b, renderWorkflow lang cfg = "## " ++ t ++ "\n\n" ++ b ++ "\n" ∧ b ≠ "" := by
  obtain ⟨items, hr⟩ : ∃ items : List String, renderWorkflow lang cfg =
      if items = [] then ""
      else "## " ++ T lang "workflow" ++ "\n\n" ++ numbered items ++ "\n" :=
    ⟨cfg.workflow.getD [], rfl⟩
  rw [hr] at hne ⊢
  by_cases h : items = []
  · rw [if_pos h] at hne; exact absurd rfl hne
  · rw [if_neg h]
    exact ⟨T lang "workflow", numbered items, rfl, numbered_ne_empty _ h⟩

theorem shape_thinking (lang : Lang) (cfg : Cfg) (hne : renderThinking lang cfg ≠ "") :
    ∃ t b, renderThinking lang cfg = "## " ++ t ++ "\n\n" ++ b ++ "\n" ∧ b ≠ "" := by
  obtain ⟨items, hr⟩ : ∃ items : List String, renderThinking lang cfg =
      if items = [] then ""
      else pyJoin "\n" ["## " ++ T lang "thinking", "", bullet items, ""] :=
    ⟨cfg.thinking_strategy.getD [], rfl⟩
  rw [hr] at hne ⊢
  by_cases h : items = []
  · rw [if_pos h] at hne; exact absurd rfl hne
  · rw [if_neg h]
    refine ⟨T lang "thinking", bullet items, ?_, bullet_ne_empty _ h⟩
    rw [show ["## " ++ T lang "thinking", "", bullet items, ""] =
      ((("## " ++ T lang "thinking") :: "" :: bullet items :: []) ++ [""]) from rfl,
      lines_shape, pyJoin_single]

theorem shape_testing (lang : Lang) (cfg : Cfg) (hne : renderTesting lang cfg ≠ "") :
    ∃ t b, renderTesting lang cfg = "## " ++ t ++ "\n\n" ++ b ++ "\n" ∧ b ≠ "" := by
  obtain ⟨items, hr⟩ : ∃ items : List String, renderTesting lang cfg =
      if items = [] then ""
      else "## " ++ T lang "testing" ++ "\n\n" ++ bullet items ++ "\n" :=
    ⟨cfg.testing_rules.getD [], rfl⟩
  rw [hr] at hne ⊢
  by_cases h : items = []
  · rw [if_pos h] at hne; exact absurd rfl hne
  · rw [if_neg h]
    exact ⟨T lang "testing", bullet items, rfl, bullet_ne_empty _ h⟩

theorem shape_error (lang : Lang) (cfg : Cfg) (hne : renderError lang cfg ≠ "") :
    ∃ t b, renderError lang cfg = "## " ++ t ++ "\n\n" ++ b ++ "\n" ∧ b ≠ "" := by
  obtain ⟨items, hr⟩ : ∃ items : List String, renderError lang cfg =
      if items = [] then ""
      else "## " ++ T lang "error" ++ "\n\n" ++ bullet items ++ "\n" :=
    ⟨cfg.error_handling.getD [], rfl⟩
  rw [hr] at hne ⊢
  by_cases h : items = []
  · rw [if_pos h] at hne; exact absurd rfl hne
  · rw [if_neg h]
    exact ⟨T lang "error", bullet items, rfl, bullet_ne_empty _ h⟩

theorem shape_security (lang : Lang) (cfg : Cfg) (hne : renderSecurity lang cfg ≠ "") :
    ∃ t b, renderSecurity lang cfg = "## " ++ t ++ "\n\n" ++ b ++ "\n" ∧ b ≠ "" := by
  obtain ⟨items, hr⟩ : ∃ items : List String, renderSecurity lang cfg =
      if items = [] then ""
      else "## " ++ T lang "security" ++ "\n\n" ++ bullet items ++ "\n" :=
    ⟨cfg.security_rules.getD [], rfl⟩
  rw [hr] at hne ⊢
  by_cases h : items = []
  · rw [if_pos h] at hne; exact absurd rfl hne
  · rw [if_neg h]
    exact ⟨T lang "security", bullet items, rfl, bullet_ne_empty _ h⟩

theorem shape_git (lang : Lang) (cfg : Cfg) (hne : renderGit lang cfg ≠ "") :
    ∃ t b, renderGit lang cfg = "## " ++ t ++ "\n\n" ++ b ++ "\n" ∧ b ≠ "" := by
  obtain ⟨items, hr⟩ : ∃ items : List String, renderGit lang cfg =
      if items = [] then ""
      else "## " ++ T lang "git" ++ "\n\n" ++ bullet items ++ "\n" :=
    ⟨cfg.git_rules.getD [], rfl⟩
  rw [hr] at hne ⊢
  by_cases h : items = []
  · rw [if_pos h] at hne; exact absurd rfl hne
  · rw [if_neg h]
    exact ⟨T lang "git", bullet items, rfl, bullet_ne_empty _ h⟩

theorem shape_hard (lang : Lang) (cfg : Cfg) (hne : renderHard lang cfg ≠ "") :
    ∃ t b, renderHard lang cfg = "## " ++ t ++ "\n\n" ++ b ++ "\n" ∧ b ≠ "" := by
  obtain ⟨items, hr⟩ : ∃ items : List String, renderHard lang cfg =
      if items = [] then ""
      else pyJoin "\n" (["## " ++ T lang "hard", "",
        L lang "重要：以下规则绝对不可违反。"
          "IMPORTANT: The following rules must NEVER be violated.", ""]
        ++ items.map (fun x => "- ❌ " ++ x) ++ [""]) := ⟨cfg.hard_rules.getD [], rfl⟩
  rw [hr] at hne ⊢
  by_cases h : items = []
  · rw [if_pos h] at hne; exact absurd rfl hne
  · rw [if_neg h]
    refine ⟨T lang "hard",
      pyJoin "\n" ((L lang "重要：以下规则绝对不可违反。"
          "IMPORTANT: The following rules must NEVER be violated.") ::
        ("" :: items.map (fun x => "- ❌ " ++ x))), ?_,
      pyJoin_ne_empty _ _ _ (by cases lang <;> decide)⟩
    rw [show (["## " ++ T lang "hard", "",
        L lang "重要：以下规则绝对不可违反。"
          "IMPORTANT: The following rules must NEVER be violated.", ""]
        ++ items.map (fun x => "- ❌ " ++ x) ++ [""]) =
      ((("## " ++ T lang "hard") :: "" ::
        (L lang "重要：以下规则绝对不可违反。"
          "IMPORTANT: The following rules must NEVER be violated.") ::
        ("" :: items.map (fun x => "- ❌ " ++ x))) ++ [""]) from by simp, lines_shape]

theorem shape_gotchas (lang : Lang) (cfg : Cfg) (hne : renderGotchas lang cfg ≠ "") :
    ∃ t b, renderGotchas lang cfg = "## " ++ t ++ "\n\n" ++ b ++ "\n" ∧ b ≠ "" := by
  obtain ⟨items, hr⟩ : ∃ items : List String, renderGotchas lang cfg =
      if items = [] then ""
      else pyJoin "\n" (["## " ++ T lang "gotchas", ""]
        ++ items.map (fun x => "- ⚠️ " ++ x) ++ [""]) := ⟨cfg.gotchas.getD [], rfl⟩
  rw [hr] at hne ⊢
  rcases items with _ | ⟨x, xs⟩
  · exact absurd (if_pos rfl) hne
  · rw [if_neg (by simp)]
    refine ⟨T lang "gotchas",
      pyJoin "\n" (("- ⚠️ " ++ x) :: xs.map (fun y => "- ⚠️ " ++ y)), ?_,
      pyJoin_ne_empty _ _ _ (by rw [data_append]; simp)⟩
    rw [show (["## " ++ T lang "gotchas", ""]
        ++ (x :: xs).map (fun y => "- ⚠️ " ++ y) ++ [""]) =
      ((("## " ++ T lang "gotchas") :: "" :: ("- ⚠️ " ++ x) ::
        xs.map (fun y => "- ⚠️ " ++ y)) ++ [""]) from by simp, lines_shape]

theorem shape_verify (lang : Lang) (cfg : Cfg) (hne : renderVerify lang cfg ≠ "") :
    ∃ t b, renderVerify lang cfg = "## " ++ t ++ "\n\n" ++ b ++ "\n" ∧ b ≠ "" := by
  obtain ⟨items, hr⟩ : ∃ items : List String, renderVerify lang cfg =
      if items = [] then ""
      else pyJoin "\n" (["## " ++ T lang "verify", "",
        L lang "完成任何修改后，必须按以下清单逐项验证："
          "After completing any change, verify each item below:", ""]
        ++ items.map (fun x => "- [ ] " ++ x) ++ [""]) := ⟨cfg.verification.getD [], rfl⟩
  rw [hr] at hne ⊢
  by_cases h : items = []
  · rw [if_pos h] at hne; exact absurd rfl hne
  · rw [if_neg h]
    refine ⟨T lang "verify",
      pyJoin "\n" ((L lang "完成任何修改后，必须按以下清单逐项验证："
          "After completing any change, verify each item below:") ::
        ("" :: items.map (fun x => "- [ ] " ++ x))), ?_,
      pyJoin_ne_empty _ _ _ (by cases lang <;> decide)⟩
    rw [show (["## " ++ T lang "verify", "",
        L lang "完成任何修改后，必须按以下清单逐项验证："
          "After completing any change, verify each item below:", ""]
        ++ items.map (fun x => "- [ ] " ++ x) ++ [""]) =
      ((("## " ++ T lang "verify") :: "" ::
        (L lang "完成任何修改后，必须按以下清单逐项验证："
          "After completing any change, verify each item below:") ::
        ("" :: items.map (fun x => "- [ ] " ++ x))) ++ [""]) from by simp, lines_shape]

theorem shape_references (lang : Lang) (cfg : Cfg) (hne : renderReferences lang cfg ≠ "") :
    ∃ t b, renderReferences lang cfg = "## " ++ t ++ "\n\n" ++ b ++ "\n" ∧ b ≠ "" := by
  obtain ⟨items, hr⟩ : ∃ items : List String, renderReferences lang cfg =
      if items = [] then ""
      else "## " ++ T lang "references" ++ "\n\n" ++ bullet items ++ "\n" :=
    ⟨cfg.references.getD [], rfl⟩
  rw [hr] at hne ⊢
  by_cases h : items = []
  · rw [if_pos h] at hne; exact absurd rfl hne
  · rw [if_neg h]
    exact ⟨T lang "references", bullet items, rfl, bullet_ne_empty _ h⟩

theorem chop_ne_of (p : String) (hnw : hasNonWS p = true) (hform : p = chop p ++ "\n") :
    chop p ≠ "" := by
  intro hc
  rw [hform, hc, strEmpty_append] at hnw
  exact absurd hnw (by decide)

theorem overview_hasNonWS (lang : Lang) (cfg : Cfg) :
    hasNonWS (renderOverview lang cfg) = true := by
  obtain ⟨name, desc, ptype, status, hr⟩ : ∃ name desc ptype status,
      renderOverview lang cfg = pyJoin "\n"
        ((["# " ++ name, "", "## " ++ T lang "overview", ""]
          ++ (if desc ≠ "" then [desc, ""] else [])
          ++ (if ptype ≠ "" then ["- **" ++ L lang "类型" "Type" ++ "**: " ++ ptype] else [])
          ++ (if status ≠ "" then ["- **" ++ L lang "状态" "Status" ++ "**: " ++ status] else [])
          ++ [""])) :=
    ⟨cfg.project_name.getD "my-project", cfg.project_desc.getD "", cfg.project_type.getD "",
      cfg.project_status.getD "", rfl⟩
  rw [hr]
  exact pyJoin_hasNonWS_head _ _ ("# " ++ name) (by simp) (hasNonWS_left _ _ (by decide))

theorem strEndsWith_nn (X : String) : strEndsWith ((X ++ "\n") ++ "\n") "\n\n" = true := by
  show isPre ("\n\n" : String).data.reverse (((X ++ "\n") ++ "\n").data).reverse = true
  rw [data_append, data_append, dataNL, dataNN]
  simp [isPre, List.reverse_append]

theorem pyJoin_ends_nn (xs : List String) (h : xs ≠ []) :
    strEndsWith (pyJoin "\n" ((xs ++ [""]) ++ [""])) "\n\n" = true := by
  rw [pyJoin_concat_empty _ (by simp [h]), pyJoin_concat_empty _ h]
  exact strEndsWith_nn _

/--
C3 counterexample: the claim as stated fails.  On a mapping with only a
project name and a role, adjacent emitted sections are separated by *two*
blank lines (the document contains `\n\n\n`), because the overview section
ends with a trailing blank line when it has no type/status entries; the
overview header `## 项目概述` is also emitted with an empty body.
-/
theorem assemble_blank_line_cex :
    assembleOut Lang.zh { project_name := some "p", role := some "dev" } =
      "# p\n\n## 项目概述\n\n\n## 角色定义\n\nYou are a dev.\n" ∧
    strContains (assembleOut Lang.zh { project_name := some "p", role := some "dev" })
      "\n\n\n" = true ∧
    strContains (assembleOut Lang.zh { project_name := some "p", role := some "dev" })
      ("## " ++ T Lang.zh "overview" ++ "\n\n\n") = true := by
  refine ⟨by decide, by decide, by decide⟩

/--
C3 (amended): for every Configuration Mapping and locale, `assemble` emits
exactly those sections whose renderer returned non-empty output, in the
fixed declared order, with consecutive section cores joined by one blank
line; every section other than the mandatory overview emits a `## ` header
followed by a non-empty body; the overview section, however, keeps a
trailing blank line exactly in the configurations without a type and status
entry (producing a double blank line before the next section), and its
header is emitted even when its body is empty.
-/
theorem assemble_sections (lang : Lang) (cfg : Cfg) :
    assembleOut lang cfg = pyJoin "\n\n" (sectionCores lang cfg) ++ "\n" ∧
    (∀ p ∈ (sectionParts lang cfg).tail, p ≠ "" →
      ∃ t b, p = "## " ++ t ++ "\n\n" ++ b ++ "\n" ∧ b ≠ "") ∧
    (cfg.project_type.getD "" = "" → cfg.project_status.getD "" = "" →
      strEndsWith (renderOverview lang cfg) "\n\n" = true) := by
  have hgood : ∀ p ∈ sectionParts lang cfg, goodPart p := by
    intro p hp
    simp only [sectionParts, List.mem_cons, List.not_mem_nil, or_false] at hp
    rcases hp with rfl | rfl | rfl | rfl | rfl | rfl | rfl | rfl | rfl | rfl | rfl | rfl |
      rfl | rfl | rfl | rfl | rfl
    exacts [good_overview lang cfg, good_role lang cfg, good_tech lang cfg,
      good_structure lang cfg, good_commands lang cfg, good_style lang cfg,
      good_core lang cfg, good_workflow lang cfg, good_thinking lang cfg,
      good_testing lang cfg, good_error lang cfg, good_security lang cfg,
      good_git lang cfg, good_hard lang cfg, good_gotchas lang cfg,
      good_verify lang cfg, good_references lang cfg]
  have hovnw := overview_hasNonWS lang cfg
  have hchop : chop (renderOverview lang cfg) ≠ "" := by
    rcases good_overview lang cfg with h0 | ⟨_, hform⟩
    · rw [h0] at hovnw; exact absurd hovnw (by decide)
    · exact chop_ne_of _ hovnw hform
  refine ⟨?_, ?_, ?_⟩
  · have hb : (chop (renderOverview lang cfg) != "") = true := by simpa using hchop
    rw [assembleOut_eq, filter_corr _ hgood, pyJoin_newline_map _ ?hne]
    case hne => simp [sectionParts, List.filter_cons, hb]
    rfl
  · intro p hp hne
    simp only [sectionParts, List.tail_cons, List.mem_cons, List.not_mem_nil, or_false] at hp
    rcases hp with rfl | rfl | rfl | rfl | rfl | rfl | rfl | rfl | rfl | rfl | rfl | rfl |
      rfl | rfl | rfl | rfl
    exacts [shape_role lang cfg hne, shape_tech lang cfg hne, shape_structure lang cfg hne,
      shape_commands lang cfg hne, shape_style lang cfg hne, shape_core lang cfg hne,
      shape_workflow lang cfg hne, shape_thinking lang cfg hne, shape_testing lang cfg hne,
      shape_error lang cfg hne, shape_security lang cfg hne, shape_git lang cfg hne,
      shape_hard lang cfg hne, shape_gotchas lang cfg hne, shape_verify lang cfg hne,
      shape_references lang cfg hne]
  · intro hpt hst
    by_cases hd : cfg.project_desc.getD "" = ""
    · have hr : renderOverview lang cfg = pyJoin "\n"
          ((["# " ++ cfg.project_name.getD "my-project", "",
            "## " ++ T lang "overview"] ++ [""]) ++ [""]) := by
        simp only [renderOverview]
        congr 1
        simp [hpt, hst, hd]
      rw [hr]
      exact pyJoin_ends_nn _ (by simp)
    · have hr : renderOverview lang cfg = pyJoin "\n"
          ((["# " ++ cfg.project_name.getD "my-project", "",
            "## " ++ T lang "overview", "", cfg.project_desc.getD ""] ++ [""]) ++ [""]) := by
        simp only [renderOverview]
        congr 1
        simp [hpt, hst, hd]
      rw [hr]
      exact pyJoin_ends_nn _ (by simp)

/-- Witness for the amended C3 on a concrete mapping with three sections. -/
theorem assemble_sections_witness :
    assembleOut Lang.en
        { project_name := some "p", project_type := some "CLI Tool",
          role := some "dev", git_rules := some ["small commits"] } =
      pyJoin "\n\n" (sectionCores Lang.en
        { project_name := some "p", project_type := some "CLI Tool",
          role := some "dev", git_rules := some ["small commits"] }) ++ "\n" ∧
    assembleOut Lang.en
        { project_name := some "p", project_type := some "CLI Tool",
          role := some "dev", git_rules := some ["small commits"] } =
      "# p\n\n## Project Overview\n\n- **Type**: CLI Tool\n\n## Role Definition\n\nYou are a dev.\n\n## Git Conventions\n\n- small commits\n" := by
  exact ⟨(assemble_sections Lang.en _).1, by decide⟩

end ClaudeGen

-- ========================================================================
-- Tool 2: prompt_generator.py — theorems
-- ========================================================================

namespace PromptGen

open ClaudeGen

theorem tagFree_no {s : String} (hfree : tagFree s = true) {m : String}
    (hm : m ∈ tagMarkers) : strContains s m = false := by
  have h := List.all_eq_true.mp hfree m hm
  simpa using h

/--
C6 (corrected): deletion is keyed on membership in the persisted store.  When
the stripped id is not a key of the persisted store — in particular any
built-in id that no persisted entry shadows, and any absent id — the delete
command performs no mutation and reports failure; when it is a key and the
confirmation is `y`, exactly that persisted entry is removed (the built-in
catalog itself is never touched).
-/
theorem delete_custom_only (store : List (String × Template)) (tid confirm : String) :
    ((store.map Prod.fst).contains (pyStrip tid) = false →
      delete_custom_template store tid confirm = (store, false)) ∧
    ((store.map Prod.fst).contains (pyStrip tid) = true →
      lowerStr (pyStrip confirm) = "y" →
      delete_custom_template store tid confirm = (delKey store (pyStrip tid), true)) := by
  refine ⟨fun h => ?_, fun h hy => ?_⟩
  · unfold delete_custom_template
    cases store with
    | nil => rfl
    | cons a rest =>
      rw [if_neg (show ¬((a :: rest : List (String × Template)).isEmpty = true) by simp),
        if_neg (show ¬((((a :: rest : List (String × Template)).map Prod.fst).contains
          (pyStrip tid)) = true) by simp only [h]; decide)]
  · have hs : store.isEmpty = false := by
      cases store
      · simp at h
      · rfl
    unfold delete_custom_template
    rw [if_neg (show ¬(store.isEmpty = true) by simp [hs]), if_pos h, if_pos hy]

/--
Witness for C6: deleting an id absent from the store (here the built-in id
`code_review` against an empty store, and an unused id against a store with
one entry) is a reported no-op, while deleting a persisted id with
confirmation removes that entry.
-/
theorem delete_custom_only_witness :
    delete_custom_template ([] : List (String × Template)) "code_review" "y" =
      ([], false) ∧
    delete_custom_template shadowStore "unused_id" "y" = (shadowStore, false) ∧
    delete_custom_template shadowStore "code_review" "y" = ([], true) :=
  ⟨(delete_custom_only [] "code_review" "y").1 (by decide),
   (delete_custom_only shadowStore "unused_id" "y").1 (by decide),
   ((delete_custom_only shadowStore "code_review" "y").2 (by decide)
      (by decide)).trans (by decide)⟩

/--
Counterexample to C6 as stated: `code_review` is a built-in id, yet when a
persisted entry shadows it, deleting it mutates the persisted store and
reports success — the membership test of `delete_custom_template` consults
only the persisted store, never the built-in catalog.
-/
theorem delete_builtin_shadow_cex :
    (BUILTIN.map Prod.fst).contains "code_review" = true ∧
    delete_custom_template shadowStore "code_review" "y" ≠ (shadowStore, false) ∧
    (delete_custom_template shadowStore "code_review" "y").2 = true := by
  refine ⟨?_, ?_, ?_⟩ <;> decide

set_option maxRecDepth 100000 in
/--
C7: search filters the merged catalog (built-ins then persisted overrides, in
insertion order, unranked) by a case-insensitive substring test of the keyword
against the concatenation of id, name, description, category and template
text; the keyword `数据库` returns both `sql_optimize` and `db_schema_design`,
and every returned entry's searchable text contains the keyword.
-/
theorem search_semantics :
    (∀ (custom : List (String × Template)) (kw : String) (p : String × Template),
      p ∈ search_templates custom kw ↔
        p ∈ get_all_templates custom ∧
          strContains (searchable p.1 p.2) (lowerStr kw) = true) ∧
    "sql_optimize" ∈ (search_templates [] "数据库").map Prod.fst ∧
    "db_schema_design" ∈ (search_templates [] "数据库").map Prod.fst ∧
    (search_templates [] "数据库").all
      (fun p => strContains (searchable p.1 p.2) (lowerStr "数据库")) = true := by
  refine ⟨?_, by decide, by decide, ?_⟩
  · intro custom kw p
    simp [search_templates, List.mem_filter]
  · rw [List.all_eq_true]
    intro p hp
    simpa using (List.mem_filter.mp hp).2


theorem isPre_append_sep (pat t b : List Char) (c : Char) (hc : c ∉ pat) :
    isPre pat (t ++ c :: b) = isPre pat t := by
  induction pat generalizing t with
  | nil => rfl
  | cons p ps ih =>
    cases t with
    | nil =>
      have hpc : (p == c) = false := by
        rw [beq_eq_false_iff_ne]
        intro he
        exact hc (he ▸ List.mem_cons_self p ps)
      simp [isPre, hpc]
    | cons y t' =>
      simp only [List.cons_append, isPre, List.append_eq]
      rw [ih t' (fun hm => hc (List.mem_cons_of_mem p hm))]

theorem countOcc_append_sep (pat a b : List Char) (c : Char) (hc : c ∉ pat)
    (hp : pat ≠ []) :
    countOcc pat (a ++ c :: b) = countOcc pat a + countOcc pat b := by
  induction a with
  | nil =>
    cases pat with
    | nil => exact absurd rfl hp
    | cons p ps =>
      have hpc : (p == c) = false := by
        rw [beq_eq_false_iff_ne]
        intro he
        exact hc (he ▸ List.mem_cons_self p ps)
      simp [countOcc, isPre, hpc]
  | cons x a' ih =>
    calc countOcc pat ((x :: a') ++ c :: b)
        = (if isPre pat ((x :: a') ++ c :: b) then 1 else 0) +
            countOcc pat (a' ++ c :: b) := rfl
      _ = (if isPre pat (x :: a') then 1 else 0) +
            (countOcc pat a' + countOcc pat b) := by
          rw [isPre_append_sep pat (x :: a') b c hc, ih]
      _ = countOcc pat (x :: a') + countOcc pat b := (Nat.add_assoc _ _ _).symm

theorem occursIn_append_sep (pat a b : List Char) (c : Char) (hc : c ∉ pat)
    (hp : pat ≠ []) :
    occursIn (a ++ c :: b) pat = (occursIn a pat || occursIn b pat) := by
  induction a with
  | nil =>
    cases pat with
    | nil => exact absurd rfl hp
    | cons p ps =>
      have hpc : (p == c) = false := by
        rw [beq_eq_false_iff_ne]
        intro he
        exact hc (he ▸ List.mem_cons_self p ps)
      simp [occursIn, isPre, hpc]
  | cons x a' ih =>
    simp only [List.cons_append, occursIn, List.append_eq]
    rw [← List.cons_append, isPre_append_sep pat (x :: a') b c hc, ih, Bool.or_assoc]

theorem countOcc_eq_zero (pat s : List Char) (h : occursIn s pat = false) :
    countOcc pat s = 0 := by
  induction s with
  | nil => rfl
  | cons x cs ih =>
    simp only [occursIn, Bool.or_eq_false_iff] at h
    simp [countOcc, h.1, ih h.2]

/--
C10 (corrected): with only the task field set, each style emits exactly its
task block, byte-identical to the stated form; the XML-style output contains
exactly one `<task>` open tag, one `</task>` close tag and none of the other
tags provided the task text itself contains no tag marker (the builder does
no escaping of its inputs, which is why the proviso is needed).  Fields left
empty are omitted entirely: all-empty input yields the empty string in every
style.
-/
theorem build_only_task (task : String) (h : task ≠ "") (hfree : tagFree task = true) :
    build_xml_style "" "" task "" "" = "\n<task>\n" ++ task ++ "\n</task>" ∧
    countOcc "<task>".data (build_xml_style "" "" task "" "").data = 1 ∧
    countOcc "</task>".data (build_xml_style "" "" task "" "").data = 1 ∧
    strContains (build_xml_style "" "" task "" "") "<role>" = false ∧
    strContains (build_xml_style "" "" task "" "") "<context>" = false ∧
    strContains (build_xml_style "" "" task "" "") "<output_format>" = false ∧
    strContains (build_xml_style "" "" task "" "") "<constraints>" = false ∧
    build_markdown_style "" "" task "" "" = "\n## 任务\n" ++ task ∧
    build_plain_style "" "" task "" "" = "\n请完成以下任务：\n" ++ task ∧
    build_xml_style "" "" "" "" "" = "" ∧
    build_markdown_style "" "" "" "" "" = "" ∧
    build_plain_style "" "" "" "" "" = "" := by
  have hx : build_xml_style "" "" task "" "" = "\n<task>\n" ++ task ++ "\n</task>" := by
    simp [build_xml_style, h, pyJoin]
  have hd : ("\n<task>\n" ++ task ++ "\n</task>").data =
      "\n<task>".data ++ '\n' :: (task.data ++ '\n' :: "</task>".data) := by
    rw [data_append, data_append,
      show ("\n<task>\n" : String).data = "\n<task>".data ++ ['\n'] by decide,
      show ("\n</task>" : String).data = '\n' :: ("</task>" : String).data by decide]
    simp
  have hnotag : ∀ m ∈ tagMarkers, occursIn task.data m.data = false := by
    intro m hm
    have hh := tagFree_no hfree hm
    simpa [strContains] using hh
  refine ⟨hx, ?_, ?_, ?_, ?_, ?_, ?_,
    by simp [build_markdown_style, h, pyJoin],
    by simp [build_plain_style, h, pyJoin], by decide, by decide, by decide⟩
  · rw [hx, hd,
      countOcc_append_sep "<task>".data "\n<task>".data _ '\n' (by decide) (by decide),
      countOcc_append_sep "<task>".data task.data "</task>".data '\n' (by decide) (by decide),
      countOcc_eq_zero "<task>".data task.data (hnotag "<task>" (by decide))]
    decide
  · rw [hx, hd,
      countOcc_append_sep "</task>".data "\n<task>".data _ '\n' (by decide) (by decide),
      countOcc_append_sep "</task>".data task.data "</task>".data '\n' (by decide) (by decide),
      countOcc_eq_zero "</task>".data task.data (hnotag "</task>" (by decide))]
    decide
  · show occursIn (build_xml_style "" "" task "" "").data ("<role>" : String).data = false
    rw [hx, hd,
      occursIn_append_sep "<role>".data "\n<task>".data _ '\n' (by decide) (by decide),
      occursIn_append_sep "<role>".data task.data "</task>".data '\n' (by decide) (by decide),
      hnotag "<role>" (by decide)]
    decide
  · show occursIn (build_xml_style "" "" task "" "").data ("<context>" : String).data = false
    rw [hx, hd,
      occursIn_append_sep "<context>".data "\n<task>".data _ '\n' (by decide) (by decide),
      occursIn_append_sep "<context>".data task.data "</task>".data '\n' (by decide) (by decide),
      hnotag "<context>" (by decide)]
    decide
  · show occursIn (build_xml_style "" "" task "" "").data ("<output_format>" : String).data = false
    rw [hx, hd,
      occursIn_append_sep "<output_format>".data "\n<task>".data _ '\n' (by decide) (by decide),
      occursIn_append_sep "<output_format>".data task.data "</task>".data '\n' (by decide) (by decide),
      hnotag "<output_format>" (by decide)]
    decide
  · show occursIn (build_xml_style "" "" task "" "").data ("<constraints>" : String).data = false
    rw [hx, hd,
      occursIn_append_sep "<constraints>".data "\n<task>".data _ '\n' (by decide) (by decide),
      occursIn_append_sep "<constraints>".data task.data "</task>".data '\n' (by decide) (by decide),
      hnotag "<constraints>" (by decide)]
    decide

/--
Witness for C10 at a concrete task text: the XML output is exactly the one
task block with one open and one close tag and no other tags.
-/
theorem build_only_task_witness :
    build_xml_style "" "" "审查这段代码" "" "" = "\n<task>\n" ++ "审查这段代码" ++ "\n</task>" ∧
    countOcc "<task>".data (build_xml_style "" "" "审查这段代码" "" "").data = 1 ∧
    strContains (build_xml_style "" "" "审查这段代码" "" "") "<role>" = false :=
  ⟨(build_only_task "审查这段代码" (by decide) (by decide)).1,
   (build_only_task "审查这段代码" (by decide) (by decide)).2.1,
   (build_only_task "审查这段代码" (by decide) (by decide)).2.2.2.1⟩

/--
Counterexample to C10 as stated: the builder performs no escaping, so a task
text that itself contains tag markers produces forbidden tags (here a
`<role>` tag) and more than one `<task>` open tag in the XML-style output,
even though only the task field is set.
-/
theorem build_only_task_cex :
    strContains (build_xml_style "" "" "<role>evil</role>" "" "") "<role>" = true ∧
    countOcc "<task>".data
      (build_xml_style "" "" "do<task>x</task>" "" "").data ≠ 1 :=
  ⟨by decide, by decide⟩


theorem identOK_braceFree {v : String} (h : identOK v = true) : braceFree v.data = true := by
  simp only [identOK, Bool.and_eq_true] at h
  exact h.2

theorem braceFree_noLB {s : List Char} (h : braceFree s = true) : noLB s = true := by
  simp only [braceFree, List.all_eq_true] at h
  simp only [noLB, List.all_eq_true]
  intro c hc
  have h2 := h c hc
  simp only [Bool.and_eq_true] at h2
  exact h2.1

theorem replaceF_congr (pat repl : List Char) :
    ∀ (n : Nat) (s : List Char) (f1 f2 : Nat), s.length ≤ n → s.length ≤ f1 →
      s.length ≤ f2 → replaceF f1 pat repl s = replaceF f2 pat repl s := by
  intro n
  induction n with
  | zero =>
    intro s f1 f2 hn _ _
    have hs : s = [] := List.eq_nil_of_length_eq_zero (Nat.le_zero.mp hn)
    subst hs
    cases f1 <;> cases f2 <;> rfl
  | succ n ih =>
    intro s f1 f2 hn h1 h2
    cases s with
    | nil => cases f1 <;> cases f2 <;> rfl
    | cons c rest =>
      cases f1 with
      | zero => exact absurd h1 (by simp)
      | succ g1 =>
        cases f2 with
        | zero => exact absurd h2 (by simp)
        | succ g2 =>
          show (if isPre pat (c :: rest) ∧ pat ≠ [] then
              repl ++ replaceF g1 pat repl ((c :: rest).drop pat.length)
            else c :: replaceF g1 pat repl rest) =
            (if isPre pat (c :: rest) ∧ pat ≠ [] then
              repl ++ replaceF g2 pat repl ((c :: rest).drop pat.length)
            else c :: replaceF g2 pat repl rest)
          by_cases hcond : isPre pat (c :: rest) ∧ pat ≠ []
          · rw [if_pos hcond, if_pos hcond]
            have hplen : 1 ≤ pat.length := List.length_pos.mpr hcond.2
            simp only [List.length_cons] at hn h1 h2
            congr 1
            apply ih <;> (simp only [List.length_drop, List.length_cons]; omega)
          · rw [if_neg hcond, if_neg hcond]
            simp only [List.length_cons] at hn h1 h2
            congr 1
            apply ih <;> omega

theorem replaceC_cons (pat repl : List Char) (c : Char) (rest : List Char) :
    replaceC pat repl (c :: rest) =
      if isPre pat (c :: rest) ∧ pat ≠ [] then
        repl ++ replaceC pat repl ((c :: rest).drop pat.length)
      else c :: replaceC pat repl rest := by
  show (if isPre pat (c :: rest) ∧ pat ≠ [] then
      repl ++ replaceF rest.length pat repl ((c :: rest).drop pat.length)
    else c :: replaceF rest.length pat repl rest) = _
  by_cases hcond : isPre pat (c :: rest) ∧ pat ≠ []
  · rw [if_pos hcond, if_pos hcond]
    have hplen : 1 ≤ pat.length := List.length_pos.mpr hcond.2
    congr 1
    apply replaceF_congr pat repl (rest.length + 1) <;>
      (simp only [List.length_drop, List.length_cons]; omega)
  · rw [if_neg hcond, if_neg hcond]
    rfl

theorem isPre_self_append (p s : List Char) : isPre p (p ++ s) = true := by
  induction p with
  | nil => rfl
  | cons a p' ih => simp [isPre, ih]

theorem replaceC_match (pat repl s : List Char) (hp : pat ≠ []) :
    replaceC pat repl (pat ++ s) = repl ++ replaceC pat repl s := by
  cases pat with
  | nil => exact absurd rfl hp
  | cons p ps =>
    rw [List.cons_append, replaceC_cons,
      if_pos ⟨isPre_self_append (p :: ps) s, hp⟩]
    congr 1
    rw [← List.cons_append, List.drop_left]

theorem replaceC_skip_noLB (w repl chunk s : List Char)
    (hch : noLB chunk = true) :
    replaceC ('\x7b' :: w) repl (chunk ++ s) =
      chunk ++ replaceC ('\x7b' :: w) repl s := by
  induction chunk with
  | nil => rfl
  | cons c rest ih =>
    simp only [noLB, List.all_cons, Bool.and_eq_true] at hch
    have hcne : ('\x7b' == c) = false :=
      beq_eq_false_iff_ne.mpr (Ne.symm (bne_iff_ne.mp hch.1))
    have hpre : isPre ('\x7b' :: w) (c :: (rest ++ s)) = false := by
      simp [isPre, hcne]
    rw [List.cons_append, replaceC_cons, if_neg (by simp [hpre]), ih hch.2]
    rfl

theorem isPre_ident_ne (u : List Char) :
    ∀ (v s : List Char), braceFree u = true → braceFree v = true → u ≠ v →
      isPre (v ++ ['\x7d']) (u ++ '\x7d' :: s) = false := by
  induction u with
  | nil =>
    intro v s _ hv hne
    cases v with
    | nil => exact absurd rfl hne
    | cons d v' =>
      simp only [braceFree, List.all_cons, Bool.and_eq_true] at hv
      have hdne : (d == '\x7d') = false :=
        beq_eq_false_iff_ne.mpr (bne_iff_ne.mp hv.1.2)
      simp [isPre, hdne]
  | cons a u' ih =>
    intro v s hu hv hne
    simp only [braceFree, List.all_cons, Bool.and_eq_true] at hu
    cases v with
    | nil =>
      have hane : ('\x7d' == a) = false :=
        beq_eq_false_iff_ne.mpr (Ne.symm (bne_iff_ne.mp hu.1.2))
      simp [isPre, hane]
    | cons d v' =>
      simp only [braceFree, List.all_cons, Bool.and_eq_true] at hv
      by_cases hda : d = a
      · subst hda
        have hne' : u' ≠ v' := fun he => hne (by rw [he])
        simp only [List.cons_append, isPre, beq_self_eq_true, Bool.true_and]
        exact ih v' s hu.2 hv.2 hne'
      · have hdne : (d == a) = false := beq_eq_false_iff_ne.mpr hda
        simp [isPre, hdne]

theorem isPre_marker_ne (u v s : List Char)
    (hu : braceFree u = true) (hv : braceFree v = true) (hne : u ≠ v) :
    isPre ('\x7b' :: (v ++ ['\x7d'])) ('\x7b' :: (u ++ '\x7d' :: s)) = false := by
  simp [isPre, isPre_ident_ne u v s hu hv hne]

theorem replaceC_skip_marker (u v repl s : List Char)
    (hu : braceFree u = true) (hv : braceFree v = true) (hne : u ≠ v) :
    replaceC ('\x7b' :: (v ++ ['\x7d'])) repl (('\x7b' :: (u ++ ['\x7d'])) ++ s) =
      ('\x7b' :: (u ++ ['\x7d'])) ++ replaceC ('\x7b' :: (v ++ ['\x7d'])) repl s := by
  have harr : ('\x7b' :: (u ++ ['\x7d'])) ++ s = '\x7b' :: (u ++ '\x7d' :: s) := by
    simp
  rw [harr, replaceC_cons, if_neg (by simp [isPre_marker_ne u v s hu hv hne])]
  have hsk : replaceC ('\x7b' :: (v ++ ['\x7d'])) repl (u ++ '\x7d' :: s) =
      u ++ replaceC ('\x7b' :: (v ++ ['\x7d'])) repl ('\x7d' :: s) :=
    replaceC_skip_noLB (v ++ ['\x7d']) repl u ('\x7d' :: s) (braceFree_noLB hu)
  rw [hsk]
  have hsk2 : replaceC ('\x7b' :: (v ++ ['\x7d'])) repl ('\x7d' :: s) =
      '\x7d' :: replaceC ('\x7b' :: (v ++ ['\x7d'])) repl s := by
    have h1 := replaceC_skip_noLB (v ++ ['\x7d']) repl ['\x7d'] s (by decide)
    simpa using h1
  rw [hsk2]
  simp

theorem marker_data (v : String) :
    (marker v).data = '\x7b' :: (v.data ++ ['\x7d']) := by
  show ("\x7b" ++ v ++ "\x7d").data = _
  rw [data_append, data_append]
  simp [show ("\x7b" : String).data = ['\x7b'] from rfl,
    show ("\x7d" : String).data = ['\x7d'] from rfl]

theorem alookup_append_some {α : Type} (P Q : List (String × α)) (u : String) (w : α)
    (h : alookup P u = some w) : alookup (P ++ Q) u = some w := by
  induction P with
  | nil => simp [alookup] at h
  | cons p P' ih =>
    cases p with
    | mk k x =>
      rw [List.cons_append]
      by_cases hk : k = u
      · rw [show alookup ((k, x) :: P') u = some x by simp [alookup, hk]] at h
        rw [show alookup ((k, x) :: (P' ++ Q)) u = some x by simp [alookup, hk]]
        exact h
      · rw [show alookup ((k, x) :: P') u = alookup P' u by simp [alookup, hk]] at h
        rw [show alookup ((k, x) :: (P' ++ Q)) u = alookup (P' ++ Q) u by
          simp [alookup, hk]]
        exact ih h

theorem alookup_append_none {α : Type} (P Q : List (String × α)) (u : String)
    (h : alookup P u = none) : alookup (P ++ Q) u = alookup Q u := by
  induction P with
  | nil => rfl
  | cons p P' ih =>
    cases p with
    | mk k x =>
      by_cases hk : k = u
      · rw [show alookup ((k, x) :: P') u = some x by simp [alookup, hk]] at h
        exact Option.noConfusion h
      · rw [List.cons_append,
          show alookup ((k, x) :: (P' ++ Q)) u = alookup (P' ++ Q) u by
            simp [alookup, hk]]
        rw [show alookup ((k, x) :: P') u = alookup P' u by simp [alookup, hk]] at h
        exact ih h

theorem alookup_none_not_key {α : Type} (P : List (String × α)) (u : String)
    (h : alookup P u = none) : u ∉ P.map Prod.fst := by
  induction P with
  | nil => simp
  | cons p P' ih =>
    cases p with
    | mk k x =>
      by_cases hk : k = u
      · rw [show alookup ((k, x) :: P') u = some x by simp [alookup, hk]] at h
        exact Option.noConfusion h
      · intro hmem
        simp only [List.map_cons, List.mem_cons] at hmem
        rcases hmem with he | hm
        · exact hk he.symm
        · rw [show alookup ((k, x) :: P') u = alookup P' u by
            simp [alookup, hk]] at h
          exact ih h hm

theorem valsOK_lookup (P : List (String × String)) (u w : String)
    (hP : valsOK P = true) (h : alookup P u = some w) : noLB w.data = true := by
  induction P with
  | nil => simp [alookup] at h
  | cons p P' ih =>
    cases p with
    | mk k x =>
      simp only [valsOK, List.all_cons, Bool.and_eq_true] at hP
      by_cases hk : k = u
      · rw [show alookup ((k, x) :: P') u = some x by simp [alookup, hk]] at h
        rw [show w = x from (Option.some.inj h).symm]
        exact hP.1.2
      · rw [show alookup ((k, x) :: P') u = alookup P' u by simp [alookup, hk]] at h
        exact ih hP.2 h

theorem valsOK_key (P : List (String × String)) (v : String)
    (hP : valsOK P = true) (hv : v ∈ P.map Prod.fst) : identOK v = true := by
  induction P with
  | nil => simp at hv
  | cons p P' ih =>
    cases p with
    | mk k x =>
      simp only [valsOK, List.all_cons, Bool.and_eq_true] at hP
      simp only [List.map_cons, List.mem_cons] at hv
      rcases hv with he | hm
      · rw [he]
        exact hP.1.1
      · exact ih hP.2 hm

theorem valsOK_append_single (P : List (String × String)) (v val : String)
    (hP : valsOK P = true) (hv : identOK v = true) (hval : noLB val.data = true) :
    valsOK (P ++ [(v, val)]) = true := by
  simp only [valsOK, List.all_append, List.all_cons, List.all_nil, Bool.and_true,
    Bool.and_eq_true] at hP ⊢
  exact ⟨hP, hv, hval⟩

theorem flattenSub_cons (P : List (String × String)) (sg : Seg) (rest : List Seg) :
    flattenSub P (sg :: rest) = substSeg P sg ++ flattenSub P rest := rfl

theorem replace_flattenSub (v val : String) (segs : List Seg)
    (P : List (String × String))
    (hsegs : segsOK segs = true) (hP : valsOK P = true)
    (hv : identOK v = true) (hval : noLB val.data = true) :
    pyReplace (flattenSub P segs) (marker v) val =
      flattenSub (P ++ [(v, val)]) segs := by
  induction segs with
  | nil => exact String.ext rfl
  | cons sg rest ih =>
    simp only [segsOK, List.all_cons, Bool.and_eq_true] at hsegs
    have ihr := ih hsegs.2
    have ihd : replaceC (marker v).data val.data (flattenSub P rest).data =
        (flattenSub (P ++ [(v, val)]) rest).data := congrArg String.data ihr
    apply String.ext
    show replaceC (marker v).data val.data (flattenSub P (sg :: rest)).data =
      (flattenSub (P ++ [(v, val)]) (sg :: rest)).data
    rw [flattenSub_cons, flattenSub_cons, data_append, data_append]
    cases sg with
    | lit s =>
      have hch : noLB s.data = true := hsegs.1
      rw [show substSeg P (Seg.lit s) = s from rfl,
        show substSeg (P ++ [(v, val)]) (Seg.lit s) = s from rfl,
        marker_data,
        replaceC_skip_noLB (v.data ++ ['\x7d']) val.data s.data _ hch,
        ← marker_data, ihd]
    | hole u =>
      have huOK : identOK u = true := hsegs.1
      cases halu : alookup P u with
      | some w =>
        have hw : noLB w.data = true := valsOK_lookup P u w hP halu
        rw [show substSeg P (Seg.hole u) = w by simp [substSeg, halu],
          show substSeg (P ++ [(v, val)]) (Seg.hole u) = w by
            simp [substSeg, alookup_append_some P [(v, val)] u w halu],
          marker_data,
          replaceC_skip_noLB (v.data ++ ['\x7d']) val.data w.data _ hw,
          ← marker_data, ihd]
      | none =>
        by_cases huv : u = v
        · subst huv
          rw [show substSeg P (Seg.hole u) = marker u by simp [substSeg, halu],
            show substSeg (P ++ [(u, val)]) (Seg.hole u) = val by
              simp [substSeg, alookup_append_none P [(u, val)] u halu, alookup],
            replaceC_match (marker u).data val.data _ (by simp [marker_data]),
            ihd]
        · have hmne : u.data ≠ v.data := fun he => huv (String.ext he)
          rw [show substSeg P (Seg.hole u) = marker u by simp [substSeg, halu],
            show substSeg (P ++ [(v, val)]) (Seg.hole u) = marker u by
              simp [substSeg, alookup_append_none P [(v, val)] u halu, alookup,
                show ¬ v = u from fun he => huv he.symm],
            marker_data, marker_data,
            replaceC_skip_marker u.data v.data val.data _
              (identOK_braceFree huOK) (identOK_braceFree hv) hmne,
            ← marker_data, ← marker_data, ihd]

theorem flatten_eq_flattenSub_nil (segs : List Seg) :
    flatten segs = flattenSub ([] : List (String × String)) segs := by
  induction segs with
  | nil => rfl
  | cons sg rest ih =>
    show segText sg ++ flatten rest = substSeg [] sg ++ flattenSub [] rest
    rw [ih]
    cases sg <;> rfl

theorem renderTemplate_fold (segs : List Seg) (hsegs : segsOK segs = true) :
    ∀ (vs P : List (String × String)), valsOK P = true → valsOK vs = true →
      vs.foldl (fun acc p => pyReplace acc ("\x7b" ++ p.1 ++ "\x7d") p.2)
          (flattenSub P segs) =
        flattenSub (P ++ vs) segs := by
  intro vs
  induction vs with
  | nil =>
    intro P hP _
    simp
  | cons p vs' ih =>
    intro P hP hvs
    simp only [valsOK, List.all_cons, Bool.and_eq_true] at hvs
    rw [List.foldl_cons,
      show pyReplace (flattenSub P segs) ("\x7b" ++ p.1 ++ "\x7d") p.2 =
          flattenSub (P ++ [(p.1, p.2)]) segs from
        replace_flattenSub p.1 p.2 segs P hsegs hP hvs.1.1 hvs.1.2,
      ih (P ++ [(p.1, p.2)])
        (valsOK_append_single P p.1 p.2 hP hvs.1.1 hvs.1.2) hvs.2,
      List.append_assoc]
    rfl

theorem occursIn_skip_noLB (w chunk s : List Char) (hch : noLB chunk = true) :
    occursIn (chunk ++ s) ('\x7b' :: w) = occursIn s ('\x7b' :: w) := by
  induction chunk with
  | nil => rfl
  | cons c rest ih =>
    simp only [noLB, List.all_cons, Bool.and_eq_true] at hch
    have hcne : ('\x7b' == c) = false :=
      beq_eq_false_iff_ne.mpr (Ne.symm (bne_iff_ne.mp hch.1))
    rw [List.cons_append]
    show (isPre ('\x7b' :: w) (c :: (rest ++ s)) || occursIn (rest ++ s) ('\x7b' :: w)) = _
    rw [ih hch.2]
    simp [isPre, hcne]

theorem occursIn_skip_marker (u v s : List Char)
    (hu : braceFree u = true) (hv : braceFree v = true) (hne : u ≠ v) :
    occursIn (('\x7b' :: (u ++ ['\x7d'])) ++ s) ('\x7b' :: (v ++ ['\x7d'])) =
      occursIn s ('\x7b' :: (v ++ ['\x7d'])) := by
  have harr : ('\x7b' :: (u ++ ['\x7d'])) ++ s = '\x7b' :: (u ++ '\x7d' :: s) := by
    simp
  rw [harr]
  show (isPre ('\x7b' :: (v ++ ['\x7d'])) ('\x7b' :: (u ++ '\x7d' :: s)) ||
      occursIn (u ++ '\x7d' :: s) ('\x7b' :: (v ++ ['\x7d']))) = _
  rw [isPre_marker_ne u v s hu hv hne,
    occursIn_skip_noLB (v ++ ['\x7d']) u ('\x7d' :: s) (braceFree_noLB hu),
    show occursIn ('\x7d' :: s) ('\x7b' :: (v ++ ['\x7d'])) =
        occursIn s ('\x7b' :: (v ++ ['\x7d'])) by
      have h1 := occursIn_skip_noLB (v ++ ['\x7d']) ['\x7d'] s (by decide)
      simpa using h1]
  simp

theorem no_marker_in_flattenSub (vals : List (String × String)) (segs : List Seg)
    (v : String) (hsegs : segsOK segs = true) (hvals : valsOK vals = true)
    (hv : v ∈ vals.map Prod.fst) :
    occursIn (flattenSub vals segs).data (marker v).data = false := by
  induction segs with
  | nil =>
    show occursIn ([] : List Char) (marker v).data = false
    rw [marker_data]
    rfl
  | cons sg rest ih =>
    simp only [segsOK, List.all_cons, Bool.and_eq_true] at hsegs
    rw [flattenSub_cons, data_append, marker_data]
    cases sg with
    | lit s =>
      have hch : noLB s.data = true := hsegs.1
      rw [show (substSeg vals (Seg.lit s)).data = s.data from rfl,
        occursIn_skip_noLB (v.data ++ ['\x7d']) s.data _ hch, ← marker_data]
      exact ih hsegs.2
    | hole u =>
      have huOK : identOK u = true := hsegs.1
      cases halu : alookup vals u with
      | some w =>
        have hw : noLB w.data = true := valsOK_lookup vals u w hvals halu
        rw [show (substSeg vals (Seg.hole u)).data = w.data by simp [substSeg, halu],
          occursIn_skip_noLB (v.data ++ ['\x7d']) w.data _ hw, ← marker_data]
        exact ih hsegs.2
      | none =>
        have hune : u ≠ v := by
          intro he
          subst he
          exact alookup_none_not_key vals u halu hv
        rw [show (substSeg vals (Seg.hole u)).data = (marker u).data by
            simp [substSeg, halu],
          marker_data,
          occursIn_skip_marker u.data v.data _ (identOK_braceFree huOK)
            (identOK_braceFree (valsOK_key vals v hvals hv))
            (fun he => hune (String.ext he)),
          ← marker_data]
        exact ih hsegs.2

/--
C1 (corrected): `use_template` renders by one sequential `str.replace` per
collected variable, in collection order.  For any template given as hygienic
segments (literal text free of left braces, hole names nonempty and
brace-free) and any value list whose values contain no left brace, the
sequential rendering equals simultaneous substitution: each supplied
variable's marker is replaced by its value everywhere, markers of unsupplied
variables pass through unchanged, literal text is byte-identical — and the
output contains no marker of any supplied variable.  (Without the hygiene
proviso this fails: an earlier-substituted value containing a later
variable's marker is itself re-substituted; see the counterexample.)
-/
theorem use_template_render (segs : List Seg) (vals : List (String × String))
    (hsegs : segsOK segs = true) (hvals : valsOK vals = true) :
    renderTemplate (flatten segs) vals = flattenSub vals segs ∧
    ∀ v ∈ vals.map Prod.fst,
      strContains (renderTemplate (flatten segs) vals) (marker v) = false := by
  have h1 : renderTemplate (flatten segs) vals = flattenSub vals segs := by
    show vals.foldl (fun acc p => pyReplace acc ("\x7b" ++ p.1 ++ "\x7d") p.2)
        (flatten segs) = flattenSub vals segs
    rw [flatten_eq_flattenSub_nil]
    have h2 := renderTemplate_fold segs hsegs vals [] rfl hvals
    simpa using h2
  refine ⟨h1, fun v hv => ?_⟩
  rw [h1]
  show occursIn (flattenSub vals segs).data (marker v).data = false
  exact no_marker_in_flattenSub vals segs v hsegs hvals hv

/--
Witness for C1: a concrete hygienic template with two variables renders to
the simultaneous substitution, which evaluates to the expected text.
-/
theorem use_template_render_witness :
    segsOK demoSegs = true ∧ valsOK demoVals = true ∧
    renderTemplate (flatten demoSegs) demoVals = flattenSub demoVals demoSegs ∧
    flattenSub demoVals demoSegs = "Review Go code: x := 1" :=
  ⟨by decide, by decide,
   (use_template_render demoSegs demoVals (by decide) (by decide)).1, by decide⟩

/--
Counterexample to C1 as stated: replacement is sequential, so the value of a
later variable may contain an earlier variable's marker and that marker
survives in the output — with template `{a} {b}` and values a ↦ 1,
b ↦ `{a}`, the output is `1 {a}`, which still contains the marker of the
declared-and-supplied variable `a`.
-/
theorem use_template_render_cex :
    renderTemplate "{a} {b}" [("a", "1"), ("b", "{a}")] = "1 {a}" ∧
    strContains (renderTemplate "{a} {b}" [("a", "1"), ("b", "{a}")])
      (marker "a") = true :=
  ⟨by decide, by decide⟩


theorem readStrF_shrink :
    ∀ (cs : List Char) (b : Bool) (s r : List Char),
      readStrF b cs = some (s, r) → r.length < cs.length := by
  intro cs
  induction cs with
  | nil =>
    intro b s r h
    cases b <;> simp [readStrF] at h
  | cons c rest ih =>
    intro b s r h
    cases b with
    | true =>
      rw [show readStrF true (c :: rest) =
          (match escChar c with
           | some d =>
             match readStrF false rest with
             | some (s, r) => some (d :: s, r)
             | none => none
           | none => none) from rfl] at h
      cases he : escChar c with
      | none => rw [he] at h; simp at h
      | some d =>
        rw [he] at h
        cases hr : readStrF false rest with
        | none => rw [hr] at h; simp at h
        | some p =>
          rw [hr] at h
          cases p with
          | mk s2 r2 =>
            simp only [Option.some.injEq, Prod.mk.injEq] at h
            have hlt := ih false s2 r2 hr
            rw [← h.2]
            simp only [List.length_cons]
            omega
    | false =>
      simp only [readStrF] at h
      split_ifs at h with hq hb hctl
      · simp only [Option.some.injEq, Prod.mk.injEq] at h
        rw [← h.2]
        simp
      · have hlt := ih true s r h
        simp only [List.length_cons]
        omega
      · cases hr : readStrF false rest with
        | none => rw [hr] at h; simp at h
        | some p =>
          rw [hr] at h
          cases p with
          | mk s2 r2 =>
            simp only [Option.some.injEq, Prod.mk.injEq] at h
            have hlt := ih false s2 r2 hr
            rw [← h.2]
            simp only [List.length_cons]
            omega

theorem tokenizeF_congr :
    ∀ (n : Nat) (cs : List Char) (f1 f2 : Nat), cs.length ≤ n → cs.length < f1 →
      cs.length < f2 → tokenizeF f1 cs = tokenizeF f2 cs := by
  intro n
  induction n with
  | zero =>
    intro cs f1 f2 hn h1 h2
    have hcs : cs = [] := List.eq_nil_of_length_eq_zero (Nat.le_zero.mp hn)
    subst hcs
    cases f1 with
    | zero => omega
    | succ g1 =>
      cases f2 with
      | zero => omega
      | succ g2 => rfl
  | succ n ih =>
    intro cs f1 f2 hn h1 h2
    cases f1 with
    | zero => omega
    | succ g1 =>
      cases f2 with
      | zero => omega
      | succ g2 =>
        cases cs with
        | nil => rfl
        | cons c rest =>
          simp only [List.length_cons] at hn h1 h2
          show (if c = ' ' ∨ c = '\n' ∨ c = '\t' ∨ c = '\r' then tokenizeF g1 rest
            else if c = '\x7b' then (tokenizeF g1 rest).map (Tok.lbrace :: ·)
            else if c = '\x7d' then (tokenizeF g1 rest).map (Tok.rbrace :: ·)
            else if c = '[' then (tokenizeF g1 rest).map (Tok.lbrack :: ·)
            else if c = ']' then (tokenizeF g1 rest).map (Tok.rbrack :: ·)
            else if c = ':' then (tokenizeF g1 rest).map (Tok.colon :: ·)
            else if c = ',' then (tokenizeF g1 rest).map (Tok.comma :: ·)
            else if c = '"' then
              match readStrF false rest with
              | some (s, r) => (tokenizeF g1 r).map (Tok.str ⟨s⟩ :: ·)
              | none => none
            else none) =
            (if c = ' ' ∨ c = '\n' ∨ c = '\t' ∨ c = '\r' then tokenizeF g2 rest
            else if c = '\x7b' then (tokenizeF g2 rest).map (Tok.lbrace :: ·)
            else if c = '\x7d' then (tokenizeF g2 rest).map (Tok.rbrace :: ·)
            else if c = '[' then (tokenizeF g2 rest).map (Tok.lbrack :: ·)
            else if c = ']' then (tokenizeF g2 rest).map (Tok.rbrack :: ·)
            else if c = ':' then (tokenizeF g2 rest).map (Tok.colon :: ·)
            else if c = ',' then (tokenizeF g2 rest).map (Tok.comma :: ·)
            else if c = '"' then
              match readStrF false rest with
              | some (s, r) => (tokenizeF g2 r).map (Tok.str ⟨s⟩ :: ·)
              | none => none
            else none)
          have hrec : tokenizeF g1 rest = tokenizeF g2 rest := by
            apply ih rest g1 g2 <;> omega
          rw [hrec]
          cases hr : readStrF false rest with
          | none => rfl
          | some p =>
            cases p with
            | mk s2 r2 =>
              have hlt := readStrF_shrink rest false s2 r2 hr
              have hrec2 : tokenizeF g1 r2 = tokenizeF g2 r2 := by
                apply ih r2 g1 g2 <;> omega
              rw [show (match some (s2, r2) with
                  | some (s, r) => (tokenizeF g1 r).map (Tok.str ⟨s⟩ :: ·)
                  | none => none) =
                  (tokenizeF g1 r2).map (Tok.str ⟨s2⟩ :: ·) from rfl,
                show (match some (s2, r2) with
                  | some (s, r) => (tokenizeF g2 r).map (Tok.str ⟨s⟩ :: ·)
                  | none => none) =
                  (tokenizeF g2 r2).map (Tok.str ⟨s2⟩ :: ·) from rfl,
                hrec2]

theorem tokenizeF_eq_tokenize (f : Nat) (cs : List Char) (h : cs.length < f) :
    tokenizeF f cs = tokenize cs :=
  tokenizeF_congr cs.length cs f (cs.length + 1) (Nat.le_refl _) h (Nat.lt_succ_self _)

theorem tk_sp (r : List Char) : tokenize (' ' :: r) = tokenize r := rfl

theorem tk_nl (r : List Char) : tokenize ('\n' :: r) = tokenize r := rfl

theorem tk_tab (r : List Char) : tokenize ('\t' :: r) = tokenize r := rfl

theorem tk_cr (r : List Char) : tokenize ('\r' :: r) = tokenize r := rfl

theorem tk_lb (r : List Char) :
    tokenize ('\x7b' :: r) = (tokenize r).map (Tok.lbrace :: ·) := rfl

theorem tk_rb (r : List Char) :
    tokenize ('\x7d' :: r) = (tokenize r).map (Tok.rbrace :: ·) := rfl

theorem tk_lk (r : List Char) :
    tokenize ('[' :: r) = (tokenize r).map (Tok.lbrack :: ·) := rfl

theorem tk_rk (r : List Char) :
    tokenize (']' :: r) = (tokenize r).map (Tok.rbrack :: ·) := rfl

theorem tk_co (r : List Char) :
    tokenize (':' :: r) = (tokenize r).map (Tok.colon :: ·) := rfl

theorem tk_cm (r : List Char) :
    tokenize (',' :: r) = (tokenize r).map (Tok.comma :: ·) := rfl

theorem tokenize_str (rest s r : List Char) (h : readStrF false rest = some (s, r)) :
    tokenize ('"' :: rest) = (tokenize r).map (Tok.str ⟨s⟩ :: ·) := by
  have hlen : r.length < rest.length := readStrF_shrink rest false s r h
  show tokenizeF ((rest.length + 1) + 1) ('"' :: rest) = _
  rw [show tokenizeF ((rest.length + 1) + 1) ('"' :: rest) =
      (match readStrF false rest with
       | some (s, r) => (tokenizeF (rest.length + 1) r).map (Tok.str ⟨s⟩ :: ·)
       | none => none) from rfl, h]
  show (tokenizeF (rest.length + 1) r).map (Tok.str ⟨s⟩ :: ·) = _
  rw [tokenizeF_eq_tokenize (rest.length + 1) r (by omega)]

theorem readStrF_escList :
    ∀ (s : List Char), s.all charOK = true → ∀ (rest : List Char),
      readStrF false (escList s ++ '"' :: rest) = some (s, rest) := by
  intro s
  induction s with
  | nil => intro _ rest; rfl
  | cons c s' ih =>
    intro hOK rest
    simp only [List.all_cons, Bool.and_eq_true] at hOK
    by_cases h1 : c = '"'
    · subst h1
      show readStrF false ('\\' :: '"' :: (escList s' ++ '"' :: rest)) = _
      rw [show readStrF false ('\\' :: '"' :: (escList s' ++ '"' :: rest)) =
          (match readStrF false (escList s' ++ '"' :: rest) with
           | some (s, r) => some ('"' :: s, r)
           | none => none) from rfl, ih hOK.2 rest]
    · by_cases h2 : c = '\\'
      · subst h2
        show readStrF false ('\\' :: '\\' :: (escList s' ++ '"' :: rest)) = _
        rw [show readStrF false ('\\' :: '\\' :: (escList s' ++ '"' :: rest)) =
            (match readStrF false (escList s' ++ '"' :: rest) with
             | some (s, r) => some ('\\' :: s, r)
             | none => none) from rfl, ih hOK.2 rest]
      · by_cases h3 : c = '\n'
        · subst h3
          show readStrF false ('\\' :: 'n' :: (escList s' ++ '"' :: rest)) = _
          rw [show readStrF false ('\\' :: 'n' :: (escList s' ++ '"' :: rest)) =
              (match readStrF false (escList s' ++ '"' :: rest) with
               | some (s, r) => some ('\n' :: s, r)
               | none => none) from rfl, ih hOK.2 rest]
        · by_cases h4 : c = '\t'
          · subst h4
            show readStrF false ('\\' :: 't' :: (escList s' ++ '"' :: rest)) = _
            rw [show readStrF false ('\\' :: 't' :: (escList s' ++ '"' :: rest)) =
                (match readStrF false (escList s' ++ '"' :: rest) with
                 | some (s, r) => some ('\t' :: s, r)
                 | none => none) from rfl, ih hOK.2 rest]
          · by_cases h5 : c = '\r'
            · subst h5
              show readStrF false ('\\' :: 'r' :: (escList s' ++ '"' :: rest)) = _
              rw [show readStrF false ('\\' :: 'r' :: (escList s' ++ '"' :: rest)) =
                  (match readStrF false (escList s' ++ '"' :: rest) with
                   | some (s, r) => some ('\r' :: s, r)
                   | none => none) from rfl, ih hOK.2 rest]
            · have h32 : ¬(c.toNat < 32) := by
                have hc := hOK.1
                simp only [charOK, Bool.or_eq_true, decide_eq_true_eq,
                  beq_iff_eq] at hc
                rcases hc with ((hge | hn) | ht) | hr2
                · omega
                · exact absurd hn h3
                · exact absurd ht h4
                · exact absurd hr2 h5
              have hesc : escList (c :: s') = c :: escList s' := by
                show (if c = '"' then ['\\', '"']
                  else if c = '\\' then ['\\', '\\']
                  else if c = '\n' then ['\\', 'n']
                  else if c = '\t' then ['\\', 't']
                  else if c = '\r' then ['\\', 'r']
                  else [c]) ++ escList s' = c :: escList s'
                rw [if_neg h1, if_neg h2, if_neg h3, if_neg h4, if_neg h5]
                rfl
              rw [hesc, List.cons_append]
              simp only [readStrF]
              rw [if_neg h1, if_neg h2, if_neg h32, ih hOK.2 rest]

theorem tokenize_encString (s : String) (hOK : strOK s = true) (r : List Char) :
    tokenize ((encString s).data ++ r) = (tokenize r).map (Tok.str s :: ·) := by
  have hd : (encString s).data ++ r = '"' :: (escList s.data ++ '"' :: r) := by
    show (("\"" ++ (⟨escList s.data⟩ : String) ++ "\"").data) ++ r = _
    rw [data_append, data_append]
    simp
  rw [hd, tokenize_str (escList s.data ++ '"' :: r) s.data r
    (readStrF_escList s.data hOK r)]

theorem tokenize_glue :
    ∀ (g : List Char), g.all isSimple = true → ∀ (r : List Char),
      tokenize (g ++ r) = (tokenize r).map (g.filterMap glueTok ++ ·) := by
  intro g
  induction g with
  | nil =>
    intro _ r
    simp only [List.nil_append, List.filterMap_nil]
    cases tokenize r <;> simp
  | cons c g' ih =>
    intro hg r
    simp only [List.all_cons, Bool.and_eq_true] at hg
    have hc := hg.1
    simp only [isSimple, Bool.or_eq_true, beq_iff_eq] at hc
    rcases hc with ((((((((h | h) | h) | h) | h) | h) | h) | h) | h) | h <;> subst h
    · rw [List.cons_append, tk_sp, ih hg.2 r]
      cases tokenize r <;> simp [glueTok]
    · rw [List.cons_append, tk_nl, ih hg.2 r]
      cases tokenize r <;> simp [glueTok]
    · rw [List.cons_append, tk_tab, ih hg.2 r]
      cases tokenize r <;> simp [glueTok]
    · rw [List.cons_append, tk_cr, ih hg.2 r]
      cases tokenize r <;> simp [glueTok]
    · rw [List.cons_append, tk_lb, ih hg.2 r]
      cases tokenize r <;> simp [glueTok]
    · rw [List.cons_append, tk_rb, ih hg.2 r]
      cases tokenize r <;> simp [glueTok]
    · rw [List.cons_append, tk_lk, ih hg.2 r]
      cases tokenize r <;> simp [glueTok]
    · rw [List.cons_append, tk_rk, ih hg.2 r]
      cases tokenize r <;> simp [glueTok]
    · rw [List.cons_append, tk_co, ih hg.2 r]
      cases tokenize r <;> simp [glueTok]
    · rw [List.cons_append, tk_cm, ih hg.2 r]
      cases tokenize r <;> simp [glueTok]


theorem varsToksTail_bridge :
    ∀ (vs : List String), varsToksTail vs = varsTailToksE vs ++ [Tok.rbrack] := by
  intro vs
  induction vs with
  | nil => rfl
  | cons v rest ih => simp [varsToksTail, varsTailToksE, ih]

theorem storeToksTail_bridge :
    ∀ (st : List (String × Template)),
      storeToksTail st = storeTailToksE st ++ [Tok.rbrace] := by
  intro st
  induction st with
  | nil => rfl
  | cons p rest ih =>
    cases p with
    | mk k t => simp [storeToksTail, storeTailToksE, ih]

theorem tokenize_encVarsTail :
    ∀ (vs : List String), vs.all strOK = true → ∀ (r : List Char),
      tokenize ((encVarsTail vs).data ++ r) =
        (tokenize r).map (varsTailToksE vs ++ ·) := by
  intro vs
  induction vs with
  | nil =>
    intro _ r
    show tokenize (("" : String).data ++ r) = _
    rw [show ("" : String).data = [] from rfl, List.nil_append]
    cases tokenize r <;> simp [varsTailToksE]
  | cons v rest ih =>
    intro hOK r
    simp only [List.all_cons, Bool.and_eq_true] at hOK
    show tokenize ((",\n      " ++ encString v ++ encVarsTail rest).data ++ r) = _
    rw [data_append, data_append, List.append_assoc, List.append_assoc,
      tokenize_glue (",\n      " : String).data (by decide),
      tokenize_encString v hOK.1,
      ih hOK.2,
      show (",\n      " : String).data.filterMap glueTok = [Tok.comma] from by decide]
    cases tokenize r <;> simp [varsTailToksE]

theorem tokenize_encVars :
    ∀ (vs : List String), vs.all strOK = true → ∀ (r : List Char),
      tokenize ((encVars vs).data ++ r) = (tokenize r).map (varsToks vs ++ ·) := by
  intro vs hOK r
  cases vs with
  | nil =>
    show tokenize (("[]" : String).data ++ r) = _
    rw [show ("[]" : String).data ++ r = '[' :: ']' :: r from rfl, tk_lk, tk_rk]
    cases tokenize r <;> simp [varsToks]
  | cons v rest =>
    simp only [List.all_cons, Bool.and_eq_true] at hOK
    show tokenize (("[\n      " ++ encString v ++ encVarsTail rest ++ "\n    ]").data ++ r) = _
    rw [data_append, data_append, data_append, List.append_assoc, List.append_assoc,
      List.append_assoc,
      tokenize_glue ("[\n      " : String).data (by decide),
      tokenize_encString v hOK.1,
      tokenize_encVarsTail rest hOK.2,
      tokenize_glue ("\n    ]" : String).data (by decide),
      show ("[\n      " : String).data.filterMap glueTok = [Tok.lbrack] from by decide,
      show ("\n    ]" : String).data.filterMap glueTok = [Tok.rbrack] from by decide,
      show varsToks (v :: rest) = Tok.lbrack :: Tok.str v :: varsToksTail rest from rfl,
      varsToksTail_bridge rest]
    cases tokenize r <;> simp

theorem tokenize_encTemplate (t : Template) (hOK : tplOK t = true) (r : List Char) :
    tokenize ((encTemplate t).data ++ r) = (tokenize r).map (tplToks t ++ ·) := by
  simp only [tplOK, Bool.and_eq_true] at hOK
  obtain ⟨⟨⟨⟨hn, hc⟩, hd⟩, hv⟩, ht⟩ := hOK
  show tokenize (("\x7b\n    " ++ encString "name" ++ ": " ++ encString t.name ++
    ",\n    " ++ encString "category" ++ ": " ++ encString t.category ++
    ",\n    " ++ encString "description" ++ ": " ++ encString t.description ++
    ",\n    " ++ encString "variables" ++ ": " ++ encVars t.vars ++
    ",\n    " ++ encString "template" ++ ": " ++ encString t.template ++
    "\n  \x7d").data ++ r) = _
  simp only [data_append, List.append_assoc]
  rw [tokenize_glue ("\x7b\n    " : String).data (by decide),
    tokenize_encString "name" (by decide),
    tokenize_glue (": " : String).data (by decide),
    tokenize_encString t.name hn,
    tokenize_glue (",\n    " : String).data (by decide),
    tokenize_encString "category" (by decide),
    tokenize_glue (": " : String).data (by decide),
    tokenize_encString t.category hc,
    tokenize_glue (",\n    " : String).data (by decide),
    tokenize_encString "description" (by decide),
    tokenize_glue (": " : String).data (by decide),
    tokenize_encString t.description hd,
    tokenize_glue (",\n    " : String).data (by decide),
    tokenize_encString "variables" (by decide),
    tokenize_glue (": " : String).data (by decide),
    tokenize_encVars t.vars hv,
    tokenize_glue (",\n    " : String).data (by decide),
    tokenize_encString "template" (by decide),
    tokenize_glue (": " : String).data (by decide),
    tokenize_encString t.template ht,
    tokenize_glue ("\n  \x7d" : String).data (by decide),
    show ("\x7b\n    " : String).data.filterMap glueTok = [Tok.lbrace] from by decide,
    show (": " : String).data.filterMap glueTok = [Tok.colon] from by decide,
    show (",\n    " : String).data.filterMap glueTok = [Tok.comma] from by decide,
    show ("\n  \x7d" : String).data.filterMap glueTok = [Tok.rbrace] from by decide]
  cases tokenize r <;> simp [tplToks]

theorem tokenize_encStoreTail :
    ∀ (st : List (String × Template)), storeOK st = true → ∀ (r : List Char),
      tokenize ((encStoreTail st).data ++ r) =
        (tokenize r).map (storeTailToksE st ++ ·) := by
  intro st
  induction st with
  | nil =>
    intro _ r
    show tokenize (("" : String).data ++ r) = _
    rw [show ("" : String).data = [] from rfl, List.nil_append]
    cases tokenize r <;> simp [storeTailToksE]
  | cons p rest ih =>
    intro hOK r
    cases p with
    | mk k t =>
      simp only [storeOK, List.all_cons, Bool.and_eq_true] at hOK
      show tokenize ((",\n  " ++ encString k ++ ": " ++ encTemplate t ++
        encStoreTail rest).data ++ r) = _
      simp only [data_append, List.append_assoc]
      rw [tokenize_glue (",\n  " : String).data (by decide),
        tokenize_encString k hOK.1.1,
        tokenize_glue (": " : String).data (by decide),
        tokenize_encTemplate t hOK.1.2,
        ih hOK.2,
        show (",\n  " : String).data.filterMap glueTok = [Tok.comma] from by decide,
        show (": " : String).data.filterMap glueTok = [Tok.colon] from by decide]
      cases tokenize r <;> simp [storeTailToksE]

theorem tokenize_encStore (st : List (String × Template)) (hOK : storeOK st = true)
    (r : List Char) :
    tokenize ((encStore st).data ++ r) = (tokenize r).map (storeToks st ++ ·) := by
  cases st with
  | nil =>
    show tokenize (("\x7b\x7d" : String).data ++ r) = _
    rw [show ("\x7b\x7d" : String).data ++ r = '\x7b' :: '\x7d' :: r from rfl,
      tk_lb, tk_rb]
    cases tokenize r <;> simp [storeToks]
  | cons p rest =>
    cases p with
    | mk k t =>
      simp only [storeOK, List.all_cons, Bool.and_eq_true] at hOK
      show tokenize (("\x7b\n  " ++ encString k ++ ": " ++ encTemplate t ++
        encStoreTail rest ++ "\n\x7d").data ++ r) = _
      simp only [data_append, List.append_assoc]
      rw [tokenize_glue ("\x7b\n  " : String).data (by decide),
        tokenize_encString k hOK.1.1,
        tokenize_glue (": " : String).data (by decide),
        tokenize_encTemplate t hOK.1.2,
        tokenize_encStoreTail rest hOK.2,
        tokenize_glue ("\n\x7d" : String).data (by decide),
        show ("\x7b\n  " : String).data.filterMap glueTok = [Tok.lbrace] from by decide,
        show (": " : String).data.filterMap glueTok = [Tok.colon] from by decide,
        show ("\n\x7d" : String).data.filterMap glueTok = [Tok.rbrace] from by decide,
        show storeToks ((k, t) :: rest) =
          Tok.lbrace :: Tok.str k :: Tok.colon :: (tplToks t ++ storeToksTail rest)
          from rfl,
        storeToksTail_bridge rest]
      cases tokenize r <;> simp

theorem tokenize_encStore_full (st : List (String × Template))
    (hOK : storeOK st = true) :
    tokenize (encStore st).data = some (storeToks st) := by
  have h := tokenize_encStore st hOK []
  rw [List.append_nil] at h
  rw [h, show tokenize ([] : List Char) = some [] from rfl]
  simp


theorem parseVal_str (f : Nat) (s : String) (ts : List Tok) (hf : 1 ≤ f) :
    parseValF f (Tok.str s :: ts) = some (J.str s, ts) := by
  cases f with
  | zero => omega
  | succ g => rfl

theorem parseObjTail_end (f : Nat) (ts : List Tok) (hf : 1 ≤ f) :
    parseObjTail f (Tok.rbrace :: ts) = some ([], ts) := by
  cases f with
  | zero => omega
  | succ g => rfl

theorem parseArrTail_vars :
    ∀ (vs : List String) (f : Nat) (ts : List Tok), vs.length + 1 ≤ f →
      parseArrTail f (varsToksTail vs ++ ts) = some (vs.map J.str, ts) := by
  intro vs
  induction vs with
  | nil =>
    intro f ts hf
    cases f with
    | zero => omega
    | succ g => rfl
  | cons v rest ih =>
    intro f ts hf
    simp only [List.length_cons] at hf
    cases f with
    | zero => omega
    | succ g =>
      have h1 : parseValF g (Tok.str v :: (varsToksTail rest ++ ts)) =
          some (J.str v, varsToksTail rest ++ ts) :=
        parseVal_str g v _ (by omega)
      have h2 : parseArrTail g (varsToksTail rest ++ ts) = some (rest.map J.str, ts) :=
        ih g ts (by omega)
      show (match parseValF g (Tok.str v :: (varsToksTail rest ++ ts)) with
            | some (v, ts1) =>
              match parseArrTail g ts1 with
              | some (vs, ts2) => some (v :: vs, ts2)
              | none => none
            | none => none) = _
      rw [h1]
      show (match parseArrTail g (varsToksTail rest ++ ts) with
            | some (vs, ts2) => some (J.str v :: vs, ts2)
            | none => none) = _
      rw [h2]
      rfl

theorem parseVal_vars :
    ∀ (vs : List String) (f : Nat) (ts : List Tok), vs.length + 2 ≤ f →
      parseValF f (varsToks vs ++ ts) = some (J.arr (vs.map J.str), ts) := by
  intro vs f ts hf
  cases vs with
  | nil =>
    cases f with
    | zero => omega
    | succ g => rfl
  | cons v rest =>
    simp only [List.length_cons] at hf
    cases f with
    | zero => omega
    | succ g =>
      have h1 : parseValF g (Tok.str v :: (varsToksTail rest ++ ts)) =
          some (J.str v, varsToksTail rest ++ ts) :=
        parseVal_str g v _ (by omega)
      have h2 : parseArrTail g (varsToksTail rest ++ ts) = some (rest.map J.str, ts) :=
        parseArrTail_vars rest g ts (by omega)
      show (match parseValF g (Tok.str v :: (varsToksTail rest ++ ts)) with
            | some (v, ts1) =>
              match parseArrTail g ts1 with
              | some (vs, ts2) => some (J.arr (v :: vs), ts2)
              | none => none
            | none => none) = _
      rw [h1]
      show (match parseArrTail g (varsToksTail rest ++ ts) with
            | some (vs, ts2) => some (J.arr (J.str v :: vs), ts2)
            | none => none) = _
      rw [h2]
      rfl

theorem parseObjTail_str_step (f : Nat) (hf : 1 ≤ f) (k s : String) (rest : List Tok)
    (ms : List (String × J)) (ts : List Tok) (h : parseObjTail f rest = some (ms, ts)) :
    parseObjTail (f + 1) (Tok.comma :: Tok.str k :: Tok.colon :: Tok.str s :: rest) =
      some ((k, J.str s) :: ms, ts) := by
  show (match parseValF f (Tok.str s :: rest) with
        | some (v, ts1) =>
          match parseObjTail f ts1 with
          | some (ms, ts2) => some ((k, v) :: ms, ts2)
          | none => none
        | none => none) = _
  rw [parseVal_str f s rest hf]
  show (match parseObjTail f rest with
        | some (ms2, ts2) => some ((k, J.str s) :: ms2, ts2)
        | none => none) = _
  rw [h]

theorem parseObjTail_vars_step (f : Nat) (k : String) (vs : List String)
    (rest : List Tok) (ms : List (String × J)) (ts : List Tok)
    (hf : vs.length + 2 ≤ f) (h : parseObjTail f rest = some (ms, ts)) :
    parseObjTail (f + 1)
        (Tok.comma :: Tok.str k :: Tok.colon :: (varsToks vs ++ rest)) =
      some ((k, J.arr (vs.map J.str)) :: ms, ts) := by
  show (match parseValF f (varsToks vs ++ rest) with
        | some (v, ts1) =>
          match parseObjTail f ts1 with
          | some (ms, ts2) => some ((k, v) :: ms, ts2)
          | none => none
        | none => none) = _
  rw [parseVal_vars vs f rest hf]
  show (match parseObjTail f rest with
        | some (ms2, ts2) => some ((k, J.arr (vs.map J.str)) :: ms2, ts2)
        | none => none) = _
  rw [h]

theorem parseVal_tpl (t : Template) :
    ∀ (f : Nat) (ts : List Tok), t.vars.length + 12 ≤ f →
      parseValF f (tplToks t ++ ts) = some (jTemplate t, ts) := by
  intro f ts hf
  simp only [tplToks, List.append_assoc, List.cons_append, List.nil_append]
  cases f with
  | zero => omega
  | succ g =>
    cases g with
    | zero => omega
    | succ g1 =>
      cases g1 with
      | zero => omega
      | succ g2 =>
        cases g2 with
        | zero => omega
        | succ g3 =>
          cases g3 with
          | zero => omega
          | succ g4 =>
            have e1 : parseObjTail g4 (Tok.rbrace :: ts) = some ([], ts) :=
              parseObjTail_end g4 ts (by omega)
            have e2 : parseObjTail (g4 + 1)
                (Tok.comma :: Tok.str "template" :: Tok.colon ::
                  Tok.str t.template :: Tok.rbrace :: ts) =
                some ([("template", J.str t.template)], ts) :=
              parseObjTail_str_step g4 (by omega) "template" t.template _ _ _ e1
            have e3 : parseObjTail ((g4 + 1) + 1)
                (Tok.comma :: Tok.str "variables" :: Tok.colon ::
                  (varsToks t.vars ++ (Tok.comma :: Tok.str "template" :: Tok.colon ::
                    Tok.str t.template :: Tok.rbrace :: ts))) =
                some (("variables", J.arr (t.vars.map J.str)) ::
                  [("template", J.str t.template)], ts) :=
              parseObjTail_vars_step (g4 + 1) "variables" t.vars _ _ _ (by omega) e2
            have e4 : parseObjTail (((g4 + 1) + 1) + 1)
                (Tok.comma :: Tok.str "description" :: Tok.colon ::
                  Tok.str t.description :: Tok.comma :: Tok.str "variables" ::
                  Tok.colon :: (varsToks t.vars ++ (Tok.comma :: Tok.str "template" ::
                    Tok.colon :: Tok.str t.template :: Tok.rbrace :: ts))) =
                some (("description", J.str t.description) ::
                  ("variables", J.arr (t.vars.map J.str)) ::
                  [("template", J.str t.template)], ts) :=
              parseObjTail_str_step ((g4 + 1) + 1) (by omega) "description" t.description _ _ _ e3
            have e5 : parseObjTail ((((g4 + 1) + 1) + 1) + 1)
                (Tok.comma :: Tok.str "category" :: Tok.colon ::
                  Tok.str t.category :: Tok.comma :: Tok.str "description" ::
                  Tok.colon :: Tok.str t.description :: Tok.comma ::
                  Tok.str "variables" :: Tok.colon ::
                  (varsToks t.vars ++ (Tok.comma :: Tok.str "template" ::
                    Tok.colon :: Tok.str t.template :: Tok.rbrace :: ts))) =
                some (("category", J.str t.category) ::
                  ("description", J.str t.description) ::
                  ("variables", J.arr (t.vars.map J.str)) ::
                  [("template", J.str t.template)], ts) :=
              parseObjTail_str_step (((g4 + 1) + 1) + 1) (by omega) "category" t.category _ _ _ e4
            show (match parseValF ((((g4 + 1) + 1) + 1) + 1)
                (Tok.str t.name :: Tok.comma :: Tok.str "category" :: Tok.colon ::
                  Tok.str t.category :: Tok.comma :: Tok.str "description" ::
                  Tok.colon :: Tok.str t.description :: Tok.comma ::
                  Tok.str "variables" :: Tok.colon ::
                  (varsToks t.vars ++ (Tok.comma :: Tok.str "template" ::
                    Tok.colon :: Tok.str t.template :: Tok.rbrace :: ts))) with
              | some (v, ts1) =>
                match parseObjTail ((((g4 + 1) + 1) + 1) + 1) ts1 with
                | some (ms, ts2) => some (J.obj (("name", v) :: ms), ts2)
                | none => none
              | none => none) = _
            rw [parseVal_str ((((g4 + 1) + 1) + 1) + 1) t.name _ (by omega)]
            show (match parseObjTail ((((g4 + 1) + 1) + 1) + 1)
                (Tok.comma :: Tok.str "category" :: Tok.colon ::
                  Tok.str t.category :: Tok.comma :: Tok.str "description" ::
                  Tok.colon :: Tok.str t.description :: Tok.comma ::
                  Tok.str "variables" :: Tok.colon ::
                  (varsToks t.vars ++ (Tok.comma :: Tok.str "template" ::
                    Tok.colon :: Tok.str t.template :: Tok.rbrace :: ts))) with
              | some (ms, ts2) => some (J.obj (("name", J.str t.name) :: ms), ts2)
              | none => none) = _
            rw [e5]
            rfl

theorem parseObjTail_tpl_step (f : Nat) (k : String) (t : Template)
    (rest : List Tok) (ms : List (String × J)) (ts : List Tok)
    (hf : t.vars.length + 12 ≤ f) (h : parseObjTail f rest = some (ms, ts)) :
    parseObjTail (f + 1) (Tok.comma :: Tok.str k :: Tok.colon :: (tplToks t ++ rest)) =
      some ((k, jTemplate t) :: ms, ts) := by
  show (match parseValF f (tplToks t ++ rest) with
        | some (v, ts1) =>
          match parseObjTail f ts1 with
          | some (ms, ts2) => some ((k, v) :: ms, ts2)
          | none => none
        | none => none) = _
  rw [parseVal_tpl t f rest hf]
  show (match parseObjTail f rest with
        | some (ms2, ts2) => some ((k, jTemplate t) :: ms2, ts2)
        | none => none) = _
  rw [h]

theorem parseObjTail_store :
    ∀ (st : List (String × Template)) (f : Nat) (ts : List Tok), storeNeed st ≤ f →
      parseObjTail f (storeToksTail st ++ ts) =
        some (st.map (fun p => (p.1, jTemplate p.2)), ts) := by
  intro st
  induction st with
  | nil =>
    intro f ts hf
    exact parseObjTail_end f ts (by simpa [storeNeed] using hf)
  | cons p rest ih =>
    intro f ts hf
    cases p with
    | mk k t =>
      simp only [storeNeed] at hf
      cases f with
      | zero => omega
      | succ g =>
        have hrec : parseObjTail g (storeToksTail rest ++ ts) =
            some (rest.map (fun p => (p.1, jTemplate p.2)), ts) :=
          ih g ts (by omega)
        have hstep := parseObjTail_tpl_step g k t (storeToksTail rest ++ ts) _ _
          (by omega) hrec
        show parseObjTail (g + 1)
            (Tok.comma :: Tok.str k :: Tok.colon ::
              ((tplToks t ++ storeToksTail rest) ++ ts)) = _
        rw [List.append_assoc]
        exact hstep

theorem parseVal_store :
    ∀ (st : List (String × Template)) (f : Nat) (ts : List Tok),
      storeNeed st + 2 ≤ f →
      parseValF f (storeToks st ++ ts) = some (jStore st, ts) := by
  intro st f ts hf
  cases st with
  | nil =>
    cases f with
    | zero => simp [storeNeed] at hf
    | succ g => rfl
  | cons p rest =>
    cases p with
    | mk k t =>
      simp only [storeNeed] at hf
      cases f with
      | zero => omega
      | succ g =>
        have hrec : parseObjTail g (storeToksTail rest ++ ts) =
            some (rest.map (fun p => (p.1, jTemplate p.2)), ts) :=
          parseObjTail_store rest g ts (by omega)
        show (match parseValF g ((tplToks t ++ storeToksTail rest) ++ ts) with
              | some (v, ts1) =>
                match parseObjTail g ts1 with
                | some (ms, ts2) => some (J.obj ((k, v) :: ms), ts2)
                | none => none
              | none => none) = _
        rw [List.append_assoc, parseVal_tpl t g _ (by omega)]
        show (match parseObjTail g (storeToksTail rest ++ ts) with
              | some (ms2, ts2) => some (J.obj ((k, jTemplate t) :: ms2), ts2)
              | none => none) = _
        rw [hrec]
        rfl

theorem varsToksTail_len :
    ∀ (vs : List String), (varsToksTail vs).length = 2 * vs.length + 1 := by
  intro vs
  induction vs with
  | nil => rfl
  | cons v rest ih =>
    simp only [varsToksTail, List.length_cons, ih]
    omega

theorem varsToks_len (vs : List String) : vs.length + 2 ≤ (varsToks vs).length := by
  cases vs with
  | nil => simp [varsToks]
  | cons v rest =>
    simp only [varsToks, List.length_cons, varsToksTail_len]
    omega

theorem tplToks_len (t : Template) : t.vars.length + 22 ≤ (tplToks t).length := by
  have hv := varsToks_len t.vars
  simp only [tplToks, List.append_assoc, List.length_append, List.length_cons,
    List.length_nil]
  omega

theorem storeToksTail_need :
    ∀ (st : List (String × Template)), storeNeed st ≤ (storeToksTail st).length := by
  intro st
  induction st with
  | nil => simp [storeNeed, storeToksTail]
  | cons p rest ih =>
    cases p with
    | mk k t =>
      have ht := tplToks_len t
      simp only [storeNeed, storeToksTail, List.length_cons, List.length_append]
      omega

theorem storeToks_need (st : List (String × Template)) :
    storeNeed st + 2 ≤ (storeToks st).length + 1 := by
  cases st with
  | nil => simp [storeNeed, storeToks]
  | cons p rest =>
    cases p with
    | mk k t =>
      have ht := tplToks_len t
      have hr := storeToksTail_need rest
      simp only [storeNeed, storeToks, List.length_cons, List.length_append]
      omega


theorem decodeStrList_map : ∀ (vs : List String),
    decodeStrList (vs.map J.str) = some vs := by
  intro vs
  induction vs with
  | nil => rfl
  | cons v rest ih => simp [decodeStrList, ih]

theorem decodeTemplate_j (t : Template) : decodeTemplate (jTemplate t) = some t := by
  show (match decodeStrList (t.vars.map J.str) with
        | some vs =>
          some { name := t.name, category := t.category, description := t.description,
                 vars := vs, template := t.template }
        | none => none) = some t
  rw [decodeStrList_map]

theorem decodeEntries_map : ∀ (st : List (String × Template)),
    decodeEntries (st.map (fun p => (p.1, jTemplate p.2))) = some st := by
  intro st
  induction st with
  | nil => rfl
  | cons p rest ih =>
    cases p with
    | mk k t =>
      show (match decodeTemplate (jTemplate t),
              decodeEntries (rest.map (fun p => (p.1, jTemplate p.2))) with
            | some t, some r => some ((k, t) :: r)
            | _, _ => none) = _
      rw [decodeTemplate_j, ih]

theorem decodeStore_j (st : List (String × Template)) :
    decodeStore (jStore st) = some st := decodeEntries_map st

theorem loadStore_encStore (st : List (String × Template)) (hOK : storeOK st = true) :
    loadStore (encStore st) = some st := by
  show (match tokenize (encStore st).data with
        | some toks =>
          match parseValF (toks.length + 1) toks with
          | some (j, []) => decodeStore j
          | _ => none
        | none => none) = some st
  rw [tokenize_encStore_full st hOK]
  show (match parseValF ((storeToks st).length + 1) (storeToks st) with
        | some (j, []) => decodeStore j
        | _ => none) = some st
  have hp : parseValF ((storeToks st).length + 1) (storeToks st ++ []) =
      some (jStore st, []) :=
    parseVal_store st _ [] (by have := storeToks_need st; omega)
  rw [List.append_nil] at hp
  rw [hp]
  show decodeStore (jStore st) = some st
  exact decodeStore_j st

theorem contains_true_mem {l : List String} {u : String}
    (h : l.contains u = true) : u ∈ l := by
  induction l with
  | nil => simp [List.contains] at h
  | cons a l' ih =>
    simp only [List.contains_cons, Bool.or_eq_true, beq_iff_eq] at h
    rcases h with he | hm
    · rw [he]
      exact List.mem_cons_self a l'
    · exact List.mem_cons_of_mem a (ih hm)

theorem not_key_alookup_none {α : Type} (P : List (String × α)) (u : String)
    (h : (P.map Prod.fst).contains u = false) : alookup P u = none := by
  induction P with
  | nil => rfl
  | cons p P' ih =>
    cases p with
    | mk k x =>
      simp only [List.map_cons, List.contains_cons, Bool.or_eq_false_iff] at h
      have hk : ¬ k = u := by
        intro he
        subst he
        simp at h
      rw [show alookup ((k, x) :: P') u = alookup P' u by simp [alookup, hk]]
      exact ih h.2

theorem alookup_map_update :
    ∀ (store : List (String × Template)) (id : String) (rec : Template),
      id ∈ store.map Prod.fst →
      alookup (store.map (fun p => if p.1 = id then (id, rec) else p)) id =
        some rec := by
  intro store id rec hmem
  induction store with
  | nil => simp at hmem
  | cons p P' ih =>
    cases p with
    | mk k x =>
      by_cases hk : k = id
      · subst hk
        rw [show List.map (fun p => if p.1 = k then (k, rec) else p)
              (((k, x)) :: P') =
            (k, rec) :: List.map (fun p => if p.1 = k then (k, rec) else p) P' by
          simp]
        simp [alookup]
      · simp only [List.map_cons, List.mem_cons] at hmem
        rcases hmem with he | hm
        · exact absurd he.symm hk
        · rw [show List.map (fun p => if p.1 = id then (id, rec) else p)
                (((k, x)) :: P') =
              (k, x) :: List.map (fun p => if p.1 = id then (id, rec) else p) P' by
            simp [hk]]
          rw [show alookup ((k, x) ::
              List.map (fun p => if p.1 = id then (id, rec) else p) P') id =
              alookup (List.map (fun p => if p.1 = id then (id, rec) else p) P') id by
            simp [alookup, hk]]
          exact ih hm

theorem alookup_dictSet (store : List (String × Template)) (id : String)
    (rec : Template) : alookup (dictSet store id rec) id = some rec := by
  by_cases hc : (store.map Prod.fst).contains id = true
  · rw [show dictSet store id rec =
        store.map (fun p => if p.1 = id then (id, rec) else p) by
      unfold dictSet
      rw [if_pos hc]]
    exact alookup_map_update store id rec (contains_true_mem hc)
  · have hcf : (store.map Prod.fst).contains id = false := by
      cases hcc : (store.map Prod.fst).contains id
      · rfl
      · exact absurd hcc hc
    rw [show dictSet store id rec = store ++ [(id, rec)] by
      unfold dictSet
      rw [if_neg (by simp only [hcf]; decide)]]
    rw [alookup_append_none store [(id, rec)] id (not_key_alookup_none store id hcf)]
    simp [alookup]

theorem storeOK_map_update :
    ∀ (store : List (String × Template)) (id : String) (rec : Template),
      storeOK store = true → strOK id = true → tplOK rec = true →
      storeOK (store.map (fun p => if p.1 = id then (id, rec) else p)) = true := by
  intro store id rec hs hid hr
  induction store with
  | nil => rfl
  | cons p P' ih =>
    cases p with
    | mk k x =>
      simp only [storeOK, List.map_cons, List.all_cons, Bool.and_eq_true] at hs ⊢
      constructor
      · by_cases hk : k = id
        · rw [show (if ((k, x) : String × Template).1 = id then (id, rec)
              else (k, x)) = (id, rec) by simp [hk]]
          exact ⟨hid, hr⟩
        · rw [show (if ((k, x) : String × Template).1 = id then (id, rec)
              else (k, x)) = (k, x) by simp [hk]]
          exact hs.1
      · exact ih hs.2

theorem storeOK_dictSet (store : List (String × Template)) (id : String)
    (rec : Template) (hs : storeOK store = true) (hid : strOK id = true)
    (hr : tplOK rec = true) : storeOK (dictSet store id rec) = true := by
  by_cases hc : (store.map Prod.fst).contains id = true
  · rw [show dictSet store id rec =
        store.map (fun p => if p.1 = id then (id, rec) else p) by
      unfold dictSet
      rw [if_pos hc]]
    exact storeOK_map_update store id rec hs hid hr
  · have hcf : (store.map Prod.fst).contains id = false := by
      cases hcc : (store.map Prod.fst).contains id
      · rfl
      · exact absurd hcc hc
    rw [show dictSet store id rec = store ++ [(id, rec)] by
      unfold dictSet
      rw [if_neg (by simp only [hcf]; decide)]]
    simp only [storeOK, List.all_append, List.all_cons, List.all_nil, Bool.and_true,
      Bool.and_eq_true]
    refine ⟨by simpa [storeOK] using hs, hid, hr⟩

/--
C8: persisted-store round-trip.  Inserting a template record into the store,
writing the store file exactly as `json.dumps(templates, ensure_ascii=False,
indent=2)` lays it out, and reloading fresh through the JSON
tokenizer/parser/decoder yields the identical store — in particular the
identical record under its id.  The hypotheses restrict every string to the
character domain whose escapes the model implements (all characters except
control characters other than newline, tab and carriage return).
-/
theorem store_round_trip (store : List (String × Template)) (id : String)
    (rec : Template) (hs : storeOK store = true) (hid : strOK id = true)
    (hr : tplOK rec = true) :
    loadStore (encStore (dictSet store id rec)) = some (dictSet store id rec) ∧
    alookup (dictSet store id rec) id = some rec :=
  ⟨loadStore_encStore (dictSet store id rec) (storeOK_dictSet store id rec hs hid hr),
   alookup_dictSet store id rec⟩

/--
Witness for C8: a fresh store receives one concrete record (with a quote, a
newline and braces in its fields) and the hypotheses hold by computation.
-/
theorem store_round_trip_witness :
    storeOK ([] : List (String × Template)) = true ∧ strOK "my_debug" = true ∧
    tplOK demoTpl = true ∧
    loadStore (encStore (dictSet [] "my_debug" demoTpl)) =
      some (dictSet [] "my_debug" demoTpl) ∧
    alookup (dictSet [] "my_debug" demoTpl) "my_debug" = some demoTpl :=
  ⟨rfl, by decide, by decide,
   (store_round_trip [] "my_debug" demoTpl rfl (by decide) (by decide)).1,
   (store_round_trip [] "my_debug" demoTpl rfl (by decide) (by decide)).2⟩

end PromptGen
